import Mathlib

/-!
# simpledrm: a shallow embedding of the firmware-framebuffer DRM driver

The development follows `drivers/gpu/drm/simpledrm/`:

* `simpledrm_drv.c`    : the biased device counter `n_used`, acquire / release / remove;
* `simpledrm_damage.c` : `sdrm_put`, the per-pixel blitters, the line copy, `sdrm_dirty`;
* `simpledrm_kms.c`    : `sdrm_display_pipe_update`, `sdrm_fb_dirty`.

Conventions of the embedding.

* C integers are `Nat` / `Int` with explicit truncation (`u16`, `u32`, `wrap_int`).
* A memory region is a function from byte offsets to bytes (`Mem`).  Code that
  stores into the hardware region returns the list of byte stores it performs,
  in program order (`Writes`); `commit` replays them on a memory.  Source
  buffer and hardware region never alias (one is a vmap of shmem pages, the
  other an ioremap), so the stores of a blit depend on the source only.
* Pointer offsets (`src += src_stride`) are exact; `u32` expressions wrap.
* `put_unaligned` / `get_unaligned` use the byte order of the platform, which
  is a parameter (`Endian`).
-/

namespace Simpledrm

/-! ## Machine integers and errno values -/

def INT_MIN : Int := -2147483648

def INT_MAX : Int := 2147483647

/-- Two's-complement value of a C `int` after wrap-around. -/
def wrap_int (x : Int) : Int := (x + 2147483648) % 4294967296 - 2147483648

/-- Truncation to `u8`. -/
def u8 (x : Nat) : Nat := x % 256

/-- Truncation to `u16`. -/
def u16 (x : Nat) : Nat := x % 65536

/-- Truncation to `u32`. -/
def u32 (x : Nat) : Nat := x % 4294967296

def ENODEV : Int := 19

def ENOMEM : Int := 12

def EIO : Int := 5

def EINVAL : Int := 22

def EPROBE_DEFER : Int := 517

/-! ## Atomic counter primitives (`include/linux/atomic.h`) -/

/-- Modelled from the spec: `atomic_inc_unless_negative` lives in
`include/linux/atomic.h`, which is not among the sources.  "Atomically
increments the counter but only if it is currently non-negative."  The result
is the success flag and the new counter value. -/
def atomic_inc_unless_negative (v : Int) : Bool × Int :=
  if 0 ≤ v then (true, wrap_int (v + 1)) else (false, v)

/-- Modelled from the spec: `atomic_dec_return` (`include/linux/atomic.h`, not
among the sources): "atomically decrements" and returns the new value. -/
def atomic_dec_return (v : Int) : Int := wrap_int (v - 1)

/-- Modelled from the spec: `atomic_add` / `atomic_add_return`
(`include/linux/atomic.h`, not among the sources): adds `i` to the counter. -/
def atomic_add (i v : Int) : Int := wrap_int (v + i)

/-! ## Data model (`simpledrm.h`) -/

/-- Byte-addressed memory region: offset to byte. -/
abbrev Mem := Nat → Nat

/-- Byte stores `(offset, value)` in program order. -/
abbrev Writes := List (Nat × Nat)

/-- One byte store. -/
def store (m : Mem) (a v : Nat) : Mem := fun x => if x = a then u8 v else m x

/-- Replays a list of byte stores on a memory. -/
def commit (m : Mem) : Writes → Mem
  | [] => m
  | (a, v) :: ws => commit (store m a v) ws

/-- Byte order of the platform. -/
inductive Endian where
  | little
  | big
deriving DecidableEq, Repr

/-- The struct `sdrm_hw`.  `map` is the pointer returned by `ioremap_wc` (`none` is
`NULL`); `iomem` is the content of the physical region, addressed by the offset
from its start. -/
structure sdrm_hw where
  width : Nat
  height : Nat
  stride : Nat
  bpp : Nat
  format : Nat
  base : Nat
  size : Nat
  map : Option Nat
  iomem : Mem

/-- The struct `sdrm_bo`.  `vmapping` is the pointer returned by `vmap` (`none` is
`NULL`); `data` is the content of the backing pages, addressed by the offset
from the start of the mapping. -/
structure sdrm_bo where
  size : Nat
  pages : Option Nat
  vmapping : Option Nat
  data : Mem

/-- The fields of `struct drm_framebuffer` that the driver reads. -/
structure drm_framebuffer where
  width : Nat
  height : Nat
  pixel_format : Nat
  bits_per_pixel : Nat
  pitches0 : Nat
  offsets0 : Nat

/-- The struct `sdrm_fb`.  `ptr` is the address of the object, used where the code
compares framebuffer pointers. -/
structure sdrm_fb where
  ptr : Nat
  base : drm_framebuffer
  bo : sdrm_bo

/-- The struct `drm_crtc_state`, reduced to the pending completion event. -/
structure drm_crtc_state where
  event : Option Nat

/-- One damage application: the framebuffer (by address) and the rectangle
`(x, y, width, height)` passed to `sdrm_dirty`. -/
structure Damage where
  fb : Nat
  x : Nat
  y : Nat
  width : Nat
  height : Nat
deriving DecidableEq, Repr

/-- Result of a kernel call that returns a pointer or an `ERR_PTR`. -/
inductive ErrPtr where
  | ok (p : Nat)
  | err (e : Int)
deriving DecidableEq, Repr

/-- The two kinds of power resources of `simpledrm_of.c`. -/
inductive ResKind where
  | clk
  | regulator
deriving DecidableEq, Repr

/-- Calls into the clock, regulator and mode-setting layers that take or give
back a resource.  `get` is a successful `of_clk_get` / `regulator_get_optional`,
`enable` a successful `clk_prepare_enable` / `regulator_enable`, `disable` is
`clk_disable_unprepare` / `regulator_disable`, `put` is `clk_put` /
`regulator_put`; calls with a `NULL` argument, which the clock layer ignores,
are not recorded. -/
inductive ResEv where
  | get (k : ResKind) (h : Nat)
  | enable (k : ResKind) (h : Nat)
  | disable (k : ResKind) (h : Nat)
  | put (k : ResKind) (h : Nat)
  | mode_config_init
  | mode_config_cleanup
deriving DecidableEq, Repr

/-- Calls recorded by the teardown path. -/
inductive Teardown where
  | unbind
  | free
deriving DecidableEq, Repr

/-- The struct `sdrm_device` with the parts of `pipe` the driver touches.

* `plane_state_fb` is `pipe.plane.state->fb`, `plane_fb` is `pipe.plane.fb`;
* `crtc_state` is `pipe.crtc.state`;
* `sent` logs the events handed to `drm_crtc_send_vblank_event`;
* `kms_bound` stands for `ddev->mode_config.funcs != NULL`;
* `registered` is set by `drm_dev_register`, cleared by `drm_dev_unregister`;
* `teardown` logs the calls of `sdrm_device_unbind` and `sdrm_device_free`;
* `warnings` counts the `WARN_ON`s that fired;
* `freed` is set once `sdrm_device_free` has released the object;
* `damage` logs the calls of `sdrm_dirty`;
* `io_log` logs the byte stores made through `hw->map`, in order;
* `clks` and `regulators` are the first `n_clks` / `n_regulators` entries of the
  arrays of that name (`none` is a `NULL` entry);
* `fbdev` is the pointer of that name;
* `res_log` logs the resource calls (`ResEv`) in order. -/
structure sdrm_device where
  n_used : Int
  hw : sdrm_hw
  plane_state_fb : Option sdrm_fb
  plane_fb : Option sdrm_fb
  crtc_state : Option drm_crtc_state
  sent : List Nat
  kms_bound : Bool
  registered : Bool
  teardown : List Teardown
  warnings : Nat
  freed : Bool
  damage : List Damage
  io_log : Writes
  clks : List (Option Nat) := []
  regulators : List (Option Nat) := []
  fbdev : Option Nat := none
  res_log : List ResEv := []

/-- The field `n_clks`. -/
def sdrm_device.n_clks (sdrm : sdrm_device) : Nat := sdrm.clks.length

/-- The field `n_regulators`. -/
def sdrm_device.n_regulators (sdrm : sdrm_device) : Nat := sdrm.regulators.length

/-! ## Clocks and regulators (`simpledrm_of.c`, with `CONFIG_OF`, `CONFIG_COMMON_CLK`
and `CONFIG_REGULATOR` set) -/

/-- The lookup loop shared by `sdrm_of_bind_clocks` and `sdrm_of_bind_regulators`.
Each entry is one candidate: whether its name could be allocated (always so
for clocks) and what `of_clk_get` / `regulator_get_optional` returns for it.
A valid handle is appended to the array, `-EPROBE_DEFER` stops the loop
(first component `true`), any other error is only reported. -/
def of_get_loop (k : ResKind) :
    List (Bool × ErrPtr) → List (Option Nat) → List ResEv → Bool × List (Option Nat) × List ResEv
  | [], arr, log => (false, arr, log)
  | (false, _) :: ls, arr, log => of_get_loop k ls arr log
  | (true, ErrPtr.ok h) :: ls, arr, log =>
    of_get_loop k ls (arr ++ [some h]) (log ++ [ResEv.get k h])
  | (true, ErrPtr.err e) :: ls, arr, log =>
    if e = -EPROBE_DEFER then (true, arr, log) else of_get_loop k ls arr log

/-- The enable loop shared by the two bind functions: a `NULL` entry is skipped,
an entry whose enable fails is put and set to `NULL`. -/
def of_enable_loop (k : ResKind) (enable : Nat → Int) :
    List (Option Nat) → List (Option Nat) × List ResEv
  | [] => ([], [])
  | none :: cs => (none :: (of_enable_loop k enable cs).1, (of_enable_loop k enable cs).2)
  | some h :: cs =>
    if enable h < 0 then
      (none :: (of_enable_loop k enable cs).1, ResEv.put k h :: (of_enable_loop k enable cs).2)
    else
      (some h :: (of_enable_loop k enable cs).1,
        ResEv.enable k h :: (of_enable_loop k enable cs).2)

/-- The loop of the `error:` label of the two bind functions: every held entry is put. -/
def of_put_all (k : ResKind) : List (Option Nat) → List ResEv
  | [] => []
  | none :: cs => of_put_all k cs
  | some h :: cs => ResEv.put k h :: of_put_all k cs

/-- The loop of the two unbind functions: every held entry is disabled and put. -/
def of_release_all (k : ResKind) : List (Option Nat) → List ResEv
  | [] => []
  | none :: cs => of_release_all k cs
  | some h :: cs => ResEv.disable k h :: ResEv.put k h :: of_release_all k cs

/-- What the clock layer answers: whether `kcalloc` succeeds, the result of
`of_clk_get(np, i)` for each `i` below `of_clk_get_parent_count(np)`, and the
result of `clk_prepare_enable` for each clock. -/
structure clk_env where
  alloc_ok : Bool
  lookups : List ErrPtr
  enable : Nat → Int

/-- What the regulator layer answers: whether `kcalloc` succeeds, for each
`-supply` property of the node whether `kstrndup` succeeds and the result of
`regulator_get_optional`, and the result of `regulator_enable` for each
regulator. -/
structure reg_env where
  alloc_ok : Bool
  props : List (Bool × ErrPtr)
  enable : Nat → Int

/-- The device-tree side of a bind: whether the device has an `of_node`, and the
answers of the clock and regulator layers. -/
structure of_env where
  has_node : Bool
  clk : clk_env
  reg : reg_env

/-- The function `sdrm_of_bind_clocks`; it is entered with `n_clks = 0` only. -/
def sdrm_of_bind_clocks (env : clk_env) (sdrm : sdrm_device) : Int × sdrm_device :=
  if env.lookups.length < 1 then (0, sdrm)
  else if env.alloc_ok = false then (-ENOMEM, sdrm)
  else
    let g := of_get_loop ResKind.clk (env.lookups.map (fun l => (true, l))) [] sdrm.res_log
    if g.1 then
      (-EPROBE_DEFER,
        { sdrm with clks := [], res_log := g.2.2 ++ of_put_all ResKind.clk g.2.1 })
    else
      let en := of_enable_loop ResKind.clk env.enable g.2.1
      (0, { sdrm with clks := en.1, res_log := g.2.2 ++ en.2 })

/-- The function `sdrm_of_unbind_clocks`. -/
def sdrm_of_unbind_clocks (sdrm : sdrm_device) : sdrm_device :=
  { sdrm with clks := [], res_log := sdrm.res_log ++ of_release_all ResKind.clk sdrm.clks }

/-- The function `sdrm_of_bind_regulators`; it is entered with `n_regulators = 0` only. -/
def sdrm_of_bind_regulators (env : reg_env) (sdrm : sdrm_device) : Int × sdrm_device :=
  if env.props.length < 1 then (0, sdrm)
  else if env.alloc_ok = false then (-ENOMEM, sdrm)
  else
    let g := of_get_loop ResKind.regulator env.props [] sdrm.res_log
    if g.1 then
      (-EPROBE_DEFER,
        { sdrm with regulators := [], res_log := g.2.2 ++ of_put_all ResKind.regulator g.2.1 })
    else
      let en := of_enable_loop ResKind.regulator env.enable g.2.1
      (0, { sdrm with regulators := en.1, res_log := g.2.2 ++ en.2 })

/-- The function `sdrm_of_unbind_regulators`. -/
def sdrm_of_unbind_regulators (sdrm : sdrm_device) : sdrm_device :=
  { sdrm with regulators := [],
              res_log := sdrm.res_log ++ of_release_all ResKind.regulator sdrm.regulators }

/-- The function `sdrm_of_unbind`. -/
def sdrm_of_unbind (sdrm : sdrm_device) : sdrm_device :=
  sdrm_of_unbind_clocks (sdrm_of_unbind_regulators sdrm)

/-- The function `sdrm_of_bind`. -/
def sdrm_of_bind (env : of_env) (sdrm : sdrm_device) : Int × sdrm_device :=
  if sdrm.n_clks > 0 ∨ sdrm.n_regulators > 0 then (0, { sdrm with warnings := sdrm.warnings + 1 })
  else if env.has_node = false then (0, sdrm)
  else
    let c := sdrm_of_bind_clocks env.clk sdrm
    if c.1 < 0 then (c.1, sdrm_of_unbind c.2)
    else
      let r := sdrm_of_bind_regulators env.reg c.2
      if r.1 < 0 then (r.1, sdrm_of_unbind r.2)
      else (0, r.2)

/-! ## Device life cycle (`simpledrm_drv.c`) -/

/-- The function `sdrm_hw_unbind`: unmap if mapped. -/
def sdrm_hw_unbind (hw : sdrm_hw) : sdrm_hw :=
  match hw.map with
  | some _ => { hw with map := none }
  | none => hw

/-- The function `sdrm_kms_unbind`: `drm_mode_config_cleanup` runs if
`mode_config.funcs` is set; neither this function nor the cleanup writes
that field. -/
def sdrm_kms_unbind (sdrm : sdrm_device) : sdrm_device :=
  if sdrm.kms_bound then { sdrm with res_log := sdrm.res_log ++ [ResEv.mode_config_cleanup] }
  else sdrm

/-- The function `sdrm_fbdev_unbind` (`simpledrm_fbdev.c`), reduced to the pointer it
clears. -/
def sdrm_fbdev_unbind (sdrm : sdrm_device) : sdrm_device :=
  match sdrm.fbdev with
  | none => sdrm
  | some _ => { sdrm with fbdev := none }

/-- The function `sdrm_device_unbind` on a non-NULL device: `sdrm_fbdev_unbind`,
`sdrm_kms_unbind`, `sdrm_hw_unbind`, `sdrm_of_unbind`. -/
def sdrm_device_unbind (sdrm : sdrm_device) : sdrm_device :=
  let s0 := sdrm_fbdev_unbind sdrm
  let s1 := sdrm_kms_unbind s0
  let s2 := { s1 with hw := sdrm_hw_unbind s1.hw }
  let s3 := sdrm_of_unbind s2
  { s3 with teardown := s3.teardown ++ [Teardown.unbind] }

/-- The function `sdrm_device_free` on a non-NULL device: `WARN_ON(n_used != INT_MIN)`,
then the object is released. -/
def sdrm_device_free (sdrm : sdrm_device) : sdrm_device :=
  { sdrm with
      warnings := if sdrm.n_used ≠ INT_MIN then sdrm.warnings + 1 else sdrm.warnings
      teardown := sdrm.teardown ++ [Teardown.free]
      freed := true }

/-- The function `sdrm_device_acquire`: `(sdrm && atomic_inc_unless_negative(&sdrm->n_used)) ? 0 : -ENODEV`. -/
def sdrm_device_acquire (sdrm : Option sdrm_device) : Int × Option sdrm_device :=
  match sdrm with
  | none => (-ENODEV, none)
  | some d =>
    let r := atomic_inc_unless_negative d.n_used
    (if r.1 then 0 else -ENODEV, some { d with n_used := r.2 })

/-- The function `sdrm_device_release`: decrement, and tear down when the result is
`INT_MIN`. -/
def sdrm_device_release (sdrm : Option sdrm_device) : Option sdrm_device :=
  match sdrm with
  | none => none
  | some d =>
    let v := atomic_dec_return d.n_used
    let d1 := { d with n_used := v }
    if v = INT_MIN then some (sdrm_device_free (sdrm_device_unbind d1)) else some d1

/-- The statements of `sdrm_simplefb_remove`, one per program counter:
0 `atomic_add(INT_MIN, &sdrm->n_used)`, 1 `sdrm_hw_unbind(sdrm->hw)`,
2 `drm_dev_unregister(sdrm->ddev)`, 3 `sdrm_device_release(sdrm)`. -/
def sdrm_simplefb_remove_step (pc : Nat) (sdrm : sdrm_device) : sdrm_device :=
  match pc with
  | 0 => { sdrm with n_used := atomic_add INT_MIN sdrm.n_used }
  | 1 => { sdrm with hw := sdrm_hw_unbind sdrm.hw }
  | 2 => { sdrm with registered := false }
  | 3 => (sdrm_device_release (some sdrm)).getD sdrm
  | _ => sdrm

/-- Number of statements of `sdrm_simplefb_remove`. -/
def remove_len : Nat := 4

/-- The function `sdrm_simplefb_remove`, run without interruption; it returns 0. -/
def sdrm_simplefb_remove (sdrm : sdrm_device) : Int × sdrm_device :=
  (0, sdrm_simplefb_remove_step 3 (sdrm_simplefb_remove_step 2
        (sdrm_simplefb_remove_step 1 (sdrm_simplefb_remove_step 0 sdrm))))

/-! ## Pixel formats (`include/uapi/drm/drm_fourcc.h`) -/

/-- DRM fourcc codes, `fourcc_code(a, b, c, d) = a | b << 8 | c << 16 | d << 24`.  The
header is not among the sources; the values are those of the DRM UAPI
(`'R','G','1','6'` and so on).  Only their being distinct matters below. -/
def DRM_FORMAT_RGB565 : Nat := 0x36314752

def DRM_FORMAT_XRGB1555 : Nat := 0x35315258

def DRM_FORMAT_ARGB1555 : Nat := 0x35315241

def DRM_FORMAT_RGB888 : Nat := 0x34324752

def DRM_FORMAT_XRGB8888 : Nat := 0x34325258

def DRM_FORMAT_ARGB8888 : Nat := 0x34325241

def DRM_FORMAT_ABGR8888 : Nat := 0x34324241

def DRM_FORMAT_XRGB2101010 : Nat := 0x30335258

def DRM_FORMAT_ARGB2101010 : Nat := 0x30335241

/-! ## Unaligned access (`asm/unaligned.h`) and `memcpy` -/

/-- Modelled from the spec: `put_unaligned` of a `u16` (`asm/unaligned.h` is not
among the sources): the two bytes of the value in the byte order of the
platform ("lane order per architecture endianness"). -/
def put_unaligned_u16 (e : Endian) (dst v : Nat) : Writes :=
  match e with
  | Endian.little => [(dst, v % 256), (dst + 1, v / 256 % 256)]
  | Endian.big => [(dst, v / 256 % 256), (dst + 1, v % 256)]

/-- Modelled from the spec: `put_unaligned` of a `u32` (`asm/unaligned.h` is not
among the sources): the four bytes of the value in platform byte order. -/
def put_unaligned_u32 (e : Endian) (dst v : Nat) : Writes :=
  match e with
  | Endian.little =>
    [(dst, v % 256), (dst + 1, v / 256 % 256), (dst + 2, v / 65536 % 256),
     (dst + 3, v / 16777216 % 256)]
  | Endian.big =>
    [(dst, v / 16777216 % 256), (dst + 1, v / 65536 % 256), (dst + 2, v / 256 % 256),
     (dst + 3, v % 256)]

/-- Modelled from the spec: `get_unaligned` of a `u16` (`asm/unaligned.h` is not
among the sources): the value whose bytes, in platform byte order, are found
at `a` and `a + 1`. -/
def get_unaligned_u16 (e : Endian) (m : Mem) (a : Nat) : Nat :=
  match e with
  | Endian.little => u8 (m a) + 256 * u8 (m (a + 1))
  | Endian.big => 256 * u8 (m a) + u8 (m (a + 1))

/-- Modelled from the spec: `get_unaligned` of a `u32` (`asm/unaligned.h` is not
among the sources). -/
def get_unaligned_u32 (e : Endian) (m : Mem) (a : Nat) : Nat :=
  match e with
  | Endian.little =>
    u8 (m a) + 256 * u8 (m (a + 1)) + 65536 * u8 (m (a + 2)) + 16777216 * u8 (m (a + 3))
  | Endian.big =>
    16777216 * u8 (m a) + 65536 * u8 (m (a + 1)) + 256 * u8 (m (a + 2)) + u8 (m (a + 3))

/-- Stores of a loop `for (i = 0; i < n; ++i) body(i)`, in program order. -/
def for_loop (body : Nat → Writes) : Nat → Writes
  | 0 => []
  | n + 1 => for_loop body n ++ body n

/-- Modelled from the spec: `memcpy(dst, src, len)` ("a raw memory copy"), as the
stores of `len` bytes in ascending order; source and destination do not
overlap. -/
def memcpy (src : Mem) (s_off d_off len : Nat) : Writes :=
  for_loop (fun k => [(d_off + k, u8 (src (s_off + k)))]) len

/-! ## Pixel conversion and blitting (`simpledrm_damage.c`) -/

/-- The function `sdrm_put`: stores of one pixel in format `four_cc` at `dst`.  The
channels are `u16` parameters; the intermediate `int` expression is cast to
`u16` or `u32`.  A format outside the table stores nothing. -/
def sdrm_put (e : Endian) (dst four_cc r g b : Nat) : Writes :=
  let r := u16 r
  let g := u16 g
  let b := u16 b
  if four_cc = DRM_FORMAT_RGB565 then
    let r := r >>> 11
    let g := g >>> 10
    let b := b >>> 11
    put_unaligned_u16 e dst (u16 ((r <<< 11) ||| (g <<< 5) ||| b))
  else if four_cc = DRM_FORMAT_XRGB1555 ∨ four_cc = DRM_FORMAT_ARGB1555 then
    let r := r >>> 11
    let g := g >>> 11
    let b := b >>> 11
    put_unaligned_u16 e dst (u16 ((r <<< 10) ||| (g <<< 5) ||| b))
  else if four_cc = DRM_FORMAT_RGB888 then
    let r := r >>> 8
    let g := g >>> 8
    let b := b >>> 8
    match e with
    | Endian.little => [(dst + 2, u8 r), (dst + 1, u8 g), (dst, u8 b)]
    | Endian.big => [(dst, u8 r), (dst + 1, u8 g), (dst + 2, u8 b)]
  else if four_cc = DRM_FORMAT_XRGB8888 ∨ four_cc = DRM_FORMAT_ARGB8888 then
    let r := r >>> 8
    let g := g >>> 8
    let b := b >>> 8
    put_unaligned_u32 e dst (u32 ((r <<< 16) ||| (g <<< 8) ||| b))
  else if four_cc = DRM_FORMAT_ABGR8888 then
    let r := r >>> 8
    let g := g >>> 8
    let b := b >>> 8
    put_unaligned_u32 e dst (u32 ((b <<< 16) ||| (g <<< 8) ||| r))
  else if four_cc = DRM_FORMAT_XRGB2101010 ∨ four_cc = DRM_FORMAT_ARGB2101010 then
    let r := r >>> 4
    let g := g >>> 4
    let b := b >>> 4
    put_unaligned_u32 e dst (u32 ((r <<< 20) ||| (g <<< 10) ||| b))
  else []

/-- Number of bytes that `sdrm_put` stores for a pixel of format `four_cc`: two for
the 16-bit formats, three for RGB888, four for the 32-bit formats, none for a
format outside its table. -/
def sdrm_put_size (four_cc : Nat) : Nat :=
  if four_cc = DRM_FORMAT_RGB565 then 2
  else if four_cc = DRM_FORMAT_XRGB1555 ∨ four_cc = DRM_FORMAT_ARGB1555 then 2
  else if four_cc = DRM_FORMAT_RGB888 then 3
  else if four_cc = DRM_FORMAT_XRGB8888 ∨ four_cc = DRM_FORMAT_ARGB8888 then 4
  else if four_cc = DRM_FORMAT_ABGR8888 then 4
  else if four_cc = DRM_FORMAT_XRGB2101010 ∨ four_cc = DRM_FORMAT_ARGB2101010 then 4
  else 0

/-- Inner loop of `sdrm_blit_from_xrgb8888`: one scanline. -/
def sdrm_blit_from_xrgb8888_line (e : Endian) (src : Mem) (s_off src_bpp d_off dst_bpp
    dst_four_cc width : Nat) : Writes :=
  for_loop (fun i =>
    let val := get_unaligned_u32 e src (s_off + u32 (i * src_bpp))
    sdrm_put e (d_off + u32 (i * dst_bpp)) dst_four_cc
      ((val &&& 0x00ff0000) >>> 8) (val &&& 0x0000ff00) ((val &&& 0x000000ff) <<< 8)) width

/-- The function `sdrm_blit_from_xrgb8888`; `s_off` and `d_off` are the positions of
`src` and `dst` in their regions. -/
def sdrm_blit_from_xrgb8888 (e : Endian) (src : Mem) (s_off src_stride src_bpp d_off dst_stride
    dst_bpp dst_four_cc width : Nat) : Nat → Writes
  | 0 => []
  | height + 1 =>
    sdrm_blit_from_xrgb8888_line e src s_off src_bpp d_off dst_bpp dst_four_cc width ++
      sdrm_blit_from_xrgb8888 e src (s_off + src_stride) src_stride src_bpp
        (d_off + dst_stride) dst_stride dst_bpp dst_four_cc width height

/-- Inner loop of `sdrm_blit_from_rgb565`: one scanline. -/
def sdrm_blit_from_rgb565_line (e : Endian) (src : Mem) (s_off src_bpp d_off dst_bpp
    dst_four_cc width : Nat) : Writes :=
  for_loop (fun i =>
    let val := get_unaligned_u16 e src (s_off + u32 (i * src_bpp))
    sdrm_put e (d_off + u32 (i * dst_bpp)) dst_four_cc
      (val &&& 0xf800) ((val &&& 0x07e0) <<< 5) ((val &&& 0x001f) <<< 11)) width

/-- The function `sdrm_blit_from_rgb565`. -/
def sdrm_blit_from_rgb565 (e : Endian) (src : Mem) (s_off src_stride src_bpp d_off dst_stride
    dst_bpp dst_four_cc width : Nat) : Nat → Writes
  | 0 => []
  | height + 1 =>
    sdrm_blit_from_rgb565_line e src s_off src_bpp d_off dst_bpp dst_four_cc width ++
      sdrm_blit_from_rgb565 e src (s_off + src_stride) src_stride src_bpp
        (d_off + dst_stride) dst_stride dst_bpp dst_four_cc width height

/-- The function `sdrm_blit_lines`: `len = width * bpp` is a `u32`. -/
def sdrm_blit_lines (src : Mem) (s_off src_stride d_off dst_stride bpp width : Nat) :
    Nat → Writes
  | 0 => []
  | height + 1 =>
    memcpy src s_off d_off (u32 (width * bpp)) ++
      sdrm_blit_lines src (s_off + src_stride) src_stride (d_off + dst_stride) dst_stride
        bpp width height

/-- The macro `DIV_ROUND_UP` on `u32` operands. -/
def DIV_ROUND_UP (n d : Nat) : Nat := u32 (n + d - 1) / d

/-- The function `sdrm_blit`: the stores into the hardware mapping. -/
def sdrm_blit (e : Endian) (hw : sdrm_hw) (fb : sdrm_fb) (x y width height : Nat) : Writes :=
  let src := fb.bo.data
  let src_bpp := DIV_ROUND_UP fb.base.bits_per_pixel 8
  let s_off := u32 (fb.base.offsets0 + y * fb.base.pitches0 + x * src_bpp)
  let dst_bpp := DIV_ROUND_UP hw.bpp 8
  let d_off := u32 (y * hw.stride + x * dst_bpp)
  if fb.base.pixel_format = hw.format then
    sdrm_blit_lines src s_off fb.base.pitches0 d_off hw.stride src_bpp width height
  else if fb.base.pixel_format = DRM_FORMAT_ARGB8888 ∨
      fb.base.pixel_format = DRM_FORMAT_XRGB8888 then
    sdrm_blit_from_xrgb8888 e src s_off fb.base.pitches0 src_bpp d_off hw.stride dst_bpp
      hw.format width height
  else if fb.base.pixel_format = DRM_FORMAT_RGB565 then
    sdrm_blit_from_rgb565 e src s_off fb.base.pitches0 src_bpp d_off hw.stride dst_bpp
      hw.format width height
  else []

/-- The function `sdrm_dirty`.  The call is logged in `damage`.  `WARN_ON(!fb->bo->vmapping)`
returns early; otherwise, under the hardware lock, the blit runs only if
`hw->map` is set: its stores are logged in `io_log` and land in `iomem`. -/
def sdrm_dirty (e : Endian) (sdrm : sdrm_device) (fb : sdrm_fb) (x y width height : Nat) :
    sdrm_device :=
  let s0 := { sdrm with damage := sdrm.damage ++ [Damage.mk fb.ptr x y width height] }
  match fb.bo.vmapping with
  | none => { s0 with warnings := s0.warnings + 1 }
  | some _ =>
    match s0.hw.map with
    | some _ =>
      let ws := sdrm_blit e s0.hw fb x y width height
      { s0 with hw := { s0.hw with iomem := commit s0.hw.iomem ws }, io_log := s0.io_log ++ ws }
    | none => s0

/-! ## Display pipe and framebuffer (`simpledrm_kms.c`) -/

/-- The function `sdrm_crtc_send_vblank_event`. -/
def sdrm_crtc_send_vblank_event (sdrm : sdrm_device) : sdrm_device :=
  match sdrm.crtc_state with
  | some st =>
    match st.event with
    | some ev => { sdrm with sent := sdrm.sent ++ [ev], crtc_state := some { st with event := none } }
    | none => sdrm
  | none => sdrm

/-- The function `sdrm_display_pipe_update`.  The framebuffer is read from
`pipe->plane.state->fb`; the `plane_state` argument is not used by the code. -/
def sdrm_display_pipe_update (e : Endian) (sdrm : sdrm_device)
    (_plane_state : Option sdrm_fb) : sdrm_device :=
  let dfb := sdrm.plane_state_fb
  let s1 := sdrm_crtc_send_vblank_event sdrm
  match dfb with
  | some fb => sdrm_dirty e { s1 with plane_fb := some fb } fb 0 0 fb.base.width fb.base.height
  | none => s1

/-- The struct `drm_clip_rect` (`unsigned short` coordinates). -/
structure drm_clip_rect where
  x1 : Nat
  y1 : Nat
  x2 : Nat
  y2 : Nat
deriving DecidableEq, Repr

/-- Body of the loop of `sdrm_fb_dirty` over the clips still to visit. -/
def sdrm_fb_dirty_loop (e : Endian) (fb : sdrm_fb) (sdrm : sdrm_device) :
    List drm_clip_rect → sdrm_device
  | [] => sdrm
  | c :: cs =>
    if c.x1 > c.x2 ∨ c.x2 > fb.base.width ∨ c.y1 > c.y2 ∨ c.y2 > fb.base.height then
      sdrm_fb_dirty_loop e fb sdrm cs
    else
      sdrm_fb_dirty_loop e fb (sdrm_dirty e sdrm fb c.x1 c.y1 (c.x2 - c.x1) (c.y2 - c.y1)) cs

/-- The function `sdrm_fb_dirty`.  `clips` is the array behind the pointer (`none` is
`NULL`), of which the first `n_clips` entries are visited. -/
def sdrm_fb_dirty (e : Endian) (sdrm : sdrm_device) (fb : sdrm_fb)
    (clips : Option (List drm_clip_rect)) (n_clips : Nat) : Int × sdrm_device :=
  if (sdrm.plane_fb.map (fun f => f.ptr)) = some fb.ptr then
    match clips with
    | none => (0, sdrm_dirty e sdrm fb 0 0 fb.base.width fb.base.height)
    | some cl =>
      if n_clips = 0 then (0, sdrm_dirty e sdrm fb 0 0 fb.base.width fb.base.height)
      else (0, sdrm_fb_dirty_loop e fb sdrm (cl.take n_clips))
  else (0, sdrm)

/-- A sequence of `sdrm_dirty` calls, each given by its framebuffer and rectangle. -/
def sdrm_dirty_seq (e : Endian) (sdrm : sdrm_device) :
    List (sdrm_fb × Nat × Nat × Nat × Nat) → sdrm_device
  | [] => sdrm
  | (fb, x, y, w, h) :: cs => sdrm_dirty_seq e (sdrm_dirty e sdrm fb x y w h) cs

/-- The functions `sdrm_display_pipe_enable` and `sdrm_display_pipe_disable` have the
same body; the `crtc_state` argument of the former is not used. -/
def sdrm_display_pipe_enable (sdrm : sdrm_device) : sdrm_device :=
  sdrm_crtc_send_vblank_event sdrm

/-- The function `sdrm_display_pipe_disable`. -/
def sdrm_display_pipe_disable (sdrm : sdrm_device) : sdrm_device :=
  sdrm_crtc_send_vblank_event sdrm

/-- What the mode-setting layer does around the pipe callbacks: it may install a
CRTC state carrying a completion event (`commit` with `some token`) or none,
and it invokes one of the three callbacks. -/
inductive PipeOp where
  | commit (event : Option Nat)
  | enable
  | disable
  | update
deriving DecidableEq, Repr

/-- Runs a sequence of commits and callbacks. -/
def run_pipe (e : Endian) (sdrm : sdrm_device) : List PipeOp → sdrm_device
  | [] => sdrm
  | PipeOp.commit ev :: ops => run_pipe e { sdrm with crtc_state := some { event := ev } } ops
  | PipeOp.enable :: ops => run_pipe e (sdrm_display_pipe_enable sdrm) ops
  | PipeOp.disable :: ops => run_pipe e (sdrm_display_pipe_disable sdrm) ops
  | PipeOp.update :: ops => run_pipe e (sdrm_display_pipe_update e sdrm none) ops

/-- The completion events that a sequence of commits registers, in order. -/
def registered_events : List PipeOp → List Nat
  | [] => []
  | PipeOp.commit (some ev) :: ops => ev :: registered_events ops
  | _ :: ops => registered_events ops

/-- The completion event registered in the CRTC state, if any. -/
def pending_event (sdrm : sdrm_device) : List Nat :=
  match sdrm.crtc_state with
  | some st =>
    match st.event with
    | some ev => [ev]
    | none => []
  | none => []

/-! ## Hardware identification and binding (`simpledrm_drv.c`, `simpledrm_kms.c`) -/

/-- The struct `simplefb_platform_data` (`u32` geometry and the format name). -/
structure simplefb_platform_data where
  width : Nat
  height : Nat
  stride : Nat
  format : String

/-- The fields of `struct simplefb_format` that the driver reads. -/
structure simplefb_format where
  name : String
  fourcc : Nat

/-- The struct `resource`: first and last address. -/
structure resource where
  start : Nat
  last : Nat
deriving DecidableEq, Repr

/-- Modelled from the spec: `resource_size` (`include/linux/ioport.h`, not among the
sources), the length of the "claimed physical range": `end - start + 1`. -/
def resource_size (r : resource) : Nat := r.last - r.start + 1

/-- Result of reading a device-tree property: the value, or the negative error
code that the read returns. -/
inductive OfRead (α : Type) where
  | ok (v : α)
  | err (e : Int)

/-- The properties of the device-tree node that `sdrm_hw_identify` reads. -/
structure device_node where
  width : OfRead Nat
  height : OfRead Nat
  stride : OfRead Nat
  format : OfRead String

/-- The parts of `struct platform_device` that `sdrm_hw_identify` reads: the
platform data, the device-tree node, and the first memory resource. -/
structure platform_device where
  platform_data : Option simplefb_platform_data
  of_node : Option device_node
  mem : Option resource

/-- Return value and output of `of_property_read_u32` / `of_property_read_string`: on
error the output keeps its old value. -/
def of_property_read {α : Type} (p : OfRead α) (old : α) : Int × α :=
  match p with
  | OfRead.ok v => (0, v)
  | OfRead.err e => (e, old)

/-- Conversion of an `int` to `u32`. -/
def int_to_u32 (i : Int) : Nat := (i % 4294967296).toNat

/-- The function `sdrm_hw_identify`.  The table `SIMPLEFB_FORMATS` and
`drm_fb_get_bpp_depth` (bits per pixel of a fourcc) are not among the
sources and are parameters.  `mode->stride * mode->height` and
`(bpp + 7) / 8 * mode->width` are `u32` products. -/
def sdrm_hw_identify (valid_formats : List simplefb_format) (drm_fb_get_bpp_depth : Nat → Int)
    (pdev : platform_device) :
    Int × Option (simplefb_platform_data × simplefb_format × resource × Nat) :=
  let from_node : Int × Option simplefb_platform_data :=
    match pdev.platform_data with
    | some m => (0, some m)
    | none =>
      match pdev.of_node with
      | none => (-ENODEV, none)
      | some np =>
        let w := of_property_read np.width 0
        let h := if w.1 ≥ 0 then of_property_read np.height 0 else (w.1, 0)
        let s := if h.1 ≥ 0 then of_property_read np.stride 0 else (h.1, 0)
        let f := if s.1 ≥ 0 then of_property_read np.format "" else (s.1, "")
        if f.1 < 0 then (f.1, none)
        else (0, some { width := w.2, height := h.2, stride := s.2, format := f.2 })
  match from_node.2 with
  | none => (from_node.1, none)
  | some mode =>
    match pdev.mem with
    | none => (-ENODEV, none)
    | some mem =>
      match valid_formats.find? (fun f => f.name == mode.format) with
      | none => (-ENODEV, none)
      | some format =>
        if format.fourcc = DRM_FORMAT_RGB565 ∨ format.fourcc = DRM_FORMAT_XRGB1555 ∨
            format.fourcc = DRM_FORMAT_ARGB1555 ∨ format.fourcc = DRM_FORMAT_RGB888 ∨
            format.fourcc = DRM_FORMAT_XRGB8888 ∨ format.fourcc = DRM_FORMAT_ARGB8888 ∨
            format.fourcc = DRM_FORMAT_ABGR8888 ∨ format.fourcc = DRM_FORMAT_XRGB2101010 ∨
            format.fourcc = DRM_FORMAT_ARGB2101010 then
          let bpp := drm_fb_get_bpp_depth format.fourcc
          if bpp = 0 then (-ENODEV, none)
          else if resource_size mem < u32 (mode.stride * mode.height) then (-ENODEV, none)
          else if u32 (int_to_u32 (Int.tdiv (bpp + 7) 8) * mode.width) > mode.stride then
            (-ENODEV, none)
          else (0, some (mode, format, mem, int_to_u32 bpp))
        else (-ENODEV, none)

/-- The function `sdrm_hw_new` when `kzalloc` succeeds: the surface starts unmapped.
`iomem` is what the physical region holds. -/
def sdrm_hw_new (mode : simplefb_platform_data) (format : simplefb_format) (mem : resource)
    (bpp : Nat) (iomem : Mem) : sdrm_hw :=
  { width := mode.width, height := mode.height, stride := mode.stride, bpp := bpp,
    format := format.fourcc, base := mem.start, size := resource_size mem, map := none,
    iomem := iomem }

/-- The function `sdrm_hw_bind`; `ioremap_wc` is the mapping primitive, which returns
the mapping or `NULL`. -/
def sdrm_hw_bind (ioremap_wc : Nat → Nat → Option Nat) (hw : sdrm_hw) : Int × sdrm_hw :=
  let hw1 : sdrm_hw :=
    match hw.map with
    | none => { hw with map := ioremap_wc hw.base hw.size }
    | some _ => hw
  (if hw1.map.isSome then 0 else - EIO, hw1)

/-- What the layers below answer during `sdrm_device_bind`: the device-tree side,
the mapping primitive, the return values of `drm_connector_init` and
`drm_simple_display_pipe_init`, and whether the fbdev emulation comes up. -/
structure bind_env where
  of : of_env
  ioremap_wc : Nat → Nat → Option Nat
  connector_init : Int
  pipe_init : Int
  fbdev_ok : Bool

/-- The function `sdrm_kms_bind`: `drm_mode_config_init`, the assignment of
`mode_config.funcs`, then the two fallible registrations; its `error:` label
runs `drm_mode_config_cleanup`. -/
def sdrm_kms_bind (env : bind_env) (sdrm : sdrm_device) : Int × sdrm_device :=
  let s1 := { sdrm with res_log := sdrm.res_log ++ [ResEv.mode_config_init], kms_bound := true }
  if env.connector_init < 0 then
    (env.connector_init, { s1 with res_log := s1.res_log ++ [ResEv.mode_config_cleanup] })
  else if env.pipe_init < 0 then
    (env.pipe_init, { s1 with res_log := s1.res_log ++ [ResEv.mode_config_cleanup] })
  else (0, s1)

/-- The function `sdrm_fbdev_bind` (`simpledrm_fbdev.c`), reduced to the pointer it
sets when every step of the fbdev setup succeeds. -/
def sdrm_fbdev_bind (env : bind_env) (sdrm : sdrm_device) : sdrm_device :=
  if env.fbdev_ok then { sdrm with fbdev := some 1 } else sdrm

/-- The function `sdrm_device_bind`. -/
def sdrm_device_bind (env : bind_env) (sdrm : sdrm_device) : Int × sdrm_device :=
  let o := sdrm_of_bind env.of sdrm
  if o.1 < 0 then (o.1, sdrm_device_unbind o.2)
  else
    let h := sdrm_hw_bind env.ioremap_wc o.2.hw
    let s2 := { o.2 with hw := h.2 }
    if h.1 < 0 then (h.1, sdrm_device_unbind s2)
    else
      let k := sdrm_kms_bind env s2
      if k.1 < 0 then (k.1, sdrm_device_unbind k.2)
      else (0, sdrm_fbdev_bind env k.2)

/-! ## Probe (`simpledrm_drv.c`) -/

/-- The primitive `atomic_add_return`: adds `i` to the counter and returns the value
it has stored. -/
def atomic_add_return (i v : Int) : Int := wrap_int (v + i)

/-- The function `sdrm_device_new`.  It returns the error code with `none` when
`kzalloc` fails; when `drm_dev_alloc` fails, the object, which it has released
through `sdrm_device_free`, is returned next to the error code so that the
`WARN_ON` of that call stays visible (the `hw` field is not yet assigned in the
source at that point).  The counter starts at `INT_MIN`. -/
def sdrm_device_new (kzalloc_ok drm_dev_alloc_ok : Bool) (hw : sdrm_hw) :
    Int × Option sdrm_device :=
  if kzalloc_ok = false then (-ENOMEM, none)
  else
    let sdrm : sdrm_device :=
      { n_used := INT_MIN, hw := hw, plane_state_fb := none, plane_fb := none,
        crtc_state := none, sent := [], kms_bound := false, registered := false,
        teardown := [], warnings := 0, freed := false, damage := [], io_log := [] }
    if drm_dev_alloc_ok = false then (-ENOMEM, some (sdrm_device_free sdrm))
    else (0, some sdrm)

/-- What the layers below answer during `sdrm_simplefb_probe`: the format table and
bits-per-pixel function used by `sdrm_hw_identify`, the content of the
physical region, the three allocations, the answers during the bind, and the
return value of `drm_dev_register`. -/
structure probe_env where
  valid_formats : List simplefb_format
  drm_fb_get_bpp_depth : Nat → Int
  iomem : Mem
  hw_kzalloc_ok : Bool
  dev_kzalloc_ok : Bool
  drm_dev_alloc_ok : Bool
  bind : bind_env
  drm_dev_register : Int

/-- The two statements under "mark device as enabled" in `sdrm_simplefb_probe`:
`WARN_ON(atomic_read(&sdrm->n_used) != INT_MIN)`, then `atomic_set(&sdrm->n_used, 1)`. -/
def sdrm_simplefb_probe_enable (sdrm : sdrm_device) : sdrm_device :=
  { sdrm with
      warnings := if sdrm.n_used ≠ INT_MIN then sdrm.warnings + 1 else sdrm.warnings
      n_used := 1 }

/-- The block of `sdrm_simplefb_probe` that runs when `drm_dev_register` fails:
`WARN_ON(atomic_add_return(INT_MIN, &sdrm->n_used) != INT_MIN)`, then
`sdrm_device_release(sdrm)`. -/
def sdrm_simplefb_probe_disable (sdrm : sdrm_device) : Option sdrm_device :=
  let v := atomic_add_return INT_MIN sdrm.n_used
  sdrm_device_release (some
    { sdrm with
        n_used := v
        warnings := if v ≠ INT_MIN then sdrm.warnings + 1 else sdrm.warnings })

/-- The function `sdrm_simplefb_probe`: return value and the device object in its
last state (`none` if none was allocated; `freed` tells whether it has been
released).  At the `error:` label `sdrm_device_unbind` and `sdrm_device_free`
run on the device unless `sdrm` is `NULL`. -/
def sdrm_simplefb_probe (env : probe_env) (pdev : platform_device) :
    Int × Option sdrm_device :=
  let id := sdrm_hw_identify env.valid_formats env.drm_fb_get_bpp_depth pdev
  if id.1 < 0 then (id.1, none)
  else
    match id.2 with
    | none => (id.1, none)
    | some (mode, format, mem, bpp) =>
      if env.hw_kzalloc_ok = false then (-ENOMEM, none)
      else
        let hw := sdrm_hw_new mode format mem bpp env.iomem
        let n := sdrm_device_new env.dev_kzalloc_ok env.drm_dev_alloc_ok hw
        if n.1 < 0 then (n.1, n.2)
        else
          match n.2 with
          | none => (n.1, none)
          | some sdrm =>
            let b := sdrm_device_bind env.bind sdrm
            if b.1 < 0 then (b.1, some (sdrm_device_free (sdrm_device_unbind b.2)))
            else
              let s1 := sdrm_simplefb_probe_enable b.2
              if env.drm_dev_register < 0 then
                (env.drm_dev_register, sdrm_simplefb_probe_disable s1)
              else (0, some { s1 with registered := true })

/-! ## Buffer objects (`simpledrm_gem.c`) -/

/-- Outcome of `sdrm_bo_new`: the object returned (`none` is `NULL`), whether the
`WARN_ON` fired, and the sizes handed to `drm_gem_object_init`. -/
structure bo_new_result where
  bo : Option sdrm_bo
  warned : Bool
  gem_init : List Nat

/-- The function `sdrm_bo_new`.  `PAGE_SIZE` is `2 ^ PAGE_SHIFT`, so that
`size & ~PAGE_MASK` is `size & (2 ^ PAGE_SHIFT - 1)`; `kzalloc_ok` tells
whether the allocation succeeds, `drm_gem_object_init` gives the return value
of that call for a size, `data` is the content of the backing store. -/
def sdrm_bo_new (PAGE_SHIFT : Nat) (kzalloc_ok : Bool) (drm_gem_object_init : Nat → Int)
    (data : Mem) (size : Nat) : bo_new_result :=
  let warned := decide (size = 0 ∨ size &&& (2 ^ PAGE_SHIFT - 1) ≠ 0)
  if kzalloc_ok = false then { bo := none, warned := warned, gem_init := [] }
  else if drm_gem_object_init size ≠ 0 then
    { bo := none, warned := warned, gem_init := [size] }
  else
    { bo := some { size := size, pages := none, vmapping := none, data := data },
      warned := warned, gem_init := [size] }

/-- Calls that `sdrm_bo_vmap` makes into the memory layer. -/
inductive BoCall where
  | get_pages
  | vmap
  | put_pages
deriving DecidableEq, Repr

/-- What the memory layer answers to `sdrm_bo_vmap`: the result of
`drm_gem_get_pages` and of `vmap` (`none` is `NULL`). -/
structure vmap_env where
  get_pages : ErrPtr
  vmap : Option Nat

/-- Second half of `sdrm_bo_vmap`: map the pages unless a mapping exists. -/
def sdrm_bo_vmap_map (env : vmap_env) (bo : sdrm_bo) (calls : List BoCall) :
    Int × sdrm_bo × List BoCall :=
  match bo.vmapping with
  | none =>
    match env.vmap with
    | none => (-ENOMEM, { bo with vmapping := none }, calls ++ [BoCall.vmap])
    | some v => (0, { bo with vmapping := some v }, calls ++ [BoCall.vmap])
  | some _ => (0, bo, calls)

/-- The function `sdrm_bo_vmap`: return value, buffer object afterwards, and the
calls made. -/
def sdrm_bo_vmap (env : vmap_env) (bo : sdrm_bo) : Int × sdrm_bo × List BoCall :=
  match bo.pages with
  | none =>
    match env.get_pages with
    | ErrPtr.err e => (e, { bo with pages := none }, [BoCall.get_pages])
    | ErrPtr.ok p => sdrm_bo_vmap_map env { bo with pages := some p } [BoCall.get_pages]
  | some _ => sdrm_bo_vmap_map env bo []

/-! ## Eviction of firmware framebuffers (`drivers/video/sysfb.c`) -/

def SYSFB_EVICT_PLATFORM : Nat := 1

def SYSFB_EVICT_FBDEV : Nat := 2

def SYSFB_EVICT_VGACON : Nat := 4

def SYSFB_EVICT_VBE : Nat := 8

/-- One range of `struct apertures_struct`. -/
structure aperture where
  base : Nat
  size : Nat
deriving DecidableEq, Repr

/-- The struct `sysfb_evict_ctx`; `ap` is the list of ranges behind the pointer
(`none` is `NULL`). -/
structure sysfb_evict_ctx where
  ap : Option (List aperture)
  flags : Nat

/-- The loop of `sysfb_evict_match_resource` over the ranges still to visit.
`bits` is the width of `resource_size_t`, in which `g->base + g->size` is
computed. -/
def sysfb_evict_match_ranges (bits flags : Nat) (mem : resource) : List aperture → Bool
  | [] => false
  | g :: gs =>
    if mem.start = g.base then true
    else if mem.start ≥ g.base ∧ mem.last < (g.base + g.size) % 2 ^ bits then true
    else if flags &&& SYSFB_EVICT_VBE ≠ 0 ∧ mem.start = 0xA0000 then true
    else sysfb_evict_match_ranges bits flags mem gs

/-- The function `sysfb_evict_match_resource`, for a context whose `ap` is set. -/
def sysfb_evict_match_resource (bits : Nat) (ctx : sysfb_evict_ctx) (mem : resource) : Bool :=
  sysfb_evict_match_ranges bits ctx.flags mem (ctx.ap.getD [])

/-- The parts of a platform device that `sysfb_evict_platform_device` reads: its
name, its first memory resource, whether it has a device-tree node, and
whether it has platform data. -/
structure sysfb_pdev where
  name : Option String
  mem : Option resource
  of_node : Bool
  platdata : Bool

/-- The function `sysfb_evict_platform_device`: whether the device is removed
(through `of_platform_device_destroy` or `platform_device_del`).  Its return
value is always 0. -/
def sysfb_evict_platform_device (CONFIG_OF_ADDRESS : Bool) (bits : Nat) (ctx : sysfb_evict_ctx)
    (pdev : sysfb_pdev) : Bool :=
  match pdev.name with
  | none => false
  | some name =>
    if name = "simple-framebuffer" then
      match pdev.mem with
      | none => false
      | some mem =>
        if sysfb_evict_match_resource bits ctx mem = false then false
        else if CONFIG_OF_ADDRESS ∧ pdev.of_node then true
        else if pdev.platdata then true
        else false
    else false

/-- The function `sysfb_evict_platform`: the walk over the platform bus; the devices
left on the bus afterwards. -/
def sysfb_evict_platform (CONFIG_OF_ADDRESS : Bool) (bits : Nat) (ctx : sysfb_evict_ctx)
    (bus : List sysfb_pdev) : Int × List sysfb_pdev :=
  (0, bus.filter (fun d => !(sysfb_evict_platform_device CONFIG_OF_ADDRESS bits ctx d)))

/-- The function `sysfb_evict_conflicts`: return value and the platform bus
afterwards.  `fbdev_ret` and `vgacon_ret` are the return values of
`sysfb_evict_fbdev` and `sysfb_evict_vgacon`. -/
def sysfb_evict_conflicts (CONFIG_OF_ADDRESS : Bool) (bits : Nat) (fbdev_ret vgacon_ret : Int)
    (ctx : Option sysfb_evict_ctx) (bus : List sysfb_pdev) : Int × List sysfb_pdev :=
  match ctx with
  | none => (-EINVAL, bus)
  | some c =>
    match c.ap with
    | none => (-EINVAL, bus)
    | some _ =>
      let p : Int × List sysfb_pdev :=
        if c.flags &&& SYSFB_EVICT_PLATFORM ≠ 0 then sysfb_evict_platform CONFIG_OF_ADDRESS bits c bus
        else (0, bus)
      if p.1 < 0 then p
      else if c.flags &&& SYSFB_EVICT_FBDEV ≠ 0 ∧ fbdev_ret < 0 then (fbdev_ret, p.2)
      else if c.flags &&& SYSFB_EVICT_VGACON ≠ 0 ∧ vgacon_ret < 0 then (vgacon_ret, p.2)
      else (0, p.2)

/-- A resource and an aperture overlap when they share an address. -/
def resource_overlaps (mem : resource) (g : aperture) : Prop :=
  ∃ a, mem.start ≤ a ∧ a ≤ mem.last ∧ g.base ≤ a ∧ a < g.base + g.size

/-! ## Accounting of clocks and regulators -/

/-- Contribution of one call to the number of references held on resource `h`
of kind `k`: a `get` takes one, a `put` gives one back. -/
def ev_held (k : ResKind) (h : Nat) : ResEv → Int
  | ResEv.get k1 h1 => if k1 = k ∧ h1 = h then 1 else 0
  | ResEv.put k1 h1 => if k1 = k ∧ h1 = h then -1 else 0
  | _ => 0

/-- Contribution of one call to the enable count of resource `h` of kind `k`. -/
def ev_enabled (k : ResKind) (h : Nat) : ResEv → Int
  | ResEv.enable k1 h1 => if k1 = k ∧ h1 = h then 1 else 0
  | ResEv.disable k1 h1 => if k1 = k ∧ h1 = h then -1 else 0
  | _ => 0

/-- References on `h` that a sequence of calls leaves held (gets minus puts). -/
def res_held (k : ResKind) (log : List ResEv) (h : Nat) : Int := (log.map (ev_held k h)).sum

/-- Enables of `h` that a sequence of calls leaves in force (enables minus disables). -/
def res_enabled (k : ResKind) (log : List ResEv) (h : Nat) : Int :=
  (log.map (ev_enabled k h)).sum

/-- Handles that the lookup loop acquires: those of the candidates it reaches
before the first `-EPROBE_DEFER`. -/
def of_acquired : List (Bool × ErrPtr) → List Nat
  | [] => []
  | (false, _) :: ls => of_acquired ls
  | (true, ErrPtr.ok h) :: ls => h :: of_acquired ls
  | (true, ErrPtr.err e) :: ls => if e = -EPROBE_DEFER then [] else of_acquired ls

/-- Whether the lookup loop meets a `-EPROBE_DEFER`. -/
def of_deferred : List (Bool × ErrPtr) → Bool
  | [] => false
  | (false, _) :: ls => of_deferred ls
  | (true, ErrPtr.ok _) :: ls => of_deferred ls
  | (true, ErrPtr.err e) :: ls => if e = -EPROBE_DEFER then true else of_deferred ls

/-- The resources found: the handle of every candidate whose name could be
allocated and whose lookup succeeded. -/
def of_found (ls : List (Bool × ErrPtr)) : List Nat :=
  ls.filterMap (fun c =>
    match c with
    | (true, ErrPtr.ok h) => some h
    | _ => none)

/-- The array entries after the enable loop: a resource whose enable failed is
left absent (`NULL`), the others stay. -/
def of_kept (enable : Nat → Int) (hs : List Nat) : List (Option Nat) :=
  hs.map (fun h => if enable h < 0 then none else some h)

/-- The condition under which one of the two bind functions fails: there is at
least one candidate, and either the array cannot be allocated or a lookup that
is made returns `-EPROBE_DEFER`. -/
def of_fatal (alloc_ok : Bool) (ls : List (Bool × ErrPtr)) : Prop :=
  ls ≠ [] ∧ (alloc_ok = false ∨ (true, ErrPtr.err (-EPROBE_DEFER)) ∈ ls)

/-! ## Predicates on stores -/

/-- The stores `ws` write exactly the `k` bytes at `dst .. dst + k - 1`: there are
`k` of them, each inside the range, and every other byte of any memory is
left as it was. -/
def stores_exactly (ws : Writes) (dst k : Nat) : Prop :=
  ws.length = k ∧ (∀ w ∈ ws, dst ≤ w.1 ∧ w.1 < dst + k) ∧
  (∀ i, i < k → dst + i ∈ ws.map Prod.fst) ∧
  (∀ (m : Mem) (a : Nat), a < dst ∨ dst + k ≤ a → commit m ws a = m a)

/-- The stores `ws` write the 16-bit value `v` at `dst`, and nothing else. -/
def writes_u16 (e : Endian) (ws : Writes) (dst v : Nat) : Prop :=
  stores_exactly ws dst 2 ∧ ∀ m : Mem, get_unaligned_u16 e (commit m ws) dst = v

/-- The stores `ws` write the 32-bit value `v` at `dst`, and nothing else. -/
def writes_u32 (e : Endian) (ws : Writes) (dst v : Nat) : Prop :=
  stores_exactly ws dst 4 ∧ ∀ m : Mem, get_unaligned_u32 e (commit m ws) dst = v

/-- The stores `ws` write the three bytes `b0 b1 b2` at `dst`, and nothing else. -/
def writes_3_bytes (ws : Writes) (dst b0 b1 b2 : Nat) : Prop :=
  stores_exactly ws dst 3 ∧
  ∀ m : Mem, commit m ws dst = b0 ∧ commit m ws (dst + 1) = b1 ∧ commit m ws (dst + 2) = b2

/-- Byte `k` (in memory order) of the 16-bit value `v` on platform `e`. -/
def byte_u16 (e : Endian) (k v : Nat) : Nat :=
  match e with
  | Endian.little => if k = 0 then v % 256 else v / 256 % 256
  | Endian.big => if k = 0 then v / 256 % 256 else v % 256

/-! ## The clip rule in the words of the specification -/

/-- A clip is valid iff `x1 <= x2`, `x2 <= W`, `y1 <= y2`, `y2 <= H`. -/
def spec_clip_valid (W H : Nat) (c : drm_clip_rect) : Bool :=
  decide (c.x1 ≤ c.x2) && decide (c.x2 ≤ W) && decide (c.y1 ≤ c.y2) && decide (c.y2 ≤ H)

/-- Damage applications the specification asks of a dirty notification on the
framebuffer at `ptr` of size `W x H`: none if the framebuffer is not the
current surface, the full surface if no clip is supplied, otherwise the
valid clips in order, as `(x1, y1, x2 - x1, y2 - y1)`. -/
def spec_fb_dirty_damage (current : Bool) (ptr W H : Nat) (clips : List drm_clip_rect) :
    List Damage :=
  if current then
    match clips with
    | [] => [Damage.mk ptr 0 0 W H]
    | cl => (cl.filter (spec_clip_valid W H)).map
        (fun c => Damage.mk ptr c.x1 c.y1 (c.x2 - c.x1) (c.y2 - c.y1))
  else []

/-! ### Interleavings of one removal with handle releases -/

/-- The threads of an interleaving: the one running `sdrm_simplefb_remove`, and
one per open handle running `sdrm_fop_release` (each performs one
`sdrm_device_release`). -/
inductive Thread where
  | remover
  | closer
deriving DecidableEq, Repr

/-- Record of one scheduling step: who ran, the counter afterwards, and whether
the teardown ran inside the step. -/
structure StepRec where
  thread : Thread
  n_used : Int
  teardown_ran : Bool
deriving DecidableEq, Repr

/-- State of an interleaved run: the device, the program counter of the removal,
and the record of the steps taken so far. -/
structure Conc where
  dev : sdrm_device
  pc : Nat
  ran : List StepRec

/-- One scheduling step: the chosen thread executes its next statement. -/
def conc_step (c : Conc) (t : Thread) : Conc :=
  match t with
  | Thread.remover =>
    let d := sdrm_simplefb_remove_step c.pc c.dev
    { dev := d, pc := c.pc + 1,
      ran := c.ran ++ [⟨t, d.n_used, decide (d.teardown.length ≠ c.dev.teardown.length)⟩] }
  | Thread.closer =>
    let d := (sdrm_device_release (some c.dev)).getD c.dev
    { dev := d, pc := c.pc,
      ran := c.ran ++ [⟨t, d.n_used, decide (d.teardown.length ≠ c.dev.teardown.length)⟩] }

/-- Runs a schedule. -/
def conc_run (c : Conc) (sched : List Thread) : Conc := sched.foldl conc_step c

/-- A schedule is an interleaving of one removal and `N` releases when the
remover is scheduled once per statement and a closer `N` times. -/
def is_interleaving (N : Nat) (sched : List Thread) : Prop :=
  sched.count Thread.remover = remove_len ∧ sched.count Thread.closer = N

instance (N : Nat) (sched : List Thread) : Decidable (is_interleaving N sched) := by
  unfold is_interleaving; infer_instance

/-- The counter expected when the removal is at `pc` and `k` handle releases are
still to come: the bias once statement 0 has run, the bus reference until
statement 3 has run, and one per open handle. -/
def expected_n_used (pc : Nat) (k : Nat) : Int :=
  (if 1 ≤ pc then INT_MIN else 0) + (if pc ≤ 3 then 1 else 0) + (k : Int)

/-- Operations that can follow the first statement of a removal: an open
(`sdrm_device_acquire`), a release (by a handle, or the last statement of the
removal), and the two middle statements of the removal. -/
inductive Op where
  | acquire
  | release
  | hw_unbind
  | unregister
deriving DecidableEq, Repr

/-- Runs a sequence of operations on a device. -/
def run_ops (d : sdrm_device) : List Op → sdrm_device
  | [] => d
  | Op.acquire :: ops => run_ops ((sdrm_device_acquire (some d)).2.getD d) ops
  | Op.release :: ops => run_ops ((sdrm_device_release (some d)).getD d) ops
  | Op.hw_unbind :: ops => run_ops (sdrm_simplefb_remove_step 1 d) ops
  | Op.unregister :: ops => run_ops (sdrm_simplefb_remove_step 2 d) ops

/-! ## Concrete objects used to exercise the definitions -/

/-- A 4x2 RGB565 hardware surface, mapped, with zeroed memory. -/
def hw_example : sdrm_hw :=
  { width := 4, height := 2, stride := 8, bpp := 16, format := 0, base := 4096, size := 16,
    map := some 1, iomem := fun _ => 0 }

/-- A bound and registered device whose counter is `n`. -/
def dev_example (n : Int) : sdrm_device :=
  { n_used := n, hw := hw_example, plane_state_fb := none, plane_fb := none,
    crtc_state := none, sent := [], kms_bound := true, registered := true,
    teardown := [], warnings := 0, freed := false, damage := [], io_log := [] }

/-- A source buffer of 32-bit pixels `0xFF112233` (little-endian bytes). -/
def src_alpha_example : Mem := fun a => [0x33, 0x22, 0x11, 0xFF].getD (a % 4) 0

/-- A source buffer of 32-bit pixels whose top byte is zero and whose colour
bytes vary with the position (little-endian bytes). -/
def src_xrgb_example : Mem := fun a => if a % 4 = 3 then 0 else (a * 7 + 1) % 256

/-- An all-red XRGB8888 source (little-endian bytes `00 00 FF 00`). -/
def src_red_example : Mem := fun a => if a % 4 = 2 then 0xFF else 0

/-- A 64x64 XRGB8888 framebuffer filled with red, with a live buffer mapping. -/
def fb_red_example : sdrm_fb :=
  { ptr := 7,
    base := { width := 64, height := 64, pixel_format := DRM_FORMAT_XRGB8888,
              bits_per_pixel := 32, pitches0 := 256, offsets0 := 0 },
    bo := { size := 16384, pages := some 1, vmapping := some 1, data := src_red_example } }

/-- A bound device with a mapped 64x64 RGB565 surface, counter `n`, and the red
framebuffer in its plane state. -/
def dev_red_example (n : Int) : sdrm_device :=
  { n_used := n,
    hw := { width := 64, height := 64, stride := 128, bpp := 16, format := DRM_FORMAT_RGB565,
            base := 4096, size := 8192, map := some 1, iomem := fun _ => 0 },
    plane_state_fb := some fb_red_example, plane_fb := none,
    crtc_state := some { event := some 5 }, sent := [], kms_bound := true, registered := true,
    teardown := [], warnings := 0, freed := false, damage := [], io_log := [] }

/-- A 100x100 framebuffer with a live buffer mapping. -/
def fb_100_example : sdrm_fb :=
  { ptr := 9,
    base := { width := 100, height := 100, pixel_format := DRM_FORMAT_XRGB8888,
              bits_per_pixel := 32, pitches0 := 400, offsets0 := 0 },
    bo := { size := 40960, pages := some 1, vmapping := some 1, data := src_red_example } }

/-- A bound device whose current surface is the 100x100 framebuffer. -/
def dev_100_example : sdrm_device :=
  { n_used := 2,
    hw := { width := 100, height := 100, stride := 200, bpp := 16, format := DRM_FORMAT_RGB565,
            base := 4096, size := 20480, map := some 1, iomem := fun _ => 0 },
    plane_state_fb := some fb_100_example, plane_fb := some fb_100_example,
    crtc_state := none, sent := [], kms_bound := true, registered := true,
    teardown := [], warnings := 0, freed := false, damage := [], io_log := [] }

/-- The clip list of the specification's example. -/
def clips_example : List drm_clip_rect :=
  [⟨0, 0, 50, 50⟩, ⟨60, 200, 10, 10⟩, ⟨10, 10, 5, 90⟩]

/-- The same rectangles read as `(x, y, width, height)`. -/
def clips_example_xywh : List drm_clip_rect :=
  [⟨0, 0, 0 + 50, 0 + 50⟩, ⟨60, 200, 60 + 10, 200 + 10⟩, ⟨10, 10, 10 + 5, 10 + 90⟩]

/-- A format table with the two entries used below. -/
def formats_example : List simplefb_format :=
  [⟨"r5g6b5", DRM_FORMAT_RGB565⟩, ⟨"x8r8g8b8", DRM_FORMAT_XRGB8888⟩]

/-- Bits per pixel of the two formats of `formats_example`, 0 otherwise. -/
def bpp_example (fourcc : Nat) : Int :=
  if fourcc = DRM_FORMAT_RGB565 then 16 else if fourcc = DRM_FORMAT_XRGB8888 then 32 else 0

/-- A descriptor whose `stride * height` is `2^32`, on a 4096-byte resource. -/
def pdev_tall_example : platform_device :=
  { platform_data := some { width := 1, height := 65536, stride := 65536, format := "r5g6b5" },
    of_node := none, mem := some { start := 0x1000, last := 0x1FFF } }

/-- A descriptor whose `2 * width` is `2^32`, with a stride of 4 bytes. -/
def pdev_wide_example : platform_device :=
  { platform_data := some { width := 2147483648, height := 1, stride := 4, format := "r5g6b5" },
    of_node := none, mem := some { start := 0x1000, last := 0x1FFF } }

/-- A mapping primitive that always succeeds. -/
def ioremap_example (base _size : Nat) : Option Nat := some (base + 1000000)

/-- A fresh buffer object of four pages: nothing pinned, nothing mapped. -/
def bo_example : sdrm_bo :=
  { size := 16384, pages := none, vmapping := none, data := fun _ => 0 }

/-- An eviction context with the single aperture `[0x2000, 0x3000)`. -/
def ctx_example : sysfb_evict_ctx :=
  { ap := some [{ base := 0x2000, size := 0x1000 }], flags := SYSFB_EVICT_PLATFORM }

/-- A `simple-framebuffer` device with platform data on `[0x1000, 0x2FFF]`. -/
def pdev_overlap_example : sysfb_pdev :=
  { name := some "simple-framebuffer", mem := some { start := 0x1000, last := 0x2FFF },
    of_node := false, platdata := true }

/-- A device as `sdrm_device_new` leaves it before `sdrm_device_bind`: nothing
mapped, no mode-setting object, no clock and no regulator. -/
def dev_fresh_example : sdrm_device :=
  { n_used := INT_MIN, hw := { hw_example with map := none }, plane_state_fb := none,
    plane_fb := none, crtc_state := none, sent := [], kms_bound := false, registered := false,
    teardown := [], warnings := 0, freed := false, damage := [], io_log := [] }

/-- A node with one clock whose array cannot be allocated; no lookup is made. -/
def of_env_nomem_example : of_env :=
  { has_node := true,
    clk := { alloc_ok := false, lookups := [ErrPtr.ok 1], enable := fun _ => 0 },
    reg := { alloc_ok := true, props := [], enable := fun _ => 0 } }

/-- A node with three clocks (the lookup of the second fails with `-ENOENT`, the
third cannot be enabled) and three supplies (the name of the second cannot be
duplicated, the lookup of the third fails with `-ENODEV`). -/
def of_env_example : of_env :=
  { has_node := true,
    clk := { alloc_ok := true, lookups := [ErrPtr.ok 1, ErrPtr.err (-2), ErrPtr.ok 3],
             enable := fun h => if h = 3 then -5 else 0 },
    reg := { alloc_ok := true,
             props := [(true, ErrPtr.ok 7), (false, ErrPtr.ok 8), (true, ErrPtr.err (-19))],
             enable := fun _ => 0 } }

/-- A bind in which the clocks, the regulators and the mapping succeed and
`drm_connector_init` fails with `-ENOMEM`. -/
def bind_env_example : bind_env :=
  { of := of_env_example, ioremap_wc := ioremap_example, connector_init := -12,
    pipe_init := 0, fbdev_ok := true }

/-- A 4x2 RGB565 descriptor with a stride of 8 bytes on a 4096-byte resource. -/
def pdev_example : platform_device :=
  { platform_data := some { width := 4, height := 2, stride := 8, format := "r5g6b5" },
    of_node := none, mem := some { start := 0x1000, last := 0x1FFF } }

/-- A bind in which every step succeeds. -/
def bind_env_ok_example : bind_env :=
  { of := of_env_example, ioremap_wc := ioremap_example, connector_init := 0,
    pipe_init := 0, fbdev_ok := true }

/-- A probe in which identification, the allocations and the bind succeed and
`drm_dev_register` answers `r`. -/
def probe_env_example (r : Int) : probe_env :=
  { valid_formats := formats_example, drm_fb_get_bpp_depth := bpp_example,
    iomem := fun _ => 0, hw_kzalloc_ok := true, dev_kzalloc_ok := true,
    drm_dev_alloc_ok := true, bind := bind_env_ok_example, drm_dev_register := r }

/-! ## Facts about the counter -/

theorem wrap_int_of_range (x : Int) (h1 : INT_MIN ≤ x) (h2 : x ≤ INT_MAX) : wrap_int x = x := by
  unfold wrap_int
  unfold INT_MIN at h1
  unfold INT_MAX at h2
  omega

/-- Fields that `sdrm_device_unbind` leaves alone, and its entry in the teardown log. -/
theorem sdrm_device_unbind_frame (d : sdrm_device) :
    (sdrm_device_unbind d).n_used = d.n_used ∧
    (sdrm_device_unbind d).teardown = d.teardown ++ [Teardown.unbind] ∧
    (sdrm_device_unbind d).warnings = d.warnings ∧
    (sdrm_device_unbind d).hw = sdrm_hw_unbind d.hw := by
  unfold sdrm_device_unbind sdrm_of_unbind sdrm_of_unbind_clocks sdrm_of_unbind_regulators
    sdrm_kms_unbind sdrm_fbdev_unbind
  cases hf : d.fbdev <;> cases hk : d.kms_bound <;> simp [hf, hk]

theorem release_n_used (d : sdrm_device) :
    ((sdrm_device_release (some d)).getD d).n_used = atomic_dec_return d.n_used := by
  unfold sdrm_device_release
  by_cases h : atomic_dec_return d.n_used = INT_MIN
  · simp [h, sdrm_device_free, (sdrm_device_unbind_frame _).1]
  · simp [h]

theorem acquire_negative (d : sdrm_device) (h : d.n_used < 0) :
    sdrm_device_acquire (some d) = (-ENODEV, some d) := by
  unfold sdrm_device_acquire atomic_inc_unless_negative
  have h0 : ¬ (0 ≤ d.n_used) := by omega
  simp [h0]

/-- After the bias has been added, the counter stays `INT_MIN + k` where `k` is
the number of references not yet dropped. -/
theorem run_ops_n_used (ops : List Op) : ∀ (d : sdrm_device) (k : Int),
    d.n_used = INT_MIN + k → (ops.count Op.release : Int) ≤ k → k ≤ INT_MAX →
    (run_ops d ops).n_used = INT_MIN + k - ops.count Op.release := by
  induction ops with
  | nil => intro d k h _ _; simp [run_ops, h]
  | cons o ops ih =>
    intro d k h hc hk
    cases o with
    | acquire =>
      have hneg : d.n_used < 0 := by rw [h]; unfold INT_MIN; unfold INT_MAX at hk; omega
      have hc1 : ((ops.count Op.release : Nat) : Int) ≤ k := by simpa using hc
      simp only [run_ops, acquire_negative d hneg, Option.getD_some]
      rw [ih d k h hc1 hk]; simp
    | release =>
      have hcnt : (((Op.release :: ops).count Op.release : Nat) : Int)
          = (ops.count Op.release : Int) + 1 := by simp
      rw [hcnt] at hc ⊢
      have hn : ((sdrm_device_release (some d)).getD d).n_used = INT_MIN + (k - 1) := by
        rw [release_n_used, h]
        unfold atomic_dec_return
        rw [wrap_int_of_range] <;> simp only [INT_MIN, INT_MAX] at * <;> omega
      simp only [run_ops]
      rw [ih _ (k - 1) hn (by omega) (by omega)]; omega
    | hw_unbind =>
      have hc1 : ((ops.count Op.release : Nat) : Int) ≤ k := by simpa using hc
      simp only [run_ops]
      rw [ih (sdrm_simplefb_remove_step 1 d) k (by simpa [sdrm_simplefb_remove_step] using h) hc1 hk]
      simp
    | unregister =>
      have hc1 : ((ops.count Op.release : Nat) : Int) ≤ k := by simpa using hc
      simp only [run_ops]
      rw [ih (sdrm_simplefb_remove_step 2 d) k (by simpa [sdrm_simplefb_remove_step] using h) hc1 hk]
      simp

/-! ## Facts about interleavings -/

/-- Effect of one `sdrm_device_release` on counter, teardown log and warnings. -/
theorem release_effect (d : sdrm_device) (ht : d.teardown = []) :
    ((sdrm_device_release (some d)).getD d).n_used = atomic_dec_return d.n_used ∧
    ((sdrm_device_release (some d)).getD d).teardown
      = (if atomic_dec_return d.n_used = INT_MIN then [Teardown.unbind, Teardown.free] else []) ∧
    ((sdrm_device_release (some d)).getD d).warnings = d.warnings := by
  refine ⟨release_n_used d, ?_, ?_⟩
  · unfold sdrm_device_release
    by_cases h : atomic_dec_return d.n_used = INT_MIN
    · simp [h, sdrm_device_free, (sdrm_device_unbind_frame _).2.1, ht]
    · simp [h, ht]
  · unfold sdrm_device_release
    by_cases h : atomic_dec_return d.n_used = INT_MIN
    · simp [h, sdrm_device_free, (sdrm_device_unbind_frame _).2.2.1,
        (sdrm_device_unbind_frame _).1]
    · simp [h]

theorem count_threads (s : List Thread) :
    s.count Thread.remover + s.count Thread.closer = s.length := by
  induction s with
  | nil => rfl
  | cons t s ih => cases t <;> simp [List.count_cons] <;> omega

theorem conc_run_cons (c : Conc) (t : Thread) (s : List Thread) :
    conc_run c (t :: s) = conc_run (conc_step c t) s := rfl

/-- What one step of the remover does to the observed fields. -/
theorem remover_step_effect (c : Conc) (k : Nat) (hk : (k : Int) + 1 ≤ INT_MAX)
    (hpc : c.pc ≤ 3) (hn : c.dev.n_used = expected_n_used c.pc k) (ht : c.dev.teardown = []) :
    (conc_step c Thread.remover).pc = c.pc + 1 ∧
    (conc_step c Thread.remover).dev.n_used = expected_n_used (c.pc + 1) k ∧
    (conc_step c Thread.remover).dev.warnings = c.dev.warnings ∧
    (conc_step c Thread.remover).dev.teardown
      = (if expected_n_used (c.pc + 1) k = INT_MIN then [Teardown.unbind, Teardown.free] else []) ∧
    (conc_step c Thread.remover).ran
      = c.ran ++ [⟨Thread.remover, expected_n_used (c.pc + 1) k,
                  decide (expected_n_used (c.pc + 1) k = INT_MIN)⟩] := by
  obtain ⟨d, pc, ran⟩ := c
  simp only at hpc hn ht
  have h4 : pc = 0 ∨ pc = 1 ∨ pc = 2 ∨ pc = 3 := by omega
  rcases h4 with h | h | h | h <;> subst h
  · have e1 : atomic_add INT_MIN d.n_used = expected_n_used 1 k := by
      rw [hn]; simp only [atomic_add, wrap_int, expected_n_used, INT_MIN, INT_MAX] at *; omega
    have e2 : expected_n_used 1 k ≠ INT_MIN := by
      simp only [expected_n_used, INT_MIN, INT_MAX] at *; omega
    simp [conc_step, sdrm_simplefb_remove_step, e1, e2, ht]
  · have e1 : d.n_used = expected_n_used 2 k := by
      rw [hn]; simp only [expected_n_used, INT_MIN, INT_MAX] at *; omega
    have e2 : expected_n_used 2 k ≠ INT_MIN := by
      simp only [expected_n_used, INT_MIN, INT_MAX] at *; omega
    simp [conc_step, sdrm_simplefb_remove_step, e1, e2, ht]
  · have e1 : d.n_used = expected_n_used 3 k := by
      rw [hn]; simp only [expected_n_used, INT_MIN, INT_MAX] at *; omega
    have e2 : expected_n_used 3 k ≠ INT_MIN := by
      simp only [expected_n_used, INT_MIN, INT_MAX] at *; omega
    simp [conc_step, sdrm_simplefb_remove_step, e1, e2, ht]
  · have e1 : atomic_dec_return d.n_used = expected_n_used 4 k := by
      rw [hn]; simp only [atomic_dec_return, wrap_int, expected_n_used, INT_MIN, INT_MAX] at *
      omega
    obtain ⟨r1, r2, r3⟩ := release_effect d ht
    rw [e1] at r1 r2
    simp only [conc_step, sdrm_simplefb_remove_step, r1, r2, r3, ht]
    by_cases e2 : expected_n_used 4 k = INT_MIN <;> simp [e2]

/-- What one handle release does to the observed fields. -/
theorem closer_step_effect (c : Conc) (k : Nat) (hk : (k : Int) + 2 ≤ INT_MAX)
    (hn : c.dev.n_used = expected_n_used c.pc (k + 1)) (ht : c.dev.teardown = []) :
    (conc_step c Thread.closer).pc = c.pc ∧
    (conc_step c Thread.closer).dev.n_used = expected_n_used c.pc k ∧
    (conc_step c Thread.closer).dev.warnings = c.dev.warnings ∧
    (conc_step c Thread.closer).dev.teardown
      = (if expected_n_used c.pc k = INT_MIN then [Teardown.unbind, Teardown.free] else []) ∧
    (conc_step c Thread.closer).ran
      = c.ran ++ [⟨Thread.closer, expected_n_used c.pc k,
                  decide (expected_n_used c.pc k = INT_MIN)⟩] := by
  obtain ⟨d, pc, ran⟩ := c
  simp only at hn ht
  have e1 : atomic_dec_return d.n_used = expected_n_used pc k := by
    rw [hn]; simp only [atomic_dec_return, wrap_int, expected_n_used, INT_MIN, INT_MAX] at *
    split <;> split <;> push_cast <;> omega
  obtain ⟨r1, r2, r3⟩ := release_effect d ht
  rw [e1] at r1 r2
  simp only [conc_step, r1, r2, r3, ht]
  by_cases e2 : expected_n_used pc k = INT_MIN <;> simp [e2]

/-- Invariant-driven description of a whole run: from a state that matches the
expected counter with at least one step to go, nothing is torn down before
the last step, and the last step brings the counter to `INT_MIN` and tears down. -/
theorem conc_run_teardown (s : List Thread) : ∀ (c : Conc), s ≠ [] →
    c.pc + s.count Thread.remover = remove_len →
    c.dev.n_used = expected_n_used c.pc (s.count Thread.closer) →
    (s.count Thread.closer : Int) + 1 ≤ INT_MAX →
    c.dev.teardown = [] →
    (conc_run c s).dev.teardown = [Teardown.unbind, Teardown.free] ∧
    (conc_run c s).dev.n_used = INT_MIN ∧
    (conc_run c s).dev.warnings = c.dev.warnings ∧
    ∃ pre last, (conc_run c s).ran = c.ran ++ pre ++ [last] ∧
      pre.map StepRec.thread ++ [last.thread] = s ∧
      (∀ e ∈ pre, e.n_used ≠ INT_MIN ∧ e.teardown_ran = false) ∧
      last.n_used = INT_MIN ∧ last.teardown_ran = true := by
  induction s with
  | nil => intro c h; exact absurd rfl h
  | cons t s ih =>
    intro c _ hpc hn hk ht
    have hlen := count_threads s
    cases t with
    | remover =>
      have hcr : (Thread.remover :: s).count Thread.remover = s.count Thread.remover + 1 := by
        simp
      have hcc : (Thread.remover :: s).count Thread.closer = s.count Thread.closer := by
        simp
      rw [hcr] at hpc
      rw [hcc] at hn hk
      have hpc3 : c.pc ≤ 3 := by unfold remove_len at hpc; omega
      obtain ⟨s1, s2, s3, s4, s5⟩ :=
        remover_step_effect c (s.count Thread.closer) hk hpc3 hn ht
      rw [conc_run_cons]
      by_cases hs : s = []
      · subst hs
        simp only [List.count_nil, remove_len] at hpc s2 s4 s5
        have hp : c.pc = 3 := by omega
        have he : expected_n_used (c.pc + 1) 0 = INT_MIN := by
          rw [hp]; simp [expected_n_used]
        simp only [he, if_true, decide_True] at s2 s4 s5
        refine ⟨by simpa [conc_run] using s4, by simpa [conc_run] using s2,
          by simpa [conc_run] using s3, [], ⟨Thread.remover, INT_MIN, true⟩, ?_, rfl, ?_, rfl, rfl⟩
        · simpa [conc_run] using s5
        · intro e he; cases he
      · have hpos : 0 < s.length := List.length_pos.mpr hs
        have he : expected_n_used (c.pc + 1) (s.count Thread.closer) ≠ INT_MIN := by
          unfold remove_len at hpc
          simp only [expected_n_used, INT_MIN, INT_MAX] at *
          split <;> omega
        rw [if_neg he] at s4
        have hdec : decide (expected_n_used (c.pc + 1) (s.count Thread.closer) = INT_MIN)
            = false := by simp [he]
        rw [hdec] at s5
        obtain ⟨r1, r2, r3, pre, last, r4, r5, r6, r7, r8⟩ :=
          ih (conc_step c Thread.remover) hs (by rw [s1]; omega) (by rw [s1]; exact s2) hk s4
        refine ⟨r1, r2, by rw [r3, s3],
          ⟨Thread.remover, expected_n_used (c.pc + 1) (s.count Thread.closer), false⟩ :: pre,
          last, ?_, ?_, ?_, r7, r8⟩
        · rw [r4, s5]; simp
        · simp [r5]
        · intro e hmem
          rcases List.mem_cons.mp hmem with h | h
          · subst h; exact ⟨he, rfl⟩
          · exact r6 e h
    | closer =>
      have hcr : (Thread.closer :: s).count Thread.remover = s.count Thread.remover := by
        simp
      have hcc : (Thread.closer :: s).count Thread.closer = s.count Thread.closer + 1 := by
        simp
      rw [hcr] at hpc
      rw [hcc] at hn hk
      have hk2 : (s.count Thread.closer : Int) + 2 ≤ INT_MAX := by push_cast at hk; omega
      have hk1 : (s.count Thread.closer : Int) + 1 ≤ INT_MAX := by omega
      obtain ⟨s1, s2, s3, s4, s5⟩ := closer_step_effect c (s.count Thread.closer) hk2 hn ht
      rw [conc_run_cons]
      by_cases hs : s = []
      · subst hs
        simp only [List.count_nil, remove_len] at hpc s2 s4 s5
        have hp : c.pc = 4 := by omega
        have he : expected_n_used c.pc 0 = INT_MIN := by
          rw [hp]; simp [expected_n_used]
        simp only [he, if_true, decide_True] at s2 s4 s5
        refine ⟨by simpa [conc_run] using s4, by simpa [conc_run] using s2,
          by simpa [conc_run] using s3, [], ⟨Thread.closer, INT_MIN, true⟩, ?_, rfl, ?_, rfl, rfl⟩
        · simpa [conc_run] using s5
        · intro e he; cases he
      · have hpos : 0 < s.length := List.length_pos.mpr hs
        have he : expected_n_used c.pc (s.count Thread.closer) ≠ INT_MIN := by
          unfold remove_len at hpc
          simp only [expected_n_used, INT_MIN, INT_MAX] at *
          split <;> split <;> omega
        rw [if_neg he] at s4
        have hdec : decide (expected_n_used c.pc (s.count Thread.closer) = INT_MIN)
            = false := by simp [he]
        rw [hdec] at s5
        obtain ⟨r1, r2, r3, pre, last, r4, r5, r6, r7, r8⟩ :=
          ih (conc_step c Thread.closer) hs (by rw [s1]; exact hpc) (by rw [s1]; exact s2) hk1 s4
        refine ⟨r1, r2, by rw [r3, s3],
          ⟨Thread.closer, expected_n_used c.pc (s.count Thread.closer), false⟩ :: pre,
          last, ?_, ?_, ?_, r7, r8⟩
        · rw [r4, s5]; simp
        · simp [r5]
        · intro e hmem
          rcases List.mem_cons.mp hmem with h | h
          · subst h; exact ⟨he, rfl⟩
          · exact r6 e h

/-! ### Damage on an unmapped surface -/

/-- With `hw->map` unset, `sdrm_dirty` leaves the hardware surface and the store
log alone. -/
theorem sdrm_dirty_unmapped (e : Endian) (s : sdrm_device) (fb : sdrm_fb) (x y w h : Nat)
    (hm : s.hw.map = none) :
    (sdrm_dirty e s fb x y w h).hw = s.hw ∧ (sdrm_dirty e s fb x y w h).io_log = s.io_log := by
  unfold sdrm_dirty
  cases hv : fb.bo.vmapping with
  | none => simp
  | some v => simp [hm]

/-- With `hw->map` unset and a live buffer mapping, `sdrm_dirty` only records the call. -/
theorem sdrm_dirty_unmapped_live (e : Endian) (s : sdrm_device) (fb : sdrm_fb) (x y w h : Nat)
    (hm : s.hw.map = none) (hv : fb.bo.vmapping ≠ none) :
    sdrm_dirty e s fb x y w h = { s with damage := s.damage ++ [Damage.mk fb.ptr x y w h] } := by
  unfold sdrm_dirty
  cases hv2 : fb.bo.vmapping with
  | none => exact absurd hv2 hv
  | some v => simp [hm]

theorem sdrm_dirty_seq_unmapped (e : Endian) (calls : List (sdrm_fb × Nat × Nat × Nat × Nat)) :
    ∀ (s : sdrm_device), s.hw.map = none → (∀ c ∈ calls, c.1.bo.vmapping ≠ none) →
    (sdrm_dirty_seq e s calls).hw = s.hw ∧ (sdrm_dirty_seq e s calls).io_log = s.io_log ∧
    (sdrm_dirty_seq e s calls).warnings = s.warnings := by
  induction calls with
  | nil => intro s _ _; exact ⟨rfl, rfl, rfl⟩
  | cons c cs ih =>
    intro s hm hc
    obtain ⟨fb, x, y, w, h⟩ := c
    have hv : fb.bo.vmapping ≠ none := hc (fb, x, y, w, h) (List.mem_cons_self _ _)
    have hstep := sdrm_dirty_unmapped_live e s fb x y w h hm hv
    simp only [sdrm_dirty_seq]
    rw [hstep]
    exact ih _ hm (fun c hcm => hc c (List.mem_cons_of_mem _ hcm))

/-- Result of an uninterrupted removal while handles are open. -/
theorem sdrm_simplefb_remove_open (d : sdrm_device) (h2 : 2 ≤ d.n_used)
    (h3 : d.n_used ≤ INT_MAX) :
    sdrm_simplefb_remove d
      = (0, { d with n_used := INT_MIN + d.n_used - 1, hw := sdrm_hw_unbind d.hw,
                     registered := false }) := by
  have e1 : atomic_dec_return (atomic_add INT_MIN d.n_used) = INT_MIN + d.n_used - 1 := by
    simp only [atomic_dec_return, atomic_add, wrap_int, INT_MIN, INT_MAX] at *; omega
  have e2 : INT_MIN + d.n_used - 1 ≠ INT_MIN := by
    simp only [INT_MIN]; omega
  simp [sdrm_simplefb_remove, sdrm_simplefb_remove_step, sdrm_device_release, e1, e2]

theorem sdrm_hw_unbind_map (hw : sdrm_hw) : (sdrm_hw_unbind hw).map = none := by
  unfold sdrm_hw_unbind
  cases h : hw.map <;> simp [h]

/-! ### Pixel stores -/

theorem put_unaligned_u16_writes (e : Endian) (dst v : Nat) (hv : v < 65536) :
    writes_u16 e (put_unaligned_u16 e dst v) dst v := by
  cases e
  · refine ⟨⟨rfl, ?_, ?_, ?_⟩, ?_⟩
    · intro w hw
      simp only [put_unaligned_u16, List.mem_cons, List.mem_singleton, List.not_mem_nil,
        or_false] at hw
      rcases hw with h | h <;> subst h <;> simp
    · intro i hi
      have : i = 0 ∨ i = 1 := by omega
      rcases this with h | h <;> subst h <;> simp [put_unaligned_u16]
    · intro m a ha
      have h1 : a ≠ dst := by omega
      have h2 : a ≠ dst + 1 := by omega
      simp [put_unaligned_u16, commit, store, h1, h2]
    · intro m
      simp [put_unaligned_u16, commit, store, get_unaligned_u16, u8]
      omega
  · refine ⟨⟨rfl, ?_, ?_, ?_⟩, ?_⟩
    · intro w hw
      simp only [put_unaligned_u16, List.mem_cons, List.mem_singleton, List.not_mem_nil,
        or_false] at hw
      rcases hw with h | h <;> subst h <;> simp
    · intro i hi
      have : i = 0 ∨ i = 1 := by omega
      rcases this with h | h <;> subst h <;> simp [put_unaligned_u16]
    · intro m a ha
      have h1 : a ≠ dst := by omega
      have h2 : a ≠ dst + 1 := by omega
      simp [put_unaligned_u16, commit, store, h1, h2]
    · intro m
      simp [put_unaligned_u16, commit, store, get_unaligned_u16, u8]
      omega

theorem put_unaligned_u32_writes (e : Endian) (dst v : Nat) (hv : v < 4294967296) :
    writes_u32 e (put_unaligned_u32 e dst v) dst v := by
  cases e
  · refine ⟨⟨rfl, ?_, ?_, ?_⟩, ?_⟩
    · intro w hw
      simp only [put_unaligned_u32, List.mem_cons, List.mem_singleton, List.not_mem_nil,
        or_false] at hw
      rcases hw with h | h | h | h <;> subst h <;> simp
    · intro i hi
      have : i = 0 ∨ i = 1 ∨ i = 2 ∨ i = 3 := by omega
      rcases this with h | h | h | h <;> subst h <;> simp [put_unaligned_u32]
    · intro m a ha
      have h1 : a ≠ dst := by omega
      have h2 : a ≠ dst + 1 := by omega
      have h3 : a ≠ dst + 2 := by omega
      have h4 : a ≠ dst + 3 := by omega
      simp [put_unaligned_u32, commit, store, h1, h2, h3, h4]
    · intro m
      simp [put_unaligned_u32, commit, store, get_unaligned_u32, u8]
      omega
  · refine ⟨⟨rfl, ?_, ?_, ?_⟩, ?_⟩
    · intro w hw
      simp only [put_unaligned_u32, List.mem_cons, List.mem_singleton, List.not_mem_nil,
        or_false] at hw
      rcases hw with h | h | h | h <;> subst h <;> simp
    · intro i hi
      have : i = 0 ∨ i = 1 ∨ i = 2 ∨ i = 3 := by omega
      rcases this with h | h | h | h <;> subst h <;> simp [put_unaligned_u32]
    · intro m a ha
      have h1 : a ≠ dst := by omega
      have h2 : a ≠ dst + 1 := by omega
      have h3 : a ≠ dst + 2 := by omega
      have h4 : a ≠ dst + 3 := by omega
      simp [put_unaligned_u32, commit, store, h1, h2, h3, h4]
    · intro m
      simp [put_unaligned_u32, commit, store, get_unaligned_u32, u8]
      omega

theorem rgb565_value_lt (r g b : Nat) (hr : r ≤ 0xFFFF) (hg : g ≤ 0xFFFF) (hb : b ≤ 0xFFFF) :
    (r >>> 11) <<< 11 ||| (g >>> 10) <<< 5 ||| (b >>> 11) < 2 ^ 16 := by
  apply Nat.or_lt_two_pow
  · apply Nat.or_lt_two_pow <;> omega
  · omega

theorem xrgb1555_value_lt (r g b : Nat) (hr : r ≤ 0xFFFF) (hg : g ≤ 0xFFFF) (hb : b ≤ 0xFFFF) :
    (r >>> 11) <<< 10 ||| (g >>> 11) <<< 5 ||| (b >>> 11) < 2 ^ 15 := by
  apply Nat.or_lt_two_pow
  · apply Nat.or_lt_two_pow <;> omega
  · omega

theorem xrgb8888_value_lt (r g b : Nat) (hr : r ≤ 0xFFFF) (hg : g ≤ 0xFFFF) (hb : b ≤ 0xFFFF) :
    (r >>> 8) <<< 16 ||| (g >>> 8) <<< 8 ||| (b >>> 8) < 2 ^ 24 := by
  apply Nat.or_lt_two_pow
  · apply Nat.or_lt_two_pow <;> omega
  · omega

theorem sdrm_put_rgb565 (e : Endian) (dst r g b : Nat)
    (hr : r ≤ 0xFFFF) (hg : g ≤ 0xFFFF) (hb : b ≤ 0xFFFF) :
    sdrm_put e dst DRM_FORMAT_RGB565 r g b
      = put_unaligned_u16 e dst ((r >>> 11) <<< 11 ||| (g >>> 10) <<< 5 ||| (b >>> 11)) := by
  have hv := rgb565_value_lt r g b hr hg hb
  have h1 : r % 65536 = r := Nat.mod_eq_of_lt (by omega)
  have h2 : g % 65536 = g := Nat.mod_eq_of_lt (by omega)
  have h3 : b % 65536 = b := Nat.mod_eq_of_lt (by omega)
  simp only [sdrm_put, u16, h1, h2, h3, if_true]
  rw [Nat.mod_eq_of_lt (by simpa using hv)]

theorem sdrm_put_xrgb1555 (e : Endian) (dst f r g b : Nat)
    (hf : f = DRM_FORMAT_XRGB1555 ∨ f = DRM_FORMAT_ARGB1555)
    (hr : r ≤ 0xFFFF) (hg : g ≤ 0xFFFF) (hb : b ≤ 0xFFFF) :
    sdrm_put e dst f r g b
      = put_unaligned_u16 e dst ((r >>> 11) <<< 10 ||| (g >>> 11) <<< 5 ||| (b >>> 11)) := by
  have hv := xrgb1555_value_lt r g b hr hg hb
  have h1 : r % 65536 = r := Nat.mod_eq_of_lt (by omega)
  have h2 : g % 65536 = g := Nat.mod_eq_of_lt (by omega)
  have h3 : b % 65536 = b := Nat.mod_eq_of_lt (by omega)
  have hne : f ≠ DRM_FORMAT_RGB565 := by
    rcases hf with h | h <;> subst h <;> decide
  simp only [sdrm_put, u16, h1, h2, h3, hne, hf, if_true, if_false]
  rw [Nat.mod_eq_of_lt (by omega)]

theorem sdrm_put_xrgb8888 (e : Endian) (dst f r g b : Nat)
    (hf : f = DRM_FORMAT_XRGB8888 ∨ f = DRM_FORMAT_ARGB8888)
    (hr : r ≤ 0xFFFF) (hg : g ≤ 0xFFFF) (hb : b ≤ 0xFFFF) :
    sdrm_put e dst f r g b
      = put_unaligned_u32 e dst ((r >>> 8) <<< 16 ||| (g >>> 8) <<< 8 ||| (b >>> 8)) := by
  have hv := xrgb8888_value_lt r g b hr hg hb
  have h1 : r % 65536 = r := Nat.mod_eq_of_lt (by omega)
  have h2 : g % 65536 = g := Nat.mod_eq_of_lt (by omega)
  have h3 : b % 65536 = b := Nat.mod_eq_of_lt (by omega)
  have hn1 : f ≠ DRM_FORMAT_RGB565 := by
    rcases hf with h | h <;> subst h <;> decide
  have hn2 : ¬ (f = DRM_FORMAT_XRGB1555 ∨ f = DRM_FORMAT_ARGB1555) := by
    rcases hf with h | h <;> subst h <;> decide
  have hn3 : f ≠ DRM_FORMAT_RGB888 := by
    rcases hf with h | h <;> subst h <;> decide
  simp only [sdrm_put, u16, u32, h1, h2, h3, hn1, hn2, hn3, hf, if_true, if_false]
  rw [Nat.mod_eq_of_lt (by omega)]

theorem sdrm_put_abgr8888 (e : Endian) (dst r g b : Nat)
    (hr : r ≤ 0xFFFF) (hg : g ≤ 0xFFFF) (hb : b ≤ 0xFFFF) :
    sdrm_put e dst DRM_FORMAT_ABGR8888 r g b
      = put_unaligned_u32 e dst ((b >>> 8) <<< 16 ||| (g >>> 8) <<< 8 ||| (r >>> 8)) := by
  have hv := xrgb8888_value_lt b g r hb hg hr
  have h1 : r % 65536 = r := Nat.mod_eq_of_lt (by omega)
  have h2 : g % 65536 = g := Nat.mod_eq_of_lt (by omega)
  have h3 : b % 65536 = b := Nat.mod_eq_of_lt (by omega)
  have hn1 : DRM_FORMAT_ABGR8888 ≠ DRM_FORMAT_RGB565 := by decide
  have hn2 : ¬ (DRM_FORMAT_ABGR8888 = DRM_FORMAT_XRGB1555 ∨
      DRM_FORMAT_ABGR8888 = DRM_FORMAT_ARGB1555) := by decide
  have hn3 : DRM_FORMAT_ABGR8888 ≠ DRM_FORMAT_RGB888 := by decide
  have hn4 : ¬ (DRM_FORMAT_ABGR8888 = DRM_FORMAT_XRGB8888 ∨
      DRM_FORMAT_ABGR8888 = DRM_FORMAT_ARGB8888) := by decide
  simp only [sdrm_put, u16, u32, h1, h2, h3, hn1, hn2, hn3, hn4, if_true, if_false]
  rw [Nat.mod_eq_of_lt (by omega)]

theorem sdrm_put_rgb888_little (dst r g b : Nat)
    (hr : r ≤ 0xFFFF) (hg : g ≤ 0xFFFF) (hb : b ≤ 0xFFFF) :
    sdrm_put Endian.little dst DRM_FORMAT_RGB888 r g b
      = [(dst + 2, r >>> 8), (dst + 1, g >>> 8), (dst, b >>> 8)] := by
  have h1 : r % 65536 = r := Nat.mod_eq_of_lt (by omega)
  have h2 : g % 65536 = g := Nat.mod_eq_of_lt (by omega)
  have h3 : b % 65536 = b := Nat.mod_eq_of_lt (by omega)
  have hn1 : DRM_FORMAT_RGB888 ≠ DRM_FORMAT_RGB565 := by decide
  have hn2 : ¬ (DRM_FORMAT_RGB888 = DRM_FORMAT_XRGB1555 ∨
      DRM_FORMAT_RGB888 = DRM_FORMAT_ARGB1555) := by decide
  have q1 : (r >>> 8) % 256 = r >>> 8 := Nat.mod_eq_of_lt (by omega)
  have q2 : (g >>> 8) % 256 = g >>> 8 := Nat.mod_eq_of_lt (by omega)
  have q3 : (b >>> 8) % 256 = b >>> 8 := Nat.mod_eq_of_lt (by omega)
  simp only [sdrm_put, u16, u8, h1, h2, h3, hn1, hn2, q1, q2, q3, if_true, if_false]

/-! ### Bit fields -/

theorem and_shifted_mask (x m k : Nat) : x &&& (m <<< k) = ((x >>> k) &&& m) <<< k := by
  apply Nat.eq_of_testBit_eq
  intro i
  simp only [Nat.testBit_and, Nat.testBit_shiftLeft, Nat.testBit_shiftRight]
  by_cases h : k ≤ i
  · have : k + (i - k) = i := by omega
    simp [h, this]
  · simp [h]

/-- Masking with `n` ones shifted left by `k` extracts the field of width `n` at `k`. -/
theorem and_field (x k n : Nat) :
    x &&& ((2 ^ n - 1) <<< k) = (x / 2 ^ k % 2 ^ n) * 2 ^ k := by
  rw [and_shifted_mask, Nat.and_pow_two_sub_one_eq_mod, Nat.shiftLeft_eq,
    Nat.shiftRight_eq_div_pow]

/-- Three fields that do not overlap are combined by `|` as by `+`. -/
theorem or_fields (a b c i j : Nat) (hb : b * 2 ^ j + c < 2 ^ i) (hc : c < 2 ^ j) :
    (a <<< i) ||| (b <<< j) ||| c = a * 2 ^ i + b * 2 ^ j + c := by
  rw [Nat.or_assoc, Nat.shiftLeft_eq, Nat.shiftLeft_eq, Nat.mul_comm b,
    ← Nat.mul_add_lt_is_or hc, Nat.mul_comm a,
    ← Nat.mul_add_lt_is_or (by rw [Nat.mul_comm]; exact hb)]
  ring

/-- Decoding an RGB565 value and encoding it again as RGB565 gives it back. -/
theorem rgb565_reencode (val : Nat) (h : val < 65536) :
    (((val &&& 0xf800) % 65536) >>> 11) <<< 11 |||
      ((((val &&& 0x07e0) <<< 5) % 65536) >>> 10) <<< 5 |||
      ((((val &&& 0x001f) <<< 11) % 65536) >>> 11) = val := by
  have m1 : val &&& 0xf800 = (val / 2 ^ 11 % 2 ^ 5) * 2 ^ 11 := and_field val 11 5
  have m2 : val &&& 0x07e0 = (val / 2 ^ 5 % 2 ^ 6) * 2 ^ 5 := and_field val 5 6
  have m3 : val &&& 0x001f = (val / 2 ^ 0 % 2 ^ 5) * 2 ^ 0 := and_field val 0 5
  rw [m1, m2, m3, or_fields _ _ _ 11 5 (by omega) (by omega)]
  omega

/-- Decoding an XRGB8888 value and encoding it again as XRGB8888 keeps the three
colour bytes and clears the top byte. -/
theorem xrgb8888_reencode (val : Nat) :
    (((((val &&& 0x00ff0000) >>> 8) % 65536) >>> 8) <<< 16 |||
      (((val &&& 0x0000ff00) % 65536) >>> 8) <<< 8 |||
      ((((val &&& 0x000000ff) <<< 8) % 65536) >>> 8)) % 4294967296 = val % 16777216 := by
  have m1 : val &&& 0x00ff0000 = (val / 2 ^ 16 % 2 ^ 8) * 2 ^ 16 := and_field val 16 8
  have m2 : val &&& 0x0000ff00 = (val / 2 ^ 8 % 2 ^ 8) * 2 ^ 8 := and_field val 8 8
  have m3 : val &&& 0x000000ff = (val / 2 ^ 0 % 2 ^ 8) * 2 ^ 0 := and_field val 0 8
  rw [m1, m2, m3, or_fields _ _ _ 16 8 (by omega) (by omega)]
  omega

/-! ### Loops -/

theorem for_loop_congr (f g : Nat → Writes) (n : Nat) (h : ∀ i, i < n → f i = g i) :
    for_loop f n = for_loop g n := by
  induction n with
  | zero => rfl
  | succ n ih =>
    simp only [for_loop]
    rw [ih (fun i hi => h i (by omega)), h n (by omega)]

theorem for_loop_add (f : Nat → Writes) (a b : Nat) :
    for_loop f (a + b) = for_loop f a ++ for_loop (fun i => f (a + i)) b := by
  induction b with
  | zero => simp [for_loop]
  | succ b ih =>
    rw [← Nat.add_assoc]
    simp only [for_loop]
    rw [ih, List.append_assoc]

theorem mem_for_loop (f : Nat → Writes) (n : Nat) (w : Nat × Nat) :
    w ∈ for_loop f n ↔ ∃ i, i < n ∧ w ∈ f i := by
  induction n with
  | zero => simp [for_loop]
  | succ n ih =>
    simp only [for_loop, List.mem_append, ih]
    constructor
    · rintro (⟨i, hi, hw⟩ | hw)
      · exact ⟨i, by omega, hw⟩
      · exact ⟨n, by omega, hw⟩
    · rintro ⟨i, hi, hw⟩
      by_cases h : i = n
      · subst h; exact Or.inr hw
      · exact Or.inl ⟨i, by omega, hw⟩

theorem memcpy_add (src : Mem) (s d a b : Nat) :
    memcpy src s d (a + b) = memcpy src s d a ++ memcpy src (s + a) (d + a) b := by
  unfold memcpy
  rw [for_loop_add]
  simp only [Nat.add_assoc]

/-- A copy of `n` chunks of `k` bytes is one copy of `n * k` bytes. -/
theorem memcpy_chunks (src : Mem) (s d k n : Nat) :
    for_loop (fun i => memcpy src (s + i * k) (d + i * k) k) n = memcpy src s d (n * k) := by
  induction n with
  | zero => simp [for_loop, memcpy]
  | succ n ih =>
    simp only [for_loop]
    rw [ih, Nat.succ_mul, memcpy_add]

/-! ### The per-pixel paths on identical formats -/

/-- Storing the 16-bit value read at `a` copies the two bytes at `a`. -/
theorem put_get_u16_copy (e : Endian) (src : Mem) (a dst : Nat) :
    put_unaligned_u16 e dst (get_unaligned_u16 e src a) = memcpy src a dst 2 := by
  cases e
  · have h0 : (src a % 256 + 256 * (src (a + 1) % 256)) % 256 = src a % 256 := by omega
    have h1 : (src a % 256 + 256 * (src (a + 1) % 256)) / 256 % 256 = src (a + 1) % 256 := by
      omega
    simp only [put_unaligned_u16, get_unaligned_u16, u8, memcpy, for_loop, List.nil_append,
      List.singleton_append, Nat.add_zero, h0, h1]
  · have h0 : (256 * (src a % 256) + src (a + 1) % 256) % 256 = src (a + 1) % 256 := by omega
    have h1 : (256 * (src a % 256) + src (a + 1) % 256) / 256 % 256 = src a % 256 := by
      omega
    simp only [put_unaligned_u16, get_unaligned_u16, u8, memcpy, for_loop, List.nil_append,
      List.singleton_append, Nat.add_zero, h0, h1]

/-- An RGB565 pixel re-encoded as RGB565 is the copy of its two bytes. -/
theorem rgb565_pixel_copy (e : Endian) (src : Mem) (a dst : Nat) :
    sdrm_put e dst DRM_FORMAT_RGB565 (get_unaligned_u16 e src a &&& 0xf800)
        ((get_unaligned_u16 e src a &&& 0x07e0) <<< 5)
        ((get_unaligned_u16 e src a &&& 0x001f) <<< 11)
      = memcpy src a dst 2 := by
  have hv : get_unaligned_u16 e src a < 65536 := by
    cases e <;> simp only [get_unaligned_u16, u8] <;> omega
  simp only [sdrm_put, u16, if_true]
  rw [rgb565_reencode _ hv, Nat.mod_eq_of_lt hv]
  exact put_get_u16_copy e src a dst

/-- Storing the 32-bit value read at `a`, top byte cleared, copies the four bytes
at `a` when the top byte of that value is zero. -/
theorem put_get_u32_copy (e : Endian) (src : Mem) (a dst : Nat)
    (h : get_unaligned_u32 e src a < 16777216) :
    put_unaligned_u32 e dst (get_unaligned_u32 e src a % 16777216) = memcpy src a dst 4 := by
  cases e
  · simp only [get_unaligned_u32, u8] at h
    have h0 : (src a % 256 + 256 * (src (a + 1) % 256) + 65536 * (src (a + 2) % 256)
        + 16777216 * (src (a + 3) % 256)) % 16777216 % 256 = src a % 256 := by omega
    have h1 : (src a % 256 + 256 * (src (a + 1) % 256) + 65536 * (src (a + 2) % 256)
        + 16777216 * (src (a + 3) % 256)) % 16777216 / 256 % 256 = src (a + 1) % 256 := by omega
    have h2 : (src a % 256 + 256 * (src (a + 1) % 256) + 65536 * (src (a + 2) % 256)
        + 16777216 * (src (a + 3) % 256)) % 16777216 / 65536 % 256 = src (a + 2) % 256 := by
      omega
    have h3 : (src a % 256 + 256 * (src (a + 1) % 256) + 65536 * (src (a + 2) % 256)
        + 16777216 * (src (a + 3) % 256)) % 16777216 / 16777216 % 256 = src (a + 3) % 256 := by
      omega
    simp only [put_unaligned_u32, get_unaligned_u32, u8, memcpy, for_loop, List.nil_append,
      List.singleton_append, List.cons_append, Nat.add_zero, h0, h1, h2, h3]
  · simp only [get_unaligned_u32, u8] at h
    have h0 : (16777216 * (src a % 256) + 65536 * (src (a + 1) % 256)
        + 256 * (src (a + 2) % 256) + src (a + 3) % 256) % 16777216 % 256
        = src (a + 3) % 256 := by omega
    have h1 : (16777216 * (src a % 256) + 65536 * (src (a + 1) % 256)
        + 256 * (src (a + 2) % 256) + src (a + 3) % 256) % 16777216 / 256 % 256
        = src (a + 2) % 256 := by omega
    have h2 : (16777216 * (src a % 256) + 65536 * (src (a + 1) % 256)
        + 256 * (src (a + 2) % 256) + src (a + 3) % 256) % 16777216 / 65536 % 256
        = src (a + 1) % 256 := by omega
    have h3 : (16777216 * (src a % 256) + 65536 * (src (a + 1) % 256)
        + 256 * (src (a + 2) % 256) + src (a + 3) % 256) % 16777216 / 16777216 % 256
        = src a % 256 := by omega
    simp only [put_unaligned_u32, get_unaligned_u32, u8, memcpy, for_loop, List.nil_append,
      List.singleton_append, List.cons_append, Nat.add_zero, h0, h1, h2, h3]

/-- What `sdrm_put` stores for an XRGB8888 or ARGB8888 target when fed the channels
decoded from the 32-bit value `val`: the value with its top byte cleared. -/
theorem xrgb8888_pixel_put (e : Endian) (dst f val : Nat)
    (hf : f = DRM_FORMAT_XRGB8888 ∨ f = DRM_FORMAT_ARGB8888) :
    sdrm_put e dst f ((val &&& 0x00ff0000) >>> 8) (val &&& 0x0000ff00)
        ((val &&& 0x000000ff) <<< 8)
      = put_unaligned_u32 e dst (val % 16777216) := by
  have hn1 : f ≠ DRM_FORMAT_RGB565 := by
    rcases hf with h | h <;> subst h <;> decide
  have hn2 : ¬ (f = DRM_FORMAT_XRGB1555 ∨ f = DRM_FORMAT_ARGB1555) := by
    rcases hf with h | h <;> subst h <;> decide
  have hn3 : f ≠ DRM_FORMAT_RGB888 := by
    rcases hf with h | h <;> subst h <;> decide
  simp only [sdrm_put, u16, u32, hn1, hn2, hn3, hf, if_true, if_false]
  rw [xrgb8888_reencode]

/-- An XRGB8888 pixel whose top byte is zero, re-encoded as XRGB8888 or ARGB8888,
is the copy of its four bytes. -/
theorem xrgb8888_pixel_copy (e : Endian) (src : Mem) (a dst f : Nat)
    (hf : f = DRM_FORMAT_XRGB8888 ∨ f = DRM_FORMAT_ARGB8888)
    (h : get_unaligned_u32 e src a < 16777216) :
    sdrm_put e dst f ((get_unaligned_u32 e src a &&& 0x00ff0000) >>> 8)
        (get_unaligned_u32 e src a &&& 0x0000ff00)
        ((get_unaligned_u32 e src a &&& 0x000000ff) <<< 8)
      = memcpy src a dst 4 := by
  rw [xrgb8888_pixel_put e dst f _ hf]
  exact put_get_u32_copy e src a dst h

theorem rgb565_line_copy (e : Endian) (src : Mem) (s d width : Nat)
    (hw : width * 2 < 4294967296) :
    sdrm_blit_from_rgb565_line e src s 2 d 2 DRM_FORMAT_RGB565 width
      = memcpy src s d (u32 (width * 2)) := by
  unfold sdrm_blit_from_rgb565_line
  rw [show u32 (width * 2) = width * 2 from Nat.mod_eq_of_lt hw, ← memcpy_chunks]
  apply for_loop_congr
  intro i hi
  have hi2 : u32 (i * 2) = i * 2 := Nat.mod_eq_of_lt (by omega)
  simp only [hi2]
  exact rgb565_pixel_copy e src (s + i * 2) (d + i * 2)

theorem rgb565_rect_copy (e : Endian) (src : Mem) (src_stride dst_stride width : Nat)
    (hw : width * 2 < 4294967296) (height : Nat) : ∀ (s d : Nat),
    sdrm_blit_from_rgb565 e src s src_stride 2 d dst_stride 2 DRM_FORMAT_RGB565 width height
      = sdrm_blit_lines src s src_stride d dst_stride 2 width height := by
  induction height with
  | zero => intro s d; rfl
  | succ h ih =>
    intro s d
    simp only [sdrm_blit_from_rgb565, sdrm_blit_lines]
    rw [rgb565_line_copy e src s d width hw, ih]

theorem xrgb8888_line_copy (e : Endian) (src : Mem) (s d f width : Nat)
    (hf : f = DRM_FORMAT_XRGB8888 ∨ f = DRM_FORMAT_ARGB8888)
    (hw : width * 4 < 4294967296)
    (hx : ∀ i, i < width → get_unaligned_u32 e src (s + i * 4) < 16777216) :
    sdrm_blit_from_xrgb8888_line e src s 4 d 4 f width
      = memcpy src s d (u32 (width * 4)) := by
  unfold sdrm_blit_from_xrgb8888_line
  rw [show u32 (width * 4) = width * 4 from Nat.mod_eq_of_lt hw, ← memcpy_chunks]
  apply for_loop_congr
  intro i hi
  have hi2 : u32 (i * 4) = i * 4 := Nat.mod_eq_of_lt (by omega)
  simp only [hi2]
  exact xrgb8888_pixel_copy e src (s + i * 4) (d + i * 4) f hf (hx i hi)

theorem xrgb8888_rect_copy (e : Endian) (src : Mem) (src_stride dst_stride f width : Nat)
    (hf : f = DRM_FORMAT_XRGB8888 ∨ f = DRM_FORMAT_ARGB8888)
    (hw : width * 4 < 4294967296) (height : Nat) : ∀ (s d : Nat),
    (∀ j, j < height → ∀ i, i < width →
      get_unaligned_u32 e src (s + j * src_stride + i * 4) < 16777216) →
    sdrm_blit_from_xrgb8888 e src s src_stride 4 d dst_stride 4 f width height
      = sdrm_blit_lines src s src_stride d dst_stride 4 width height := by
  induction height with
  | zero => intro s d _; rfl
  | succ h ih =>
    intro s d hx
    simp only [sdrm_blit_from_xrgb8888, sdrm_blit_lines]
    rw [xrgb8888_line_copy e src s d f width hf hw
      (fun i hi => by simpa using hx 0 (by omega) i hi)]
    rw [ih (s + src_stride) (d + dst_stride) (fun j hj i hi => by
      have := hx (j + 1) (by omega) i hi
      rw [show s + (j + 1) * src_stride = s + src_stride + j * src_stride by ring] at this
      exact this)]

/-! ### Reading memory after a list of stores -/

theorem commit_append (m : Mem) (ws1 ws2 : Writes) :
    commit m (ws1 ++ ws2) = commit (commit m ws1) ws2 := by
  induction ws1 generalizing m with
  | nil => rfl
  | cons w ws ih => obtain ⟨a, v⟩ := w; simp only [List.cons_append, commit]; exact ih _

/-- A byte that no store addresses keeps its value. -/
theorem commit_not_mem (ws : Writes) : ∀ (m : Mem) (a : Nat), a ∉ ws.map Prod.fst →
    commit m ws a = m a := by
  induction ws with
  | nil => intro m a _; rfl
  | cons w ws ih =>
    intro m a h
    obtain ⟨a1, v1⟩ := w
    simp only [List.map_cons, List.mem_cons, not_or] at h
    simp only [commit]
    rw [ih _ a h.2]
    simp [store, h.1]

/-- A byte that some store addresses holds the value of one of the stores to it. -/
theorem commit_mem (ws : Writes) : ∀ (m : Mem) (a : Nat), a ∈ ws.map Prod.fst →
    ∃ v, (a, v) ∈ ws ∧ commit m ws a = u8 v := by
  induction ws with
  | nil => intro m a h; simp at h
  | cons w ws ih =>
    intro m a h
    obtain ⟨a1, v1⟩ := w
    by_cases hin : a ∈ ws.map Prod.fst
    · obtain ⟨v, hv, hc⟩ := ih (store m a1 v1) a hin
      exact ⟨v, List.mem_cons_of_mem _ hv, by simpa [commit] using hc⟩
    · have ha : a = a1 := by
        simp only [List.map_cons, List.mem_cons] at h
        rcases h with h | h
        · exact h
        · exact absurd h hin
      subst ha
      refine ⟨v1, List.mem_cons_self _ _, ?_⟩
      simp only [commit]
      rw [commit_not_mem ws _ a hin]
      simp [store]

theorem put_unaligned_u16_bytes (e : Endian) (dst v : Nat) :
    put_unaligned_u16 e dst v = [(dst, byte_u16 e 0 v), (dst + 1, byte_u16 e 1 v)] := by
  cases e <;> rfl

theorem byte_u16_lt (e : Endian) (k v : Nat) : byte_u16 e k v < 256 := by
  cases e <;> simp only [byte_u16] <;> split <;> omega

theorem get_unaligned_u16_of_bytes (e : Endian) (m : Mem) (a v : Nat) (hv : v < 65536)
    (h0 : m a = byte_u16 e 0 v) (h1 : m (a + 1) = byte_u16 e 1 v) :
    get_unaligned_u16 e m a = v := by
  cases e
  · simp only [get_unaligned_u16, u8, h0, h1, byte_u16]
    simp only [if_true, if_false, show (1 : Nat) ≠ 0 from by decide]
    omega
  · simp only [get_unaligned_u16, u8, h0, h1, byte_u16]
    simp only [if_true, if_false, show (1 : Nat) ≠ 0 from by decide]
    omega

/-- In a grid of rows `stride` apart holding `W` cells of `c` bytes, a byte
address determines its row, cell and byte. -/
theorem grid_unique (stride c W j i k y x l : Nat) (hW : W * c ≤ stride)
    (hi : i < W) (hx : x < W) (hk : k < c) (hl : l < c)
    (h : j * stride + i * c + k = y * stride + x * c + l) : j = y ∧ i = x ∧ k = l := by
  have hi2 : i * c + k < stride := by
    have := Nat.mul_le_mul_right c (show i + 1 ≤ W from hi)
    rw [Nat.add_mul] at this
    omega
  have hx2 : x * c + l < stride := by
    have := Nat.mul_le_mul_right c (show x + 1 ≤ W from hx)
    rw [Nat.add_mul] at this
    omega
  have hjy : j = y := by
    rcases Nat.lt_trichotomy j y with hlt | heq | hgt
    · have := Nat.mul_le_mul_right stride (show j + 1 ≤ y from hlt)
      rw [Nat.add_mul] at this
      omega
    · exact heq
    · have := Nat.mul_le_mul_right stride (show y + 1 ≤ j from hgt)
      rw [Nat.add_mul] at this
      omega
  subst hjy
  have hic : i * c + k = x * c + l := by omega
  have hix : i = x := by
    rcases Nat.lt_trichotomy i x with hlt | heq | hgt
    · have := Nat.mul_le_mul_right c (show i + 1 ≤ x from hlt)
      rw [Nat.add_mul] at this
      omega
    · exact heq
    · have := Nat.mul_le_mul_right c (show x + 1 ≤ i from hgt)
      rw [Nat.add_mul] at this
      omega
  subst hix
  exact ⟨rfl, rfl, by omega⟩

/-- Memory after a list of stores that consists of one 16-bit store per pixel
of a `W x H` grid: every pixel reads back the value stored for it. -/
theorem commit_pixels_u16 (e : Endian) (ws : Writes) (W H stride d : Nat)
    (V : Nat → Nat → Nat) (hV : ∀ j i, V j i < 65536) (hW : W * 2 ≤ stride)
    (hmem : ∀ w, w ∈ ws ↔
      ∃ j, j < H ∧ ∃ i, i < W ∧ w ∈ put_unaligned_u16 e (d + j * stride + i * 2) (V j i))
    (m : Mem) (y x : Nat) (hy : y < H) (hx : x < W) :
    get_unaligned_u16 e (commit m ws) (d + y * stride + x * 2) = V y x := by
  have key : ∀ l, l < 2 →
      commit m ws (d + y * stride + x * 2 + l) = byte_u16 e l (V y x) := by
    intro l hl
    have hin : (d + y * stride + x * 2 + l) ∈ ws.map Prod.fst := by
      refine List.mem_map.mpr ⟨(d + y * stride + x * 2 + l, byte_u16 e l (V y x)), ?_, rfl⟩
      rw [hmem]
      refine ⟨y, hy, x, hx, ?_⟩
      rw [put_unaligned_u16_bytes]
      have : l = 0 ∨ l = 1 := by omega
      rcases this with h | h <;> subst h <;> simp
    obtain ⟨v, hv, hc⟩ := commit_mem ws m _ hin
    rw [hmem] at hv
    obtain ⟨j, hj, i, hi, hp⟩ := hv
    rw [put_unaligned_u16_bytes] at hp
    simp only [List.mem_cons, List.mem_singleton, List.not_mem_nil, or_false,
      Prod.mk.injEq] at hp
    rcases hp with ⟨ha, hvv⟩ | ⟨ha, hvv⟩
    · obtain ⟨h1, h2, h3⟩ := grid_unique stride 2 W y x l j i 0 hW hx hi hl (by omega)
        (by omega)
      subst h1; subst h2; subst h3
      rw [hc, hvv, u8, Nat.mod_eq_of_lt (byte_u16_lt e 0 _)]
    · obtain ⟨h1, h2, h3⟩ := grid_unique stride 2 W y x l j i 1 hW hx hi hl (by omega)
        (by omega)
      subst h1; subst h2; subst h3
      rw [hc, hvv, u8, Nat.mod_eq_of_lt (byte_u16_lt e 1 _)]
  exact get_unaligned_u16_of_bytes e _ _ _ (hV y x) (by simpa using key 0 (by omega))
    (key 1 (by omega))

/-- The stores of `sdrm_blit_from_xrgb8888` are those of its scanlines. -/
theorem mem_sdrm_blit_from_xrgb8888 (e : Endian) (src : Mem)
    (src_stride src_bpp dst_stride dst_bpp f width : Nat) (w : Nat × Nat) (height : Nat) :
    ∀ (s d : Nat),
    w ∈ sdrm_blit_from_xrgb8888 e src s src_stride src_bpp d dst_stride dst_bpp f width height ↔
      ∃ j, j < height ∧ w ∈ sdrm_blit_from_xrgb8888_line e src (s + j * src_stride) src_bpp
        (d + j * dst_stride) dst_bpp f width := by
  induction height with
  | zero => intro s d; simp [sdrm_blit_from_xrgb8888]
  | succ h ih =>
    intro s d
    simp only [sdrm_blit_from_xrgb8888, List.mem_append, ih]
    constructor
    · rintro (hw | ⟨j, hj, hw⟩)
      · exact ⟨0, by omega, by simpa using hw⟩
      · refine ⟨j + 1, by omega, ?_⟩
        rw [show s + (j + 1) * src_stride = s + src_stride + j * src_stride by ring,
          show d + (j + 1) * dst_stride = d + dst_stride + j * dst_stride by ring]
        exact hw
    · rintro ⟨j, hj, hw⟩
      cases j with
      | zero => exact Or.inl (by simpa using hw)
      | succ j =>
        refine Or.inr ⟨j, by omega, ?_⟩
        rw [show s + (j + 1) * src_stride = s + src_stride + j * src_stride by ring,
          show d + (j + 1) * dst_stride = d + dst_stride + j * dst_stride by ring] at hw
        exact hw

/-! ### Damage on a mapped surface and the pipe update -/

theorem sdrm_crtc_send_vblank_event_frame (s : sdrm_device) :
    (sdrm_crtc_send_vblank_event s).hw = s.hw ∧
    (sdrm_crtc_send_vblank_event s).damage = s.damage ∧
    (sdrm_crtc_send_vblank_event s).warnings = s.warnings ∧
    (sdrm_crtc_send_vblank_event s).io_log = s.io_log ∧
    (sdrm_crtc_send_vblank_event s).plane_fb = s.plane_fb := by
  unfold sdrm_crtc_send_vblank_event
  cases s.crtc_state with
  | none => simp
  | some st =>
    obtain ⟨ev⟩ := st
    cases ev <;> simp

/-- Effect of `sdrm_dirty` when both the buffer and the hardware are mapped. -/
theorem sdrm_dirty_mapped (e : Endian) (s : sdrm_device) (fb : sdrm_fb) (x y w h : Nat)
    (hv : fb.bo.vmapping ≠ none) (hm : s.hw.map ≠ none) :
    (sdrm_dirty e s fb x y w h).hw.iomem = commit s.hw.iomem (sdrm_blit e s.hw fb x y w h) ∧
    (sdrm_dirty e s fb x y w h).io_log = s.io_log ++ sdrm_blit e s.hw fb x y w h ∧
    (sdrm_dirty e s fb x y w h).damage = s.damage ++ [Damage.mk fb.ptr x y w h] ∧
    (sdrm_dirty e s fb x y w h).warnings = s.warnings ∧
    (sdrm_dirty e s fb x y w h).plane_fb = s.plane_fb := by
  unfold sdrm_dirty
  cases hv2 : fb.bo.vmapping with
  | none => exact absurd hv2 hv
  | some v =>
    cases hm2 : s.hw.map with
    | none => exact absurd hm2 hm
    | some p => simp [hm2]

/-- Damage log, warnings and current surface after `sdrm_dirty` with a live buffer. -/
theorem sdrm_dirty_live (e : Endian) (s : sdrm_device) (fb : sdrm_fb) (x y w h : Nat)
    (hv : fb.bo.vmapping ≠ none) :
    (sdrm_dirty e s fb x y w h).damage = s.damage ++ [Damage.mk fb.ptr x y w h] ∧
    (sdrm_dirty e s fb x y w h).warnings = s.warnings ∧
    (sdrm_dirty e s fb x y w h).plane_fb = s.plane_fb := by
  unfold sdrm_dirty
  cases hv2 : fb.bo.vmapping with
  | none => exact absurd hv2 hv
  | some v => cases hm2 : s.hw.map <;> simp [hm2]

/-- A pure red XRGB8888 pixel becomes `0xF800` in RGB565. -/
theorem red_pixel_rgb565 (e : Endian) (dst : Nat) :
    sdrm_put e dst DRM_FORMAT_RGB565 ((0x00FF0000 &&& 0x00ff0000) >>> 8)
      (0x00FF0000 &&& 0x0000ff00) ((0x00FF0000 &&& 0x000000ff) <<< 8)
      = put_unaligned_u16 e dst 0xF800 := by
  cases e <;> rfl

/-- Hardware memory after blitting a `W x H` all-red XRGB8888 source to an RGB565
surface: every pixel of the rectangle reads `0xF800`. -/
theorem red_blit_rgb565 (e : Endian) (src : Mem) (s src_stride stride W H : Nat)
    (hW4 : W * 4 < 4294967296) (hW : W * 2 ≤ stride)
    (hpix : ∀ y, y < H → ∀ x, x < W →
      get_unaligned_u32 e src (s + y * src_stride + x * 4) = 0x00FF0000)
    (m : Mem) (y x : Nat) (hy : y < H) (hx : x < W) :
    get_unaligned_u16 e
      (commit m (sdrm_blit_from_xrgb8888 e src s src_stride 4 0 stride 2 DRM_FORMAT_RGB565 W H))
      (y * stride + x * 2) = 0xF800 := by
  have h := commit_pixels_u16 e
    (sdrm_blit_from_xrgb8888 e src s src_stride 4 0 stride 2 DRM_FORMAT_RGB565 W H)
    W H stride 0 (fun _ _ => 0xF800) (fun _ _ => by show 0xF800 < 65536; decide) hW ?_ m y x
    hy hx
  · simpa using h
  · intro w
    rw [mem_sdrm_blit_from_xrgb8888]
    constructor
    · rintro ⟨j, hj, hw⟩
      unfold sdrm_blit_from_xrgb8888_line at hw
      rw [mem_for_loop] at hw
      obtain ⟨i, hi, hw⟩ := hw
      have h4 : u32 (i * 4) = i * 4 := Nat.mod_eq_of_lt (by omega)
      have h2 : u32 (i * 2) = i * 2 := Nat.mod_eq_of_lt (by omega)
      simp only [h4, h2, hpix j hj i hi] at hw
      rw [red_pixel_rgb565] at hw
      exact ⟨j, hj, i, hi, hw⟩
    · rintro ⟨j, hj, i, hi, hw⟩
      refine ⟨j, hj, ?_⟩
      unfold sdrm_blit_from_xrgb8888_line
      rw [mem_for_loop]
      refine ⟨i, hi, ?_⟩
      have h4 : u32 (i * 4) = i * 4 := Nat.mod_eq_of_lt (by omega)
      have h2 : u32 (i * 2) = i * 2 := Nat.mod_eq_of_lt (by omega)
      simp only [h4, h2, hpix j hj i hi]
      rw [red_pixel_rgb565]
      exact hw

/-! ### Dirty notifications -/

theorem sdrm_dirty_damage (e : Endian) (s : sdrm_device) (fb : sdrm_fb) (x y w h : Nat) :
    (sdrm_dirty e s fb x y w h).damage = s.damage ++ [Damage.mk fb.ptr x y w h] := by
  unfold sdrm_dirty
  cases hv2 : fb.bo.vmapping with
  | none => simp
  | some v => cases hm2 : s.hw.map <;> simp [hm2]

/-- The loop of `sdrm_fb_dirty` applies the valid clips in order and skips the
others one by one. -/
theorem sdrm_fb_dirty_loop_damage (e : Endian) (fb : sdrm_fb) (cl : List drm_clip_rect) :
    ∀ s : sdrm_device, (sdrm_fb_dirty_loop e fb s cl).damage
      = s.damage ++ (cl.filter (spec_clip_valid fb.base.width fb.base.height)).map
          (fun c => Damage.mk fb.ptr c.x1 c.y1 (c.x2 - c.x1) (c.y2 - c.y1)) := by
  induction cl with
  | nil => intro s; simp [sdrm_fb_dirty_loop]
  | cons c cs ih =>
    intro s
    by_cases hc : c.x1 > c.x2 ∨ c.x2 > fb.base.width ∨ c.y1 > c.y2 ∨ c.y2 > fb.base.height
    · have hv : spec_clip_valid fb.base.width fb.base.height c = false := by
        simp only [spec_clip_valid, Bool.and_eq_false_imp, Bool.and_eq_true, decide_eq_true_eq,
          decide_eq_false_iff_not]
        omega
      simp only [sdrm_fb_dirty_loop, hc, if_true, List.filter_cons, hv]
      exact ih s
    · have hv : spec_clip_valid fb.base.width fb.base.height c = true := by
        simp only [spec_clip_valid, Bool.and_eq_true, decide_eq_true_eq]
        omega
      simp only [sdrm_fb_dirty_loop, hc, if_false, List.filter_cons, hv, if_true,
        List.map_cons]
      rw [ih, sdrm_dirty_damage]
      simp

/-! ### Geometry check, format fall-through, hardware mapping, completion events -/

/-- What a successful `sdrm_hw_identify` guarantees: the two bounds on the
`u32` products. -/
theorem sdrm_hw_identify_ok (valid_formats : List simplefb_format) (bppf : Nat → Int)
    (pdev : platform_device) (mode : simplefb_platform_data) (format : simplefb_format)
    (mem : resource) (bpp : Nat)
    (h : sdrm_hw_identify valid_formats bppf pdev = (0, some (mode, format, mem, bpp))) :
    u32 (mode.stride * mode.height) ≤ resource_size mem ∧
    u32 (int_to_u32 (Int.tdiv (bppf format.fourcc + 7) 8) * mode.width) ≤ mode.stride ∧
    bpp = int_to_u32 (bppf format.fourcc) := by
  unfold sdrm_hw_identify at h
  simp only at h
  split at h
  · simp at h
  · split at h
    · simp at h
    · split at h
      · simp at h
      · split at h
        · split at h
          · simp at h
          · split at h
            · simp at h
            · split at h
              · simp at h
              · simp only [Prod.mk.injEq, Option.some.injEq, true_and] at h
                obtain ⟨h1, h2, h3, h4⟩ := h
                subst h1; subst h2; subst h3
                exact ⟨by omega, by omega, h4.symm⟩
        · simp at h

theorem sdrm_put_unknown (e : Endian) (dst f r g b : Nat)
    (h1 : f ≠ DRM_FORMAT_RGB565) (h2 : f ≠ DRM_FORMAT_XRGB1555) (h3 : f ≠ DRM_FORMAT_ARGB1555)
    (h4 : f ≠ DRM_FORMAT_RGB888) (h5 : f ≠ DRM_FORMAT_XRGB8888) (h6 : f ≠ DRM_FORMAT_ARGB8888)
    (h7 : f ≠ DRM_FORMAT_ABGR8888) (h8 : f ≠ DRM_FORMAT_XRGB2101010)
    (h9 : f ≠ DRM_FORMAT_ARGB2101010) :
    sdrm_put e dst f r g b = [] := by
  simp [sdrm_put, h1, h2, h3, h4, h5, h6, h7, h8, h9]

theorem sdrm_blit_unknown (e : Endian) (hw : sdrm_hw) (fb : sdrm_fb) (x y w h : Nat)
    (h0 : fb.base.pixel_format ≠ hw.format)
    (h1 : fb.base.pixel_format ≠ DRM_FORMAT_ARGB8888)
    (h2 : fb.base.pixel_format ≠ DRM_FORMAT_XRGB8888)
    (h3 : fb.base.pixel_format ≠ DRM_FORMAT_RGB565) :
    sdrm_blit e hw fb x y w h = [] := by
  simp [sdrm_blit, h0, h1, h2, h3]

theorem sdrm_dirty_frame (e : Endian) (s : sdrm_device) (fb : sdrm_fb) (x y w h : Nat) :
    (sdrm_dirty e s fb x y w h).sent = s.sent ∧
    (sdrm_dirty e s fb x y w h).crtc_state = s.crtc_state := by
  unfold sdrm_dirty
  cases hv2 : fb.bo.vmapping with
  | none => simp
  | some v => cases hm2 : s.hw.map <;> simp [hm2]

/-- Sending the completion event: what was pending is appended to the log and
nothing stays pending. -/
theorem sdrm_crtc_send_vblank_event_effect (s : sdrm_device) :
    (sdrm_crtc_send_vblank_event s).sent = s.sent ++ pending_event s ∧
    pending_event (sdrm_crtc_send_vblank_event s) = [] ∧
    (∀ ev, s.crtc_state = some { event := some ev } →
      (sdrm_crtc_send_vblank_event s).crtc_state = some { event := none }) ∧
    (pending_event s = [] → sdrm_crtc_send_vblank_event s = s) := by
  unfold sdrm_crtc_send_vblank_event pending_event
  cases hc : s.crtc_state with
  | none => simp [hc]
  | some st =>
    obtain ⟨ev⟩ := st
    cases ev <;> simp [hc]

theorem sdrm_display_pipe_update_events (e : Endian) (s : sdrm_device)
    (ps : Option sdrm_fb) :
    (sdrm_display_pipe_update e s ps).sent = (sdrm_crtc_send_vblank_event s).sent ∧
    (sdrm_display_pipe_update e s ps).crtc_state = (sdrm_crtc_send_vblank_event s).crtc_state := by
  unfold sdrm_display_pipe_update
  cases hfb : s.plane_state_fb with
  | none => simp
  | some fb =>
    simp only
    obtain ⟨a, b⟩ := sdrm_dirty_frame e
      { sdrm_crtc_send_vblank_event s with plane_fb := some fb } fb 0 0
      fb.base.width fb.base.height
    exact ⟨a, b⟩

theorem pending_event_congr (s t : sdrm_device) (h : s.crtc_state = t.crtc_state) :
    pending_event s = pending_event t := by
  unfold pending_event; rw [h]

/-- Over a sequence of commits and callbacks, what is sent is a subsequence of
what was pending at the start followed by what the commits registered. -/
theorem run_pipe_sent (e : Endian) (ops : List PipeOp) : ∀ s : sdrm_device,
    ∃ l, (run_pipe e s ops).sent = s.sent ++ l ∧
      l.Sublist (pending_event s ++ registered_events ops) := by
  induction ops with
  | nil => intro s; exact ⟨[], by simp [run_pipe], List.nil_sublist _⟩
  | cons op ops ih =>
    intro s
    have hsend : ∀ t : sdrm_device, t.sent = (sdrm_crtc_send_vblank_event s).sent →
        pending_event t = [] → registered_events (op :: ops) = registered_events ops →
        ∃ l, (run_pipe e t ops).sent = s.sent ++ l ∧
          l.Sublist (pending_event s ++ registered_events (op :: ops)) := by
      intro t ht hp hr
      obtain ⟨l, hl, hsub⟩ := ih t
      obtain ⟨q1, _, _, _⟩ := sdrm_crtc_send_vblank_event_effect s
      refine ⟨pending_event s ++ l, by rw [hl, ht, q1, List.append_assoc], ?_⟩
      rw [hp, List.nil_append] at hsub
      rw [hr]
      exact List.Sublist.append (List.Sublist.refl _) hsub
    cases op with
    | commit ev =>
      obtain ⟨l, hl, hsub⟩ := ih { s with crtc_state := some { event := ev } }
      refine ⟨l, by simpa [run_pipe] using hl, ?_⟩
      cases ev with
      | none =>
        simp only [pending_event, List.nil_append] at hsub
        exact List.Sublist.trans hsub (by simp [registered_events])
      | some v =>
        simp only [pending_event, List.singleton_append] at hsub
        exact List.Sublist.trans hsub (by simp [registered_events])
    | enable =>
      exact hsend (sdrm_display_pipe_enable s) rfl
        (sdrm_crtc_send_vblank_event_effect s).2.1 rfl
    | disable =>
      exact hsend (sdrm_display_pipe_disable s) rfl
        (sdrm_crtc_send_vblank_event_effect s).2.1 rfl
    | update =>
      obtain ⟨u1, u2⟩ := sdrm_display_pipe_update_events e s none
      exact hsend (sdrm_display_pipe_update e s none) u1
        (by rw [pending_event_congr _ _ u2]; exact (sdrm_crtc_send_vblank_event_effect s).2.1)
        rfl

/-! ### Clock and regulator accounting -/

theorem res_held_append (k : ResKind) (a b : List ResEv) (h : Nat) :
    res_held k (a ++ b) h = res_held k a h + res_held k b h := by
  simp [res_held, List.map_append, List.sum_append]

theorem res_enabled_append (k : ResKind) (a b : List ResEv) (h : Nat) :
    res_enabled k (a ++ b) h = res_enabled k a h + res_enabled k b h := by
  simp [res_enabled, List.map_append, List.sum_append]

/-- Closed form of the lookup loop. -/
theorem of_get_loop_eq (k : ResKind) (ls : List (Bool × ErrPtr)) :
    ∀ (arr : List (Option Nat)) (log : List ResEv),
    of_get_loop k ls arr log
      = (of_deferred ls, arr ++ (of_acquired ls).map some,
          log ++ (of_acquired ls).map (ResEv.get k)) := by
  induction ls with
  | nil => intro arr log; simp [of_get_loop, of_deferred, of_acquired]
  | cons c ls ih =>
    intro arr log
    obtain ⟨ok, l⟩ := c
    cases ok with
    | false => simp [of_get_loop, of_deferred, of_acquired, ih]
    | true =>
      cases l with
      | ok h => simp [of_get_loop, of_deferred, of_acquired, ih]
      | err e =>
        by_cases he : e = -EPROBE_DEFER
        · simp [of_get_loop, of_deferred, of_acquired, he]
        · simp [of_get_loop, of_deferred, of_acquired, he, ih]

theorem of_deferred_iff (ls : List (Bool × ErrPtr)) :
    of_deferred ls = true ↔ (true, ErrPtr.err (-EPROBE_DEFER)) ∈ ls := by
  induction ls with
  | nil => simp [of_deferred]
  | cons c ls ih =>
    obtain ⟨ok, l⟩ := c
    cases ok with
    | false => simp [of_deferred, ih]
    | true =>
      cases l with
      | ok h => simp [of_deferred, ih]
      | err e =>
        by_cases he : e = -EPROBE_DEFER
        · simp [of_deferred, he]
        · have he2 : ¬ (-EPROBE_DEFER = e) := fun x => he x.symm
          simp [of_deferred, he, he2, ih]

/-- Without a deferral the loop acquires every resource found. -/
theorem of_acquired_eq_found (ls : List (Bool × ErrPtr)) (h : of_deferred ls = false) :
    of_acquired ls = of_found ls := by
  induction ls with
  | nil => rfl
  | cons c ls ih =>
    obtain ⟨ok, l⟩ := c
    cases ok with
    | false =>
      simp only [of_deferred] at h
      simp [of_acquired, of_found, List.filterMap_cons, ih h]
    | true =>
      cases l with
      | ok p =>
        simp only [of_deferred] at h
        simp [of_acquired, of_found, List.filterMap_cons, ih h]
      | err e =>
        by_cases he : e = -EPROBE_DEFER
        · simp [of_deferred, he] at h
        · simp only [of_deferred, he, if_false] at h
          simp [of_acquired, of_found, List.filterMap_cons, he, ih h]

theorem of_enable_loop_map (k : ResKind) (enable : Nat → Int) (hs : List Nat) :
    (of_enable_loop k enable (hs.map some)).1 = of_kept enable hs := by
  induction hs with
  | nil => rfl
  | cons h hs ih =>
    simp only [List.map_cons, of_enable_loop, of_kept] at ih ⊢
    by_cases he : enable h < 0 <;> simp [he, ih]

/-- Net effect of the calls of the lookup loop. -/
theorem res_gets (k k1 : ResKind) (hs : List Nat) (h : Nat) :
    res_held k1 (hs.map (ResEv.get k)) h
      = (if k = k1 then ((hs.map some).count (some h) : Int) else 0) ∧
    res_enabled k1 (hs.map (ResEv.get k)) h = 0 := by
  induction hs with
  | nil => simp [res_held, res_enabled]
  | cons a hs ih =>
    obtain ⟨i1, i2⟩ := ih
    simp only [res_held, res_enabled, List.map_cons, List.sum_cons] at i1 i2 ⊢
    rw [i1, i2]
    constructor
    · by_cases hk : k = k1
      · by_cases ha : a = h
        · subst ha; simp [ev_held, hk, List.count_cons]; ring
        · have : ¬ (h = a) := fun x => ha x.symm
          simp [ev_held, hk, ha, this, List.count_cons]
      · simp [ev_held, hk]
    · simp [ev_enabled]

/-- Net effect of the calls of the enable loop: the entries it puts are no longer
held, the entries it keeps are enabled. -/
theorem res_enable_loop (k k1 : ResKind) (enable : Nat → Int) (arr : List (Option Nat))
    (h : Nat) :
    res_held k1 (of_enable_loop k enable arr).2 h
      = (if k = k1 then ((of_enable_loop k enable arr).1.count (some h) : Int)
          - (arr.count (some h) : Int) else 0) ∧
    res_enabled k1 (of_enable_loop k enable arr).2 h
      = (if k = k1 then ((of_enable_loop k enable arr).1.count (some h) : Int) else 0) := by
  induction arr with
  | nil => simp [of_enable_loop, res_held, res_enabled]
  | cons c cs ih =>
    obtain ⟨i1, i2⟩ := ih
    cases c with
    | none =>
      simp only [of_enable_loop]
      rw [i1, i2]
      simp [List.count_cons]
    | some a =>
      simp only [of_enable_loop]
      by_cases he : enable a < 0
      · simp only [he, if_true]
        simp only [res_held, res_enabled, List.map_cons, List.sum_cons] at i1 i2 ⊢
        rw [i1, i2]
        by_cases hk : k = k1
        · by_cases ha : a = h
          · subst ha; simp [ev_held, ev_enabled, hk, List.count_cons]; omega
          · simp [ev_held, ev_enabled, hk, ha, List.count_cons]
        · simp [ev_held, ev_enabled, hk]
      · simp only [he, if_false]
        simp only [res_held, res_enabled, List.map_cons, List.sum_cons] at i1 i2 ⊢
        rw [i1, i2]
        by_cases hk : k = k1
        · by_cases ha : a = h
          · subst ha; simp [ev_held, ev_enabled, hk, List.count_cons]; omega
          · simp [ev_held, ev_enabled, hk, ha, List.count_cons]
        · simp [ev_held, ev_enabled, hk]

/-- Net effect of putting every held entry. -/
theorem res_put_all (k k1 : ResKind) (arr : List (Option Nat)) (h : Nat) :
    res_held k1 (of_put_all k arr) h = (if k = k1 then - (arr.count (some h) : Int) else 0) ∧
    res_enabled k1 (of_put_all k arr) h = 0 := by
  induction arr with
  | nil => simp [of_put_all, res_held, res_enabled]
  | cons c cs ih =>
    obtain ⟨i1, i2⟩ := ih
    cases c with
    | none =>
      simp only [of_put_all]
      rw [i1, i2]
      simp [List.count_cons]
    | some a =>
      simp only [of_put_all]
      simp only [res_held, res_enabled, List.map_cons, List.sum_cons] at i1 i2 ⊢
      rw [i1, i2]
      by_cases hk : k = k1
      · by_cases ha : a = h
        · subst ha; simp [ev_held, ev_enabled, hk, List.count_cons]
        · simp [ev_held, ev_enabled, hk, ha, List.count_cons]
      · simp [ev_held, ev_enabled, hk]

/-- Net effect of disabling and putting every held entry. -/
theorem res_release_all (k k1 : ResKind) (arr : List (Option Nat)) (h : Nat) :
    res_held k1 (of_release_all k arr) h
      = (if k = k1 then - (arr.count (some h) : Int) else 0) ∧
    res_enabled k1 (of_release_all k arr) h
      = (if k = k1 then - (arr.count (some h) : Int) else 0) := by
  induction arr with
  | nil => simp [of_release_all, res_held, res_enabled]
  | cons c cs ih =>
    obtain ⟨i1, i2⟩ := ih
    cases c with
    | none =>
      simp only [of_release_all]
      rw [i1, i2]
      simp [List.count_cons]
    | some a =>
      simp only [of_release_all]
      simp only [res_held, res_enabled, List.map_cons, List.sum_cons] at i1 i2 ⊢
      rw [i1, i2]
      by_cases hk : k = k1
      · by_cases ha : a = h
        · subst ha; simp [ev_held, ev_enabled, hk, List.count_cons]
        · simp [ev_held, ev_enabled, hk, ha, List.count_cons]
      · simp [ev_held, ev_enabled, hk]

/-- Outcome and net effect of `sdrm_of_bind_clocks` entered with no clock held. -/
theorem sdrm_of_bind_clocks_spec (env : clk_env) (s : sdrm_device) (hc : s.clks = []) :
    ((sdrm_of_bind_clocks env s).1
        = (if env.lookups = [] then 0
           else if env.alloc_ok = false then -ENOMEM
           else if of_deferred (env.lookups.map (fun l => (true, l))) then -EPROBE_DEFER
           else 0)) ∧
    (sdrm_of_bind_clocks env s).2.regulators = s.regulators ∧
    ((sdrm_of_bind_clocks env s).1 < 0 → (sdrm_of_bind_clocks env s).2.clks = []) ∧
    ((sdrm_of_bind_clocks env s).1 = 0 →
      (sdrm_of_bind_clocks env s).2.clks
        = of_kept env.enable (of_found (env.lookups.map (fun l => (true, l))))) ∧
    ∃ d, (sdrm_of_bind_clocks env s).2.res_log = s.res_log ++ d ∧
      ∀ k1 h,
        res_held k1 d h
          = (if ResKind.clk = k1
              then (((sdrm_of_bind_clocks env s).2.clks.count (some h) : Nat) : Int) else 0) ∧
        res_enabled k1 d h
          = (if ResKind.clk = k1
              then (((sdrm_of_bind_clocks env s).2.clks.count (some h) : Nat) : Int) else 0) := by
  by_cases hl : env.lookups = []
  · have hR : sdrm_of_bind_clocks env s = (0, s) := by simp [sdrm_of_bind_clocks, hl]
    rw [hR]
    refine ⟨by simp [hl], rfl, fun _ => hc, fun _ => by simp [hc, hl, of_found, of_kept],
      [], by simp, ?_⟩
    intro k1 h
    simp [hc, res_held, res_enabled]
  · have hlen : ¬ env.lookups.length < 1 := by
      cases hx : env.lookups with
      | nil => exact absurd hx hl
      | cons a as => simp
    by_cases ha : env.alloc_ok = false
    · have hR : sdrm_of_bind_clocks env s = (-ENOMEM, s) := by
        simp [sdrm_of_bind_clocks, hlen, ha]
      rw [hR]
      refine ⟨by simp [hl, ha], rfl, fun _ => hc, fun h => ?_, [], by simp, ?_⟩
      · simp [ENOMEM] at h
      · intro k1 h
        simp [hc, res_held, res_enabled]
    · have ha2 : env.alloc_ok = true := by
        cases hx : env.alloc_ok with
        | false => exact absurd hx ha
        | true => rfl
      by_cases hd : of_deferred (env.lookups.map (fun l => (true, l))) = true
      · have hR : sdrm_of_bind_clocks env s
            = (-EPROBE_DEFER, { s with
                clks := [],
                res_log := s.res_log
                  ++ (of_acquired (env.lookups.map (fun l => (true, l)))).map
                      (ResEv.get ResKind.clk)
                  ++ of_put_all ResKind.clk
                      ((of_acquired (env.lookups.map (fun l => (true, l)))).map some) }) := by
          simp [sdrm_of_bind_clocks, hlen, ha2, of_get_loop_eq, hd]
        rw [hR]
        refine ⟨by simp [hl, ha2, hd], rfl, fun _ => rfl, fun h => ?_, _,
          List.append_assoc _ _ _, ?_⟩
        · simp [EPROBE_DEFER] at h
        · intro k1 h
          rw [res_held_append, res_enabled_append,
            (res_gets ResKind.clk k1 _ h).1, (res_gets ResKind.clk k1 _ h).2,
            (res_put_all ResKind.clk k1 _ h).1, (res_put_all ResKind.clk k1 _ h).2]
          by_cases hk : ResKind.clk = k1 <;> simp [hk]
      · have hd2 : of_deferred (env.lookups.map (fun l => (true, l))) = false := by
          cases hx : of_deferred (env.lookups.map (fun l => (true, l))) with
          | false => rfl
          | true => exact absurd hx hd
        have hR : sdrm_of_bind_clocks env s
            = (0, { s with
                clks := (of_enable_loop ResKind.clk env.enable
                  ((of_found (env.lookups.map (fun l => (true, l)))).map some)).1,
                res_log := s.res_log
                  ++ (of_found (env.lookups.map (fun l => (true, l)))).map
                      (ResEv.get ResKind.clk)
                  ++ (of_enable_loop ResKind.clk env.enable
                      ((of_found (env.lookups.map (fun l => (true, l)))).map some)).2 }) := by
          simp [sdrm_of_bind_clocks, hlen, ha2, of_get_loop_eq, hd2, of_acquired_eq_found _ hd2]
        rw [hR]
        refine ⟨by simp [hl, ha2, hd2], rfl, fun h => ?_, fun _ => ?_, _,
          List.append_assoc _ _ _, ?_⟩
        · simp at h
        · exact of_enable_loop_map _ _ _
        · intro k1 h
          rw [res_held_append, res_enabled_append,
            (res_gets ResKind.clk k1 _ h).1, (res_gets ResKind.clk k1 _ h).2,
            (res_enable_loop ResKind.clk k1 _ _ h).1, (res_enable_loop ResKind.clk k1 _ _ h).2]
          by_cases hk : ResKind.clk = k1 <;> simp [hk]

/-- Outcome and net effect of `sdrm_of_bind_regulators` entered with no regulator held. -/
theorem sdrm_of_bind_regulators_spec (env : reg_env) (s : sdrm_device) (hc : s.regulators = []) :
    ((sdrm_of_bind_regulators env s).1
        = (if env.props = [] then 0
           else if env.alloc_ok = false then -ENOMEM
           else if of_deferred env.props then -EPROBE_DEFER
           else 0)) ∧
    (sdrm_of_bind_regulators env s).2.clks = s.clks ∧
    ((sdrm_of_bind_regulators env s).1 < 0 → (sdrm_of_bind_regulators env s).2.regulators = []) ∧
    ((sdrm_of_bind_regulators env s).1 = 0 →
      (sdrm_of_bind_regulators env s).2.regulators
        = of_kept env.enable (of_found env.props)) ∧
    ∃ d, (sdrm_of_bind_regulators env s).2.res_log = s.res_log ++ d ∧
      ∀ k1 h,
        res_held k1 d h
          = (if ResKind.regulator = k1
              then (((sdrm_of_bind_regulators env s).2.regulators.count (some h) : Nat) : Int) else 0) ∧
        res_enabled k1 d h
          = (if ResKind.regulator = k1
              then (((sdrm_of_bind_regulators env s).2.regulators.count (some h) : Nat) : Int) else 0) := by
  by_cases hl : env.props = []
  · have hR : sdrm_of_bind_regulators env s = (0, s) := by simp [sdrm_of_bind_regulators, hl]
    rw [hR]
    refine ⟨by simp [hl], rfl, fun _ => hc, fun _ => by simp [hc, hl, of_found, of_kept],
      [], by simp, ?_⟩
    intro k1 h
    simp [hc, res_held, res_enabled]
  · have hlen : ¬ env.props.length < 1 := by
      cases hx : env.props with
      | nil => exact absurd hx hl
      | cons a as => simp
    by_cases ha : env.alloc_ok = false
    · have hR : sdrm_of_bind_regulators env s = (-ENOMEM, s) := by
        simp [sdrm_of_bind_regulators, hlen, ha]
      rw [hR]
      refine ⟨by simp [hl, ha], rfl, fun _ => hc, fun h => ?_, [], by simp, ?_⟩
      · simp [ENOMEM] at h
      · intro k1 h
        simp [hc, res_held, res_enabled]
    · have ha2 : env.alloc_ok = true := by
        cases hx : env.alloc_ok with
        | false => exact absurd hx ha
        | true => rfl
      by_cases hd : of_deferred env.props = true
      · have hR : sdrm_of_bind_regulators env s
            = (-EPROBE_DEFER, { s with
                regulators := [],
                res_log := s.res_log
                  ++ (of_acquired env.props).map
                      (ResEv.get ResKind.regulator)
                  ++ of_put_all ResKind.regulator
                      ((of_acquired env.props).map some) }) := by
          simp [sdrm_of_bind_regulators, hlen, ha2, of_get_loop_eq, hd]
        rw [hR]
        refine ⟨by simp [hl, ha2, hd], rfl, fun _ => rfl, fun h => ?_, _,
          List.append_assoc _ _ _, ?_⟩
        · simp [EPROBE_DEFER] at h
        · intro k1 h
          rw [res_held_append, res_enabled_append,
            (res_gets ResKind.regulator k1 _ h).1, (res_gets ResKind.regulator k1 _ h).2,
            (res_put_all ResKind.regulator k1 _ h).1, (res_put_all ResKind.regulator k1 _ h).2]
          by_cases hk : ResKind.regulator = k1 <;> simp [hk]
      · have hd2 : of_deferred env.props = false := by
          cases hx : of_deferred env.props with
          | false => rfl
          | true => exact absurd hx hd
        have hR : sdrm_of_bind_regulators env s
            = (0, { s with
                regulators := (of_enable_loop ResKind.regulator env.enable
                  ((of_found env.props).map some)).1,
                res_log := s.res_log
                  ++ (of_found env.props).map
                      (ResEv.get ResKind.regulator)
                  ++ (of_enable_loop ResKind.regulator env.enable
                      ((of_found env.props).map some)).2 }) := by
          simp [sdrm_of_bind_regulators, hlen, ha2, of_get_loop_eq, hd2, of_acquired_eq_found _ hd2]
        rw [hR]
        refine ⟨by simp [hl, ha2, hd2], rfl, fun h => ?_, fun _ => ?_, _,
          List.append_assoc _ _ _, ?_⟩
        · simp at h
        · exact of_enable_loop_map _ _ _
        · intro k1 h
          rw [res_held_append, res_enabled_append,
            (res_gets ResKind.regulator k1 _ h).1, (res_gets ResKind.regulator k1 _ h).2,
            (res_enable_loop ResKind.regulator k1 _ _ h).1, (res_enable_loop ResKind.regulator k1 _ _ h).2]
          by_cases hk : ResKind.regulator = k1 <;> simp [hk]

/-- Reading of the return value of one of the two bind functions. -/
theorem of_code_facts (alloc_ok : Bool) (ls : List (Bool × ErrPtr)) (r : Int)
    (h : r = (if ls = [] then 0
              else if alloc_ok = false then -ENOMEM
              else if of_deferred ls then -EPROBE_DEFER
              else 0)) :
    (r < 0 ↔ of_fatal alloc_ok ls) ∧
    (r = 0 ∨ r = -EPROBE_DEFER ∨ r = -ENOMEM) ∧
    (r = -EPROBE_DEFER → (true, ErrPtr.err (-EPROBE_DEFER)) ∈ ls) ∧
    (r = -ENOMEM → alloc_ok = false) ∧
    (¬ r < 0 → r = 0) := by
  by_cases hl : ls = []
  · simp only [hl, if_true] at h
    subst h
    simp [of_fatal, hl, ENOMEM, EPROBE_DEFER]
  · by_cases ha : alloc_ok = false
    · simp only [hl, ha, if_true, if_false] at h
      subst h
      simp [of_fatal, hl, ha, ENOMEM, EPROBE_DEFER]
    · have ha2 : alloc_ok = true := by
        cases alloc_ok with
        | false => exact absurd rfl ha
        | true => rfl
      by_cases hd : of_deferred ls = true
      · have hm := (of_deferred_iff ls).1 hd
        simp only [hl, ha, hd, if_true, if_false] at h
        subst h
        simp only [EPROBE_DEFER] at hm
        simp [of_fatal, hl, ha2, hm, ENOMEM, EPROBE_DEFER]
      · have hm : (true, ErrPtr.err (-EPROBE_DEFER)) ∉ ls := fun x => hd ((of_deferred_iff ls).2 x)
        simp only [hl, ha, hd, if_false] at h
        subst h
        simp only [EPROBE_DEFER] at hm
        simp [of_fatal, ha2, hm, ENOMEM, EPROBE_DEFER]

/-- Effect of `sdrm_of_unbind`. -/
theorem sdrm_of_unbind_spec (s : sdrm_device) :
    (sdrm_of_unbind s).clks = [] ∧ (sdrm_of_unbind s).regulators = [] ∧
    (sdrm_of_unbind s).res_log
      = s.res_log ++ (of_release_all ResKind.regulator s.regulators
          ++ of_release_all ResKind.clk s.clks) := by
  simp [sdrm_of_unbind, sdrm_of_unbind_clocks, sdrm_of_unbind_regulators]

/-! ### Unwinding of a failed bind -/

/-- After `sdrm_device_unbind` nothing is mapped and no clock, regulator or fbdev
remains. -/
theorem sdrm_device_unbind_released (d : sdrm_device) :
    (sdrm_device_unbind d).hw.map = none ∧ (sdrm_device_unbind d).clks = [] ∧
    (sdrm_device_unbind d).regulators = [] ∧ (sdrm_device_unbind d).fbdev = none := by
  unfold sdrm_device_unbind sdrm_of_unbind sdrm_of_unbind_clocks sdrm_of_unbind_regulators
    sdrm_kms_unbind sdrm_fbdev_unbind sdrm_hw_unbind
  cases hf : d.fbdev <;> cases hk : d.kms_bound <;> cases hm : d.hw.map <;> simp [hf, hk, hm]

/-- A failed `sdrm_device_bind` returns the error of the step that failed and
leaves nothing mapped and no clock or regulator held. -/
theorem sdrm_device_bind_failure (env : bind_env) (s : sdrm_device)
    (h : (sdrm_device_bind env s).1 < 0) :
    ((sdrm_device_bind env s).1 = (sdrm_of_bind env.of s).1 ∨
      (sdrm_device_bind env s).1 = - EIO ∨
      (sdrm_device_bind env s).1 = env.connector_init ∨
      (sdrm_device_bind env s).1 = env.pipe_init) ∧
    (sdrm_device_bind env s).2.hw.map = none ∧ (sdrm_device_bind env s).2.clks = [] ∧
    (sdrm_device_bind env s).2.regulators = [] := by
  have hio : ∀ hw : sdrm_hw, (sdrm_hw_bind env.ioremap_wc hw).1 < 0 →
      (sdrm_hw_bind env.ioremap_wc hw).1 = - EIO := by
    intro hw
    simp only [sdrm_hw_bind]
    split_ifs <;> simp
  have hkms : ∀ d : sdrm_device, (sdrm_kms_bind env d).1 < 0 →
      ((sdrm_kms_bind env d).1 = env.connector_init ∨
        (sdrm_kms_bind env d).1 = env.pipe_init) := by
    intro d
    simp only [sdrm_kms_bind]
    split_ifs <;> simp
  by_cases ho : (sdrm_of_bind env.of s).1 < 0
  · have hR : sdrm_device_bind env s
        = ((sdrm_of_bind env.of s).1, sdrm_device_unbind (sdrm_of_bind env.of s).2) := by
      simp [sdrm_device_bind, ho]
    rw [hR]
    exact ⟨Or.inl rfl, (sdrm_device_unbind_released _).1, (sdrm_device_unbind_released _).2.1,
      (sdrm_device_unbind_released _).2.2.1⟩
  · by_cases hh : (sdrm_hw_bind env.ioremap_wc (sdrm_of_bind env.of s).2.hw).1 < 0
    · have hR : sdrm_device_bind env s
          = ((sdrm_hw_bind env.ioremap_wc (sdrm_of_bind env.of s).2.hw).1,
              sdrm_device_unbind { (sdrm_of_bind env.of s).2 with
                hw := (sdrm_hw_bind env.ioremap_wc (sdrm_of_bind env.of s).2.hw).2 }) := by
        simp [sdrm_device_bind, ho, hh]
      rw [hR]
      exact ⟨Or.inr (Or.inl (hio _ hh)), (sdrm_device_unbind_released _).1,
        (sdrm_device_unbind_released _).2.1, (sdrm_device_unbind_released _).2.2.1⟩
    · by_cases hk : (sdrm_kms_bind env
          { (sdrm_of_bind env.of s).2 with
            hw := (sdrm_hw_bind env.ioremap_wc (sdrm_of_bind env.of s).2.hw).2 }).1 < 0
      · have hR : sdrm_device_bind env s
            = ((sdrm_kms_bind env { (sdrm_of_bind env.of s).2 with
                  hw := (sdrm_hw_bind env.ioremap_wc (sdrm_of_bind env.of s).2.hw).2 }).1,
                sdrm_device_unbind (sdrm_kms_bind env { (sdrm_of_bind env.of s).2 with
                  hw := (sdrm_hw_bind env.ioremap_wc (sdrm_of_bind env.of s).2.hw).2 }).2) := by
          simp [sdrm_device_bind, ho, hh, hk]
        rw [hR]
        exact ⟨Or.inr (Or.inr (hkms _ hk)), (sdrm_device_unbind_released _).1,
          (sdrm_device_unbind_released _).2.1, (sdrm_device_unbind_released _).2.2.1⟩
      · have hR : (sdrm_device_bind env s).1 = 0 := by
          simp [sdrm_device_bind, ho, hh, hk]
        rw [hR] at h
        exact absurd h (by decide)

/-! ### Up-conversion of RGB565 and back -/

/-- The XRGB8888 value that the per-pixel path stores for the RGB565 value `p`:
the three fields, left-aligned in their bytes. -/
theorem rgb565_expand_value (p : Nat) (hp : p < 65536) :
    ((p &&& 0xf800) >>> 8) <<< 16 ||| (((p &&& 0x07e0) <<< 5) >>> 8) <<< 8 |||
        (((p &&& 0x001f) <<< 11) >>> 8)
      = (p / 2048) * 524288 + (p / 32 % 64) * 1024 + (p % 32) * 8 := by
  have m1 : p &&& 0xf800 = (p / 2 ^ 11 % 2 ^ 5) * 2 ^ 11 := and_field p 11 5
  have m2 : p &&& 0x07e0 = (p / 2 ^ 5 % 2 ^ 6) * 2 ^ 5 := and_field p 5 6
  have m3 : p &&& 0x001f = (p / 2 ^ 0 % 2 ^ 5) * 2 ^ 0 := and_field p 0 5
  rw [m1, m2, m3, or_fields _ _ _ 16 8 (by omega) (by omega)]
  omega

/-- Encoding that XRGB8888 value as RGB565 gives `p` back. -/
theorem rgb565_collapse_value (p : Nat) (hp : p < 65536) (v : Nat)
    (hv : v = (p / 2048) * 524288 + (p / 32 % 64) * 1024 + (p % 32) * 8) :
    (((v &&& 0x00ff0000) >>> 8) >>> 11) <<< 11 ||| ((v &&& 0x0000ff00) >>> 10) <<< 5 |||
        (((v &&& 0x000000ff) <<< 8) >>> 11) = p := by
  have m1 : v &&& 0x00ff0000 = (v / 2 ^ 16 % 2 ^ 8) * 2 ^ 16 := and_field v 16 8
  have m2 : v &&& 0x0000ff00 = (v / 2 ^ 8 % 2 ^ 8) * 2 ^ 8 := and_field v 8 8
  have m3 : v &&& 0x000000ff = (v / 2 ^ 0 % 2 ^ 8) * 2 ^ 0 := and_field v 0 8
  have hp2 : p = (p / 2048) * 2048 + (p / 32 % 64) * 32 + p % 32 := by omega
  have ha : p / 2048 < 32 := by omega
  have hb : p / 32 % 64 < 64 := by omega
  have hc : p % 32 < 32 := by omega
  generalize p / 2048 = a at hv hp2 ha
  generalize p / 32 % 64 = b at hv hp2 hb
  generalize p % 32 = c at hv hp2 hc
  have e1 : v / 65536 = a * 8 := by omega
  have e2 : v / 256 = a * 2048 + b * 4 := by omega
  have f1 : v / 2 ^ 16 % 2 ^ 8 = a * 8 := by
    rw [show (2 : Nat) ^ 16 = 65536 from rfl, e1]; omega
  have f2 : v / 2 ^ 8 % 2 ^ 8 = b * 4 := by
    rw [show (2 : Nat) ^ 8 = 256 from rfl, e2]; omega
  have f3 : v / 2 ^ 0 % 2 ^ 8 = c * 8 := by
    rw [show (2 : Nat) ^ 0 = 1 from rfl, Nat.div_one]; omega
  rw [m1, m2, m3, f1, f2, f3, or_fields _ _ _ 11 5 (by omega) (by omega)]
  omega

/-- A `u16` stored unaligned is read back. -/
theorem get_put_unaligned_u16 (e : Endian) (m : Mem) (a v : Nat) (hv : v < 65536) :
    get_unaligned_u16 e (commit m (put_unaligned_u16 e a v)) a = v := by
  cases e <;>
    simp [get_unaligned_u16, put_unaligned_u16, commit, store, u8] <;> omega

/-- A `u32` stored unaligned is read back. -/
theorem get_put_unaligned_u32 (e : Endian) (m : Mem) (a v : Nat) (hv : v < 4294967296) :
    get_unaligned_u32 e (commit m (put_unaligned_u32 e a v)) a = v := by
  cases e <;>
    simp [get_unaligned_u32, put_unaligned_u32, commit, store, u8] <;> omega

theorem get_unaligned_u16_lt (e : Endian) (m : Mem) (a : Nat) :
    get_unaligned_u16 e m a < 65536 := by
  cases e <;> simp only [get_unaligned_u16, u8] <;> omega

/-- The per-pixel path from RGB565 on a single pixel. -/
theorem sdrm_blit_from_rgb565_one (e : Endian) (src : Mem) (s ss d ds f : Nat) :
    sdrm_blit_from_rgb565 e src s ss 2 d ds 4 f 1 1
      = sdrm_put e d f (get_unaligned_u16 e src s &&& 0xf800)
          ((get_unaligned_u16 e src s &&& 0x07e0) <<< 5)
          ((get_unaligned_u16 e src s &&& 0x001f) <<< 11) := by
  simp [sdrm_blit_from_rgb565, sdrm_blit_from_rgb565_line, for_loop, u32]

/-- The per-pixel path from XRGB8888 on a single pixel. -/
theorem sdrm_blit_from_xrgb8888_one (e : Endian) (src : Mem) (s ss d ds f : Nat) :
    sdrm_blit_from_xrgb8888 e src s ss 4 d ds 2 f 1 1
      = sdrm_put e d f ((get_unaligned_u32 e src s &&& 0x00ff0000) >>> 8)
          (get_unaligned_u32 e src s &&& 0x0000ff00)
          ((get_unaligned_u32 e src s &&& 0x000000ff) <<< 8) := by
  simp [sdrm_blit_from_xrgb8888, sdrm_blit_from_xrgb8888_line, for_loop, u32]

/-! ### The counter during probe -/

theorem sdrm_of_unbind_counter (s : sdrm_device) :
    (sdrm_of_unbind s).n_used = s.n_used ∧ (sdrm_of_unbind s).warnings = s.warnings := by
  simp [sdrm_of_unbind, sdrm_of_unbind_clocks, sdrm_of_unbind_regulators]

theorem sdrm_of_bind_clocks_counter (env : clk_env) (s : sdrm_device) :
    (sdrm_of_bind_clocks env s).2.n_used = s.n_used ∧
    (sdrm_of_bind_clocks env s).2.warnings = s.warnings := by
  simp only [sdrm_of_bind_clocks]
  split_ifs <;> simp

theorem sdrm_of_bind_regulators_counter (env : reg_env) (s : sdrm_device) :
    (sdrm_of_bind_regulators env s).2.n_used = s.n_used ∧
    (sdrm_of_bind_regulators env s).2.warnings = s.warnings := by
  simp only [sdrm_of_bind_regulators]
  split_ifs <;> simp

/-- The function `sdrm_of_bind` leaves the counter alone; its `WARN_ON` stays silent on
a device without clocks and regulators. -/
theorem sdrm_of_bind_counter (env : of_env) (s : sdrm_device) :
    (sdrm_of_bind env s).2.n_used = s.n_used ∧
    (s.clks = [] → s.regulators = [] → (sdrm_of_bind env s).2.warnings = s.warnings) := by
  simp only [sdrm_of_bind]
  split_ifs with h1 h2 h3 h4
  · refine ⟨rfl, fun hc hr => ?_⟩
    simp [sdrm_device.n_clks, sdrm_device.n_regulators, hc, hr] at h1
  · exact ⟨rfl, fun _ _ => rfl⟩
  · exact ⟨by rw [(sdrm_of_unbind_counter _).1, (sdrm_of_bind_clocks_counter _ _).1],
      fun _ _ => by rw [(sdrm_of_unbind_counter _).2, (sdrm_of_bind_clocks_counter _ _).2]⟩
  · exact ⟨by rw [(sdrm_of_unbind_counter _).1, (sdrm_of_bind_regulators_counter _ _).1,
        (sdrm_of_bind_clocks_counter _ _).1],
      fun _ _ => by rw [(sdrm_of_unbind_counter _).2, (sdrm_of_bind_regulators_counter _ _).2,
        (sdrm_of_bind_clocks_counter _ _).2]⟩
  · exact ⟨by rw [(sdrm_of_bind_regulators_counter _ _).1, (sdrm_of_bind_clocks_counter _ _).1],
      fun _ _ => by rw [(sdrm_of_bind_regulators_counter _ _).2,
        (sdrm_of_bind_clocks_counter _ _).2]⟩

theorem sdrm_kms_bind_counter (env : bind_env) (s : sdrm_device) :
    (sdrm_kms_bind env s).2.n_used = s.n_used ∧
    (sdrm_kms_bind env s).2.warnings = s.warnings := by
  simp only [sdrm_kms_bind]
  split_ifs <;> simp

/-- The function `sdrm_device_bind` leaves the counter alone and, on a device without
clocks and regulators, raises no warning. -/
theorem sdrm_device_bind_counter (env : bind_env) (s : sdrm_device) :
    (sdrm_device_bind env s).2.n_used = s.n_used ∧
    (s.clks = [] → s.regulators = [] → (sdrm_device_bind env s).2.warnings = s.warnings) := by
  obtain ⟨o1, o2⟩ := sdrm_of_bind_counter env.of s
  simp only [sdrm_device_bind]
  split_ifs with h1 h2 h3
  · exact ⟨by rw [(sdrm_device_unbind_frame _).1, o1],
      fun hc hr => by rw [(sdrm_device_unbind_frame _).2.2.1, o2 hc hr]⟩
  · exact ⟨by rw [(sdrm_device_unbind_frame _).1]; exact o1,
      fun hc hr => by rw [(sdrm_device_unbind_frame _).2.2.1]; exact o2 hc hr⟩
  · exact ⟨by rw [(sdrm_device_unbind_frame _).1, (sdrm_kms_bind_counter _ _).1]; exact o1,
      fun hc hr => by
        rw [(sdrm_device_unbind_frame _).2.2.1, (sdrm_kms_bind_counter _ _).2]
        exact o2 hc hr⟩
  · refine ⟨?_, fun hc hr => ?_⟩
    · simp only [sdrm_fbdev_bind]
      split_ifs
      · exact (sdrm_kms_bind_counter _ _).1.trans o1
      · exact (sdrm_kms_bind_counter _ _).1.trans o1
    · simp only [sdrm_fbdev_bind]
      split_ifs
      · exact (sdrm_kms_bind_counter _ _).2.trans (o2 hc hr)
      · exact (sdrm_kms_bind_counter _ _).2.trans (o2 hc hr)

/-- The `WARN_ON` before the device is marked enabled is silent when the counter is
the bias. -/
theorem sdrm_simplefb_probe_enable_effect (s : sdrm_device) (h : s.n_used = INT_MIN) :
    (sdrm_simplefb_probe_enable s).warnings = s.warnings ∧
    (sdrm_simplefb_probe_enable s).n_used = 1 := by
  simp [sdrm_simplefb_probe_enable, h]

/-- When `drm_dev_register` has failed, the counter is 1: `atomic_add_return` gives
`INT_MIN + 1`, so the `WARN_ON` that compares the value with `INT_MIN` fires;
the release that follows brings the counter to `INT_MIN` and tears the device
down, and the `WARN_ON` of `sdrm_device_free` is silent. -/
theorem sdrm_simplefb_probe_disable_effect (s : sdrm_device) (h : s.n_used = 1) :
    atomic_add_return INT_MIN s.n_used = INT_MIN + 1 ∧
    ∃ d, sdrm_simplefb_probe_disable s = some d ∧ d.warnings = s.warnings + 1 ∧
      d.n_used = INT_MIN ∧ d.freed = true ∧
      d.teardown = s.teardown ++ [Teardown.unbind, Teardown.free] := by
  have hv : atomic_add_return INT_MIN s.n_used = INT_MIN + 1 := by
    rw [h]; decide
  refine ⟨hv, ?_⟩
  have hd : atomic_dec_return (INT_MIN + 1) = INT_MIN := by decide
  simp only [sdrm_simplefb_probe_disable, hv, sdrm_device_release, hd, if_true]
  refine ⟨_, rfl, ?_, ?_, rfl, ?_⟩
  · simp [sdrm_device_free, (sdrm_device_unbind_frame _).1, (sdrm_device_unbind_frame _).2.2.1]
  · simp [sdrm_device_free, (sdrm_device_unbind_frame _).1]
  · simp [sdrm_device_free, (sdrm_device_unbind_frame _).2.1]

/-- The `WARN_ON` of `sdrm_device_free` is silent on the error path of
`sdrm_device_new` and, after a failed bind, at the `error:` label of
`sdrm_simplefb_probe`. -/
theorem sdrm_device_free_silent (env : bind_env) (a b : Bool) (hw : sdrm_hw) (s : sdrm_device)
    (h : sdrm_device_new a b hw = (0, some s)) :
    s.n_used = INT_MIN ∧ s.warnings = 0 ∧
    (sdrm_device_free (sdrm_device_unbind (sdrm_device_bind env s).2)).warnings = 0 ∧
    (∀ d, sdrm_device_new a false hw = (-ENOMEM, some d) → d.warnings = 0) := by
  have hs : s.n_used = INT_MIN ∧ s.warnings = 0 ∧ s.clks = [] ∧ s.regulators = [] := by
    simp only [sdrm_device_new] at h
    split_ifs at h
    · simp at h
    · simp [ENOMEM] at h
    · simp only [Prod.mk.injEq, Option.some.injEq, true_and] at h
      subst h
      exact ⟨rfl, rfl, rfl, rfl⟩
  obtain ⟨h1, h2, h3, h4⟩ := hs
  obtain ⟨b1, b2⟩ := sdrm_device_bind_counter env s
  refine ⟨h1, h2, ?_, ?_⟩
  · simp [sdrm_device_free, (sdrm_device_unbind_frame _).1, (sdrm_device_unbind_frame _).2.2.1,
      b1, b2 h3 h4, h1, h2]
  · intro d hd
    simp only [sdrm_device_new] at hd
    split_ifs at hd
    · simp at hd
    · simp only [Prod.mk.injEq, Option.some.injEq, true_and] at hd
      subst hd
      simp [sdrm_device_free]

/-! ### Destination offsets of a blit -/

/-- Offsets inside a rectangle of a surface lie inside the surface: row `y + j`,
byte `x * c + t` of the row, with `t` inside `w` cells of `c` bytes. -/
theorem blit_offset_bound (stride height size width c x y w h j t : Nat)
    (hsize : stride * height ≤ size) (hstr : c * width ≤ stride)
    (hx : x + w ≤ width) (hy : y + h ≤ height) (hj : j < h) (ht : t < w * c) :
    y * stride + x * c + j * stride + t < size := by
  have h1 : (x + w) * c ≤ width * c := Nat.mul_le_mul_right c hx
  have h2 : (y + j + 1) * stride ≤ height * stride := Nat.mul_le_mul_right stride (by omega)
  have h3 : x * c + w * c ≤ stride := by
    rw [← Nat.add_mul]; exact le_trans h1 (by rw [Nat.mul_comm]; exact hstr)
  have h4 : y * stride + j * stride + stride ≤ size := by
    have : (y + j + 1) * stride = y * stride + j * stride + stride := by ring
    rw [← this]; exact le_trans h2 (by rw [Nat.mul_comm]; exact hsize)
  omega

theorem mem_memcpy (src : Mem) (s d len a v : Nat) (h : (a, v) ∈ memcpy src s d len) :
    d ≤ a ∧ a < d + len := by
  simp only [memcpy, mem_for_loop, List.mem_singleton, Prod.mk.injEq] at h
  obtain ⟨k, hk, ha, _⟩ := h
  omega

/-- The stores of `sdrm_put` lie in the `sdrm_put_size` bytes from `dst`. -/
theorem mem_sdrm_put (e : Endian) (dst f r g b a v : Nat)
    (h : (a, v) ∈ sdrm_put e dst f r g b) :
    dst ≤ a ∧ a < dst + sdrm_put_size f := by
  simp only [sdrm_put, sdrm_put_size] at h ⊢
  split_ifs at h ⊢ <;> cases e <;>
    simp [put_unaligned_u16, put_unaligned_u32] at h <;> omega

/-- Where `sdrm_blit_lines` stores: in line `j`, the `len` bytes from the start of
the line. -/
theorem sdrm_blit_lines_range (src : Mem) (ss ds bpp width a v : Nat) (height : Nat) :
    ∀ (s d : Nat), (a, v) ∈ sdrm_blit_lines src s ss d ds bpp width height →
      ∃ j, j < height ∧ d + j * ds ≤ a ∧ a < d + j * ds + u32 (width * bpp) := by
  induction height with
  | zero => intro s d h; simp [sdrm_blit_lines] at h
  | succ n ih =>
    intro s d h
    simp only [sdrm_blit_lines, List.mem_append] at h
    rcases h with h | h
    · have := mem_memcpy _ _ _ _ _ _ h
      exact ⟨0, by omega, by omega, by omega⟩
    · obtain ⟨j, hj, h1, h2⟩ := ih _ _ h
      refine ⟨j + 1, by omega, ?_, ?_⟩
      · rw [show d + (j + 1) * ds = d + ds + j * ds by ring]; exact h1
      · rw [show d + (j + 1) * ds = d + ds + j * ds by ring]; exact h2

/-- Where `sdrm_blit_from_rgb565` stores: in line `j`, pixel `i`, the bytes of one
pixel of the target format. -/
theorem sdrm_blit_from_rgb565_range (e : Endian) (src : Mem)
    (ss src_bpp ds dst_bpp f width a v : Nat) (height : Nat) :
    ∀ (s d : Nat),
    (a, v) ∈ sdrm_blit_from_rgb565 e src s ss src_bpp d ds dst_bpp f width height →
      ∃ j, j < height ∧ ∃ i, i < width ∧ d + j * ds + u32 (i * dst_bpp) ≤ a ∧
        a < d + j * ds + u32 (i * dst_bpp) + sdrm_put_size f := by
  induction height with
  | zero => intro s d h; simp [sdrm_blit_from_rgb565] at h
  | succ n ih =>
    intro s d h
    simp only [sdrm_blit_from_rgb565, List.mem_append] at h
    rcases h with h | h
    · simp only [sdrm_blit_from_rgb565_line, mem_for_loop] at h
      obtain ⟨i, hi, hm⟩ := h
      have := mem_sdrm_put _ _ _ _ _ _ _ _ hm
      exact ⟨0, by omega, i, hi, by omega, by omega⟩
    · obtain ⟨j, hj, i, hi, h1, h2⟩ := ih _ _ h
      refine ⟨j + 1, by omega, i, hi, ?_, ?_⟩
      · rw [show d + (j + 1) * ds = d + ds + j * ds by ring]; exact h1
      · rw [show d + (j + 1) * ds = d + ds + j * ds by ring]; exact h2

/-- Where `sdrm_blit_from_xrgb8888` stores. -/
theorem sdrm_blit_from_xrgb8888_range (e : Endian) (src : Mem)
    (ss src_bpp ds dst_bpp f width a v : Nat) (height : Nat) :
    ∀ (s d : Nat),
    (a, v) ∈ sdrm_blit_from_xrgb8888 e src s ss src_bpp d ds dst_bpp f width height →
      ∃ j, j < height ∧ ∃ i, i < width ∧ d + j * ds + u32 (i * dst_bpp) ≤ a ∧
        a < d + j * ds + u32 (i * dst_bpp) + sdrm_put_size f := by
  induction height with
  | zero => intro s d h; simp [sdrm_blit_from_xrgb8888] at h
  | succ n ih =>
    intro s d h
    simp only [sdrm_blit_from_xrgb8888, List.mem_append] at h
    rcases h with h | h
    · simp only [sdrm_blit_from_xrgb8888_line, mem_for_loop] at h
      obtain ⟨i, hi, hm⟩ := h
      have := mem_sdrm_put _ _ _ _ _ _ _ _ hm
      exact ⟨0, by omega, i, hi, by omega, by omega⟩
    · obtain ⟨j, hj, i, hi, h1, h2⟩ := ih _ _ h
      refine ⟨j + 1, by omega, i, hi, ?_, ?_⟩
      · rw [show d + (j + 1) * ds = d + ds + j * ds by ring]; exact h1
      · rw [show d + (j + 1) * ds = d + ds + j * ds by ring]; exact h2

theorem u32_le (x : Nat) : u32 x ≤ x := Nat.mod_le _ _

theorem DIV_ROUND_UP_le (n : Nat) : DIV_ROUND_UP n 8 ≤ (n + 7) / 8 := by
  have h : u32 (n + 8 - 1) ≤ n + 7 := u32_le _
  simp only [DIV_ROUND_UP]
  omega

/-! ## Claims -/

/-- C1: a device whose counter is in the live range accepts an acquire, which
returns 0 and increments `n_used`; once `sdrm_simplefb_remove` has added the
bias `INT_MIN`, every acquire that follows, after any sequence of acquires,
releases (at most as many as there were references) and remaining statements
of the removal, returns `-ENODEV` and leaves the device unchanged. -/
theorem C1_acquire_live_then_gone (d : sdrm_device) (ops : List Op)
    (h1 : 1 ≤ d.n_used) (h2 : d.n_used ≤ INT_MAX)
    (h3 : (ops.count Op.release : Int) ≤ d.n_used) :
    (d.n_used < INT_MAX →
      sdrm_device_acquire (some d) = (0, some { d with n_used := d.n_used + 1 })) ∧
    sdrm_device_acquire (some (run_ops (sdrm_simplefb_remove_step 0 d) ops))
      = (-ENODEV, some (run_ops (sdrm_simplefb_remove_step 0 d) ops)) := by
  constructor
  · intro hlt
    unfold sdrm_device_acquire atomic_inc_unless_negative
    have h0 : 0 ≤ d.n_used := by omega
    have hw : wrap_int (d.n_used + 1) = d.n_used + 1 := by
      apply wrap_int_of_range <;> simp only [INT_MIN, INT_MAX] at * <;> omega
    simp [h0, hw]
  · apply acquire_negative
    have hadd : (sdrm_simplefb_remove_step 0 d).n_used = INT_MIN + d.n_used := by
      simp only [sdrm_simplefb_remove_step, atomic_add]
      unfold wrap_int INT_MIN
      unfold INT_MAX at h2
      omega
    rw [run_ops_n_used ops _ d.n_used hadd h3 h2]
    unfold INT_MIN
    unfold INT_MAX at h2
    omega

/-- Witness for C1: a device with counter 3, then removal, two releases and an
intervening acquire. -/
theorem C1_acquire_live_then_gone_witness :
    sdrm_device_acquire (some (dev_example 3))
      = (0, some { dev_example 3 with n_used := (dev_example 3).n_used + 1 }) ∧
    sdrm_device_acquire (some (run_ops (sdrm_simplefb_remove_step 0 (dev_example 3))
        [Op.release, Op.acquire, Op.hw_unbind, Op.release]))
      = (-ENODEV, some (run_ops (sdrm_simplefb_remove_step 0 (dev_example 3))
        [Op.release, Op.acquire, Op.hw_unbind, Op.release])) :=
  have h := C1_acquire_live_then_gone (dev_example 3)
    [Op.release, Op.acquire, Op.hw_unbind, Op.release] (by decide) (by decide) (by decide)
  ⟨h.1 (by decide), h.2⟩

/-- C2, as stated, fails: with one open handle (`n_used = 2`) and the schedule in
which the handle is released between the first and the last statement of the
removal, the teardown runs inside the removal call although `N = 1`, not
inside the handle release. -/
theorem C2_teardown_site_counterexample :
    ¬ (∀ (N : Nat) (sched : List Thread) (d : sdrm_device),
        (N : Int) + 1 ≤ INT_MAX → d.n_used = 1 + N → d.teardown = [] →
        is_interleaving N sched →
        (((conc_run ⟨d, 0, []⟩ sched).ran.filter (fun e => e.teardown_ran)).map StepRec.thread
          = [if N = 0 then Thread.remover else Thread.closer])) := by
  intro h
  have h1 := h 1 [Thread.remover, Thread.closer, Thread.remover, Thread.remover, Thread.remover]
    (dev_example 2) (by decide) (by decide) (by decide) (by decide)
  revert h1
  decide

/-- C2 (amended): for every `N` with `1 + N` representable, from a registered
device with `N` open handles and in every interleaving of the statements of
one `sdrm_simplefb_remove` with `N` handle releases, the teardown
(`sdrm_device_unbind` followed by `sdrm_device_free`) runs exactly once; no
step but the last brings `n_used` to `INT_MIN` or tears down; the last step
of the schedule brings `n_used` to `INT_MIN` and runs the teardown, inside
the removal call when that step is the removal's own release (always so
when `N = 0`), inside the last handle release otherwise. -/
theorem C2_teardown_once_in_last_step (N : Nat) (sched : List Thread) (d : sdrm_device)
    (hN : (N : Int) + 1 ≤ INT_MAX) (hd : d.n_used = 1 + N) (hlog : d.teardown = [])
    (hs : is_interleaving N sched) :
    (conc_run ⟨d, 0, []⟩ sched).dev.teardown = [Teardown.unbind, Teardown.free] ∧
    (conc_run ⟨d, 0, []⟩ sched).dev.n_used = INT_MIN ∧
    (conc_run ⟨d, 0, []⟩ sched).dev.warnings = d.warnings ∧
    (∃ pre last, (conc_run ⟨d, 0, []⟩ sched).ran = pre ++ [last] ∧
      pre.map StepRec.thread ++ [last.thread] = sched ∧
      (∀ e ∈ pre, e.n_used ≠ INT_MIN ∧ e.teardown_ran = false) ∧
      last.n_used = INT_MIN ∧ last.teardown_ran = true) ∧
    (N = 0 → sched.getLast? = some Thread.remover) := by
  obtain ⟨hr, hc⟩ := hs
  have hne : sched ≠ [] := by
    intro h; subst h; simp [remove_len] at hr
  obtain ⟨r1, r2, r3, pre, last, r4, r5, r6, r7, r8⟩ :=
    conc_run_teardown sched ⟨d, 0, []⟩ hne (by simpa using hr)
      (by rw [hc]; simp [expected_n_used, hd]) (by rw [hc]; exact hN) hlog
  refine ⟨r1, r2, r3, ⟨pre, last, by simpa using r4, r5, r6, r7, r8⟩, ?_⟩
  intro h0
  rw [List.getLast?_eq_getLast _ hne]
  have hmem := List.getLast_mem hne
  cases hl : sched.getLast hne with
  | remover => rfl
  | closer =>
    rw [hl] at hmem
    have := List.count_pos_iff.mpr hmem
    omega

/-- Witness for C2 (amended): two open handles, one released before the bias is
added and one after the removal has finished. -/
theorem C2_teardown_once_in_last_step_witness :
    is_interleaving 2 [Thread.closer, Thread.remover, Thread.remover, Thread.remover,
      Thread.remover, Thread.closer] ∧
    (conc_run ⟨dev_example 3, 0, []⟩
      [Thread.closer, Thread.remover, Thread.remover, Thread.remover, Thread.remover,
       Thread.closer]).dev.teardown = [Teardown.unbind, Teardown.free] ∧
    (conc_run ⟨dev_example 3, 0, []⟩
      [Thread.closer, Thread.remover, Thread.remover, Thread.remover, Thread.remover,
       Thread.closer]).dev.n_used = INT_MIN :=
  have h := C2_teardown_once_in_last_step 2
    [Thread.closer, Thread.remover, Thread.remover, Thread.remover, Thread.remover,
     Thread.closer] (dev_example 3) (by decide) (by decide) (by decide) (by decide)
  ⟨by decide, h.1, h.2.1⟩

/-- C3: after `sdrm_simplefb_remove` on a device that still has open handles
(`n_used >= 2`), `hw->map` is `NULL`, the device is not torn down, and any
sequence of later `sdrm_dirty` calls on framebuffers with a live buffer
mapping (any rectangles) stores nothing through the hardware mapping, leaves
the hardware memory as it was and raises no warning; more generally
`sdrm_dirty` stores nothing and leaves the hardware surface unchanged
whenever `hw->map` is `NULL`. -/
theorem C3_dirty_after_remove_is_noop (e : Endian) (d : sdrm_device)
    (calls : List (sdrm_fb × Nat × Nat × Nat × Nat))
    (h2 : 2 ≤ d.n_used) (h3 : d.n_used ≤ INT_MAX)
    (hlive : ∀ c ∈ calls, c.1.bo.vmapping ≠ none) :
    (sdrm_simplefb_remove d).1 = 0 ∧
    (sdrm_simplefb_remove d).2.hw.map = none ∧
    (sdrm_simplefb_remove d).2.hw.iomem = d.hw.iomem ∧
    (sdrm_simplefb_remove d).2.teardown = d.teardown ∧
    (sdrm_dirty_seq e (sdrm_simplefb_remove d).2 calls).hw = (sdrm_simplefb_remove d).2.hw ∧
    (sdrm_dirty_seq e (sdrm_simplefb_remove d).2 calls).io_log = d.io_log ∧
    (sdrm_dirty_seq e (sdrm_simplefb_remove d).2 calls).warnings = d.warnings ∧
    (∀ (s : sdrm_device) (fb : sdrm_fb) (x y w h : Nat), s.hw.map = none →
      (sdrm_dirty e s fb x y w h).hw = s.hw ∧ (sdrm_dirty e s fb x y w h).io_log = s.io_log) := by
  have hr := sdrm_simplefb_remove_open d h2 h3
  have hm : (sdrm_simplefb_remove d).2.hw.map = none := by
    rw [hr]; exact sdrm_hw_unbind_map d.hw
  obtain ⟨q1, q2, q3⟩ := sdrm_dirty_seq_unmapped e calls _ hm hlive
  refine ⟨by rw [hr], hm, ?_, by rw [hr], q1, ?_, ?_, ?_⟩
  · rw [hr]; simp only [sdrm_hw_unbind]; cases d.hw.map <;> rfl
  · rw [q2, hr]
  · rw [q3, hr]
  · intro s fb x y w h hs
    exact sdrm_dirty_unmapped e s fb x y w h hs

/-- Witness for C3: the red 64x64 device with two open handles is removed, then
two dirty notifications arrive. -/
theorem C3_dirty_after_remove_is_noop_witness :
    (sdrm_simplefb_remove (dev_red_example 3)).2.hw.map = none ∧
    (sdrm_dirty_seq Endian.little (sdrm_simplefb_remove (dev_red_example 3)).2
      [(fb_red_example, 0, 0, 64, 64), (fb_red_example, 3, 4, 5, 6)]).io_log
      = (dev_red_example 3).io_log :=
  have h := C3_dirty_after_remove_is_noop Endian.little (dev_red_example 3)
    [(fb_red_example, 0, 0, 64, 64), (fb_red_example, 3, 4, 5, 6)] (by decide) (by decide)
    (by decide)
  ⟨h.2.1, h.2.2.2.2.2.1⟩

/-- C4 (evaluation of the code): the full-white pixel gives the canonical maximum
in every format of the table except the 10/10/10 ones, where `sdrm_put`
stores `0xFFFFFFFF`, padding bits 31..30 included, and not `0x3FFFFFFF`; the
full-black pixel gives the all-zero pattern in every format. -/
theorem C4_white_black_patterns (e : Endian) (dst : Nat) :
    sdrm_put e dst DRM_FORMAT_RGB565 0xFFFF 0xFFFF 0xFFFF = put_unaligned_u16 e dst 0xFFFF ∧
    sdrm_put e dst DRM_FORMAT_XRGB1555 0xFFFF 0xFFFF 0xFFFF = put_unaligned_u16 e dst 0x7FFF ∧
    sdrm_put e dst DRM_FORMAT_ARGB1555 0xFFFF 0xFFFF 0xFFFF = put_unaligned_u16 e dst 0x7FFF ∧
    (∀ w ∈ sdrm_put e dst DRM_FORMAT_RGB888 0xFFFF 0xFFFF 0xFFFF, w.2 = 0xFF) ∧
    (sdrm_put e dst DRM_FORMAT_RGB888 0xFFFF 0xFFFF 0xFFFF).length = 3 ∧
    sdrm_put e dst DRM_FORMAT_XRGB8888 0xFFFF 0xFFFF 0xFFFF
      = put_unaligned_u32 e dst 0x00FFFFFF ∧
    sdrm_put e dst DRM_FORMAT_ARGB8888 0xFFFF 0xFFFF 0xFFFF
      = put_unaligned_u32 e dst 0x00FFFFFF ∧
    sdrm_put e dst DRM_FORMAT_ABGR8888 0xFFFF 0xFFFF 0xFFFF
      = put_unaligned_u32 e dst 0x00FFFFFF ∧
    sdrm_put e dst DRM_FORMAT_XRGB2101010 0xFFFF 0xFFFF 0xFFFF
      = put_unaligned_u32 e dst 0xFFFFFFFF ∧
    sdrm_put e dst DRM_FORMAT_ARGB2101010 0xFFFF 0xFFFF 0xFFFF
      = put_unaligned_u32 e dst 0xFFFFFFFF ∧
    put_unaligned_u32 e dst 0xFFFFFFFF ≠ put_unaligned_u32 e dst 0x3FFFFFFF ∧
    sdrm_put e dst DRM_FORMAT_RGB565 0 0 0 = put_unaligned_u16 e dst 0 ∧
    sdrm_put e dst DRM_FORMAT_XRGB1555 0 0 0 = put_unaligned_u16 e dst 0 ∧
    sdrm_put e dst DRM_FORMAT_ARGB1555 0 0 0 = put_unaligned_u16 e dst 0 ∧
    (∀ w ∈ sdrm_put e dst DRM_FORMAT_RGB888 0 0 0, w.2 = 0) ∧
    sdrm_put e dst DRM_FORMAT_XRGB8888 0 0 0 = put_unaligned_u32 e dst 0 ∧
    sdrm_put e dst DRM_FORMAT_ARGB8888 0 0 0 = put_unaligned_u32 e dst 0 ∧
    sdrm_put e dst DRM_FORMAT_ABGR8888 0 0 0 = put_unaligned_u32 e dst 0 ∧
    sdrm_put e dst DRM_FORMAT_XRGB2101010 0 0 0 = put_unaligned_u32 e dst 0 ∧
    sdrm_put e dst DRM_FORMAT_ARGB2101010 0 0 0 = put_unaligned_u32 e dst 0 := by
  cases e
  · refine ⟨rfl, rfl, rfl, ?_, rfl, rfl, rfl, rfl, rfl, rfl, ?_, rfl, rfl, rfl, ?_, rfl, rfl,
      rfl, rfl, rfl⟩
    · intro w hw
      have : sdrm_put Endian.little dst DRM_FORMAT_RGB888 0xFFFF 0xFFFF 0xFFFF
          = [(dst + 2, 255), (dst + 1, 255), (dst, 255)] := rfl
      rw [this] at hw
      simp only [List.mem_cons, List.mem_singleton, List.not_mem_nil, or_false] at hw
      rcases hw with h | h | h <;> subst h <;> rfl
    · simp [put_unaligned_u32]
    · intro w hw
      have : sdrm_put Endian.little dst DRM_FORMAT_RGB888 0 0 0
          = [(dst + 2, 0), (dst + 1, 0), (dst, 0)] := rfl
      rw [this] at hw
      simp only [List.mem_cons, List.mem_singleton, List.not_mem_nil, or_false] at hw
      rcases hw with h | h | h <;> subst h <;> rfl
  · refine ⟨rfl, rfl, rfl, ?_, rfl, rfl, rfl, rfl, rfl, rfl, ?_, rfl, rfl, rfl, ?_, rfl, rfl,
      rfl, rfl, rfl⟩
    · intro w hw
      have : sdrm_put Endian.big dst DRM_FORMAT_RGB888 0xFFFF 0xFFFF 0xFFFF
          = [(dst, 255), (dst + 1, 255), (dst + 2, 255)] := rfl
      rw [this] at hw
      simp only [List.mem_cons, List.mem_singleton, List.not_mem_nil, or_false] at hw
      rcases hw with h | h | h <;> subst h <;> rfl
    · simp [put_unaligned_u32]
    · intro w hw
      have : sdrm_put Endian.big dst DRM_FORMAT_RGB888 0 0 0
          = [(dst, 0), (dst + 1, 0), (dst + 2, 0)] := rfl
      rw [this] at hw
      simp only [List.mem_cons, List.mem_singleton, List.not_mem_nil, or_false] at hw
      rcases hw with h | h | h <;> subst h <;> rfl

/-- C5: for all 16-bit channel values, `sdrm_put` writes, and writes nothing
else: for RGB565 the two bytes of `(r>>11)<<11 | (g>>10)<<5 | (b>>11)`; for
XRGB1555 and ARGB1555 the two bytes of `(r>>11)<<10 | (g>>11)<<5 | (b>>11)`,
whose bit 15 is clear; for XRGB8888 and ARGB8888 the four bytes of
`(r>>8)<<16 | (g>>8)<<8 | (b>>8)`, whose top byte is zero; for ABGR8888 the
same with `r` and `b` exchanged; for RGB888 on a little-endian platform the
three bytes `b>>8`, `g>>8`, `r>>8` in that order. -/
theorem C5_sdrm_put_layout (e : Endian) (dst r g b : Nat)
    (hr : r ≤ 0xFFFF) (hg : g ≤ 0xFFFF) (hb : b ≤ 0xFFFF) :
    writes_u16 e (sdrm_put e dst DRM_FORMAT_RGB565 r g b) dst
      ((r >>> 11) <<< 11 ||| (g >>> 10) <<< 5 ||| (b >>> 11)) ∧
    (∀ f, f = DRM_FORMAT_XRGB1555 ∨ f = DRM_FORMAT_ARGB1555 →
      writes_u16 e (sdrm_put e dst f r g b) dst
        ((r >>> 11) <<< 10 ||| (g >>> 11) <<< 5 ||| (b >>> 11))) ∧
    ((r >>> 11) <<< 10 ||| (g >>> 11) <<< 5 ||| (b >>> 11)).testBit 15 = false ∧
    (∀ f, f = DRM_FORMAT_XRGB8888 ∨ f = DRM_FORMAT_ARGB8888 →
      writes_u32 e (sdrm_put e dst f r g b) dst
        ((r >>> 8) <<< 16 ||| (g >>> 8) <<< 8 ||| (b >>> 8))) ∧
    ((r >>> 8) <<< 16 ||| (g >>> 8) <<< 8 ||| (b >>> 8)) >>> 24 = 0 ∧
    writes_u32 e (sdrm_put e dst DRM_FORMAT_ABGR8888 r g b) dst
      ((b >>> 8) <<< 16 ||| (g >>> 8) <<< 8 ||| (r >>> 8)) ∧
    ((b >>> 8) <<< 16 ||| (g >>> 8) <<< 8 ||| (r >>> 8)) >>> 24 = 0 ∧
    writes_3_bytes (sdrm_put Endian.little dst DRM_FORMAT_RGB888 r g b) dst
      (b >>> 8) (g >>> 8) (r >>> 8) := by
  have v1 := rgb565_value_lt r g b hr hg hb
  have v2 := xrgb1555_value_lt r g b hr hg hb
  have v3 := xrgb8888_value_lt r g b hr hg hb
  have v4 := xrgb8888_value_lt b g r hb hg hr
  refine ⟨?_, ?_, Nat.testBit_lt_two_pow v2, ?_, ?_, ?_, ?_, ?_⟩
  · rw [sdrm_put_rgb565 e dst r g b hr hg hb]
    exact put_unaligned_u16_writes e dst _ (by omega)
  · intro f hf
    rw [sdrm_put_xrgb1555 e dst f r g b hf hr hg hb]
    exact put_unaligned_u16_writes e dst _ (by omega)
  · intro f hf
    rw [sdrm_put_xrgb8888 e dst f r g b hf hr hg hb]
    exact put_unaligned_u32_writes e dst _ (by omega)
  · omega
  · rw [sdrm_put_abgr8888 e dst r g b hr hg hb]
    exact put_unaligned_u32_writes e dst _ (by omega)
  · omega
  · rw [sdrm_put_rgb888_little dst r g b hr hg hb]
    have q1 : (r >>> 8) % 256 = r >>> 8 := Nat.mod_eq_of_lt (by omega)
    have q2 : (g >>> 8) % 256 = g >>> 8 := Nat.mod_eq_of_lt (by omega)
    have q3 : (b >>> 8) % 256 = b >>> 8 := Nat.mod_eq_of_lt (by omega)
    refine ⟨⟨rfl, ?_, ?_, ?_⟩, ?_⟩
    · intro w hw
      simp only [List.mem_cons, List.mem_singleton, List.not_mem_nil, or_false] at hw
      rcases hw with h | h | h <;> subst h <;> simp
    · intro i hi
      have : i = 0 ∨ i = 1 ∨ i = 2 := by omega
      rcases this with h | h | h <;> subst h <;> simp
    · intro m a ha
      have h1 : a ≠ dst := by omega
      have h2 : a ≠ dst + 1 := by omega
      have h3 : a ≠ dst + 2 := by omega
      simp [commit, store, h1, h2, h3]
    · intro m
      simp [commit, store, u8, q1, q2, q3]

/-- Witness for C5: an orange pixel stored at offset 8 on a little-endian platform. -/
theorem C5_sdrm_put_layout_witness :
    writes_u16 Endian.little (sdrm_put Endian.little 8 DRM_FORMAT_RGB565 0xFFFF 0x8000 0x1234) 8
      ((0xFFFF >>> 11) <<< 11 ||| (0x8000 >>> 10) <<< 5 ||| (0x1234 >>> 11)) :=
  (C5_sdrm_put_layout Endian.little 8 0xFFFF 0x8000 0x1234 (by decide) (by decide)
    (by decide)).1

/-- C6 (evaluation of the code): in the 10/10/10 formats `sdrm_put` keeps 12 bits
per channel (`>> 4`), so the channels overlap.  A pure green pixel stores
`0x003FFC00`, whose red field (bits 29..20) is 3 although red is 0 and whose
green field (bits 19..10) is `0x3FF`; a pure red pixel stores `0xFFF00000`,
whose bits 31..30 are set; a pure blue pixel stores `0x00000FFF`, whose
green field is 3 although green is 0. -/
theorem C6_xrgb2101010_fields_overlap (e : Endian) (dst : Nat) :
    sdrm_put e dst DRM_FORMAT_XRGB2101010 0 0xFFFF 0 = put_unaligned_u32 e dst 0x003FFC00 ∧
    sdrm_put e dst DRM_FORMAT_ARGB2101010 0 0xFFFF 0 = put_unaligned_u32 e dst 0x003FFC00 ∧
    (0x003FFC00 >>> 20) % 1024 = 3 ∧ (0 : Nat) >>> 6 = 0 ∧
    (0x003FFC00 >>> 10) % 1024 = 0x3FF ∧
    sdrm_put e dst DRM_FORMAT_XRGB2101010 0xFFFF 0 0 = put_unaligned_u32 e dst 0xFFF00000 ∧
    sdrm_put e dst DRM_FORMAT_ARGB2101010 0xFFFF 0 0 = put_unaligned_u32 e dst 0xFFF00000 ∧
    0xFFF00000 >>> 30 = 3 ∧
    sdrm_put e dst DRM_FORMAT_XRGB2101010 0 0 0xFFFF = put_unaligned_u32 e dst 0x00000FFF ∧
    (0x00000FFF >>> 10) % 1024 = 3 := by
  cases e <;> exact ⟨rfl, rfl, rfl, rfl, rfl, rfl, rfl, rfl, rfl, rfl⟩

/-- C7, as stated, fails for XRGB8888: on the single pixel `0xFF112233` the line
copy stores the source byte `0xFF` at offset 3 of the destination, the
per-pixel path stores 0 there. -/
theorem C7_fast_path_counterexample :
    ¬ (∀ (e : Endian) (src : Mem) (s_off src_stride d_off dst_stride width height : Nat)
        (m : Mem),
        commit m (sdrm_blit_lines src s_off src_stride d_off dst_stride 4 width height)
          = commit m (sdrm_blit_from_xrgb8888 e src s_off src_stride 4 d_off dst_stride 4
              DRM_FORMAT_XRGB8888 width height)) := by
  intro h
  have h3 := congrFun (h Endian.little src_alpha_example 0 4 0 4 1 1 (fun _ => 0)) 3
  revert h3
  decide

/-- C7 (amended): with `width * bpp` below `2^32`, the line copy performs the
very stores of the per-pixel path run with the destination format equal to
the source format, hence gives a byte-identical destination from every
initial destination: for RGB565 on every source content, and for XRGB8888
and ARGB8888 on every source content whose pixels in the rectangle have a
zero top (X or alpha) byte.  (The per-pixel path stores 0 in that byte, the
line copy the source byte.) -/
theorem C7_fast_path_equivalence (e : Endian) (src : Mem)
    (s_off src_stride d_off dst_stride width height : Nat) :
    (width * 2 < 4294967296 →
      sdrm_blit_lines src s_off src_stride d_off dst_stride 2 width height
        = sdrm_blit_from_rgb565 e src s_off src_stride 2 d_off dst_stride 2
            DRM_FORMAT_RGB565 width height ∧
      ∀ m : Mem,
        commit m (sdrm_blit_lines src s_off src_stride d_off dst_stride 2 width height)
          = commit m (sdrm_blit_from_rgb565 e src s_off src_stride 2 d_off dst_stride 2
              DRM_FORMAT_RGB565 width height)) ∧
    (∀ f, f = DRM_FORMAT_XRGB8888 ∨ f = DRM_FORMAT_ARGB8888 →
      width * 4 < 4294967296 →
      (∀ j, j < height → ∀ i, i < width →
        get_unaligned_u32 e src (s_off + j * src_stride + i * 4) < 16777216) →
      sdrm_blit_lines src s_off src_stride d_off dst_stride 4 width height
        = sdrm_blit_from_xrgb8888 e src s_off src_stride 4 d_off dst_stride 4 f width height ∧
      ∀ m : Mem,
        commit m (sdrm_blit_lines src s_off src_stride d_off dst_stride 4 width height)
          = commit m (sdrm_blit_from_xrgb8888 e src s_off src_stride 4 d_off dst_stride 4 f
              width height)) := by
  constructor
  · intro hw
    have h := rgb565_rect_copy e src src_stride dst_stride width hw height s_off d_off
    exact ⟨h.symm, fun m => by rw [h]⟩
  · intro f hf hw hx
    have h := xrgb8888_rect_copy e src src_stride dst_stride f width hf hw height s_off d_off hx
    exact ⟨h.symm, fun m => by rw [h]⟩

/-- Witness for C7 (amended): a 17x3 rectangle with stride padding on both sides. -/
theorem C7_fast_path_equivalence_witness :
    sdrm_blit_lines src_xrgb_example 8 80 4 72 2 17 3
      = sdrm_blit_from_rgb565 Endian.little src_xrgb_example 8 80 2 4 72 2
          DRM_FORMAT_RGB565 17 3 ∧
    sdrm_blit_lines src_xrgb_example 8 80 4 72 4 17 3
      = sdrm_blit_from_xrgb8888 Endian.little src_xrgb_example 8 80 4 4 72 4
          DRM_FORMAT_ARGB8888 17 3 :=
  have h := C7_fast_path_equivalence Endian.little src_xrgb_example 8 80 4 72 17 3
  ⟨(h.1 (by decide)).1,
   (h.2 DRM_FORMAT_ARGB8888 (Or.inr rfl) (by decide) (by decide)).1⟩

/-- C8: when a framebuffer with a live buffer mapping is present in the plane
state, `sdrm_display_pipe_update` makes it the pipe's current surface and
applies damage once, to the full rectangle `(0, 0, width, height)`, which on
a mapped surface commits the stores of `sdrm_blit` for that rectangle; in
particular, for a 64x64 XRGB8888 framebuffer whose every pixel is
`0x00FF0000` and a mapped 64x64 RGB565 hardware surface (stride at least 128),
every one of the 64x64 hardware pixels reads `0xF800` after the call. -/
theorem C8_pipe_update_full_damage (e : Endian) (sdrm : sdrm_device) (fb : sdrm_fb)
    (plane_state : Option sdrm_fb)
    (hfb : sdrm.plane_state_fb = some fb) (hv : fb.bo.vmapping ≠ none) :
    ((sdrm_display_pipe_update e sdrm plane_state).plane_fb = some fb ∧
      (sdrm_display_pipe_update e sdrm plane_state).damage
        = sdrm.damage ++ [Damage.mk fb.ptr 0 0 fb.base.width fb.base.height] ∧
      (sdrm_display_pipe_update e sdrm plane_state).warnings = sdrm.warnings ∧
      (sdrm.hw.map ≠ none →
        (sdrm_display_pipe_update e sdrm plane_state).hw.iomem
          = commit sdrm.hw.iomem (sdrm_blit e sdrm.hw fb 0 0 fb.base.width fb.base.height))) ∧
    (fb.base.width = 64 → fb.base.height = 64 →
      fb.base.pixel_format = DRM_FORMAT_XRGB8888 → fb.base.bits_per_pixel = 32 →
      fb.base.offsets0 < 4294967296 →
      (∀ y, y < 64 → ∀ x, x < 64 →
        get_unaligned_u32 e fb.bo.data (fb.base.offsets0 + y * fb.base.pitches0 + x * 4)
          = 0x00FF0000) →
      sdrm.hw.map ≠ none → sdrm.hw.width = 64 → sdrm.hw.height = 64 →
      sdrm.hw.format = DRM_FORMAT_RGB565 → sdrm.hw.bpp = 16 → 128 ≤ sdrm.hw.stride →
      ∀ y, y < 64 → ∀ x, x < 64 →
        get_unaligned_u16 e (sdrm_display_pipe_update e sdrm plane_state).hw.iomem
          (y * sdrm.hw.stride + x * 2) = 0xF800) := by
  obtain ⟨f1, f2, f3, f4, f5⟩ := sdrm_crtc_send_vblank_event_frame sdrm
  have hupd : sdrm_display_pipe_update e sdrm plane_state
      = sdrm_dirty e { sdrm_crtc_send_vblank_event sdrm with plane_fb := some fb } fb 0 0
          fb.base.width fb.base.height := by
    simp only [sdrm_display_pipe_update, hfb]
  obtain ⟨l1, l2, l3⟩ := sdrm_dirty_live e
    { sdrm_crtc_send_vblank_event sdrm with plane_fb := some fb } fb 0 0
    fb.base.width fb.base.height hv
  have hio : sdrm.hw.map ≠ none →
      (sdrm_display_pipe_update e sdrm plane_state).hw.iomem
        = commit sdrm.hw.iomem (sdrm_blit e sdrm.hw fb 0 0 fb.base.width fb.base.height) := by
    intro hm
    have hm2 : ({ sdrm_crtc_send_vblank_event sdrm with plane_fb := some fb } :
        sdrm_device).hw.map ≠ none := by simpa [f1] using hm
    obtain ⟨m1, _⟩ := sdrm_dirty_mapped e
      { sdrm_crtc_send_vblank_event sdrm with plane_fb := some fb } fb 0 0
      fb.base.width fb.base.height hv hm2
    rw [hupd, m1]
    simp only [f1]
  refine ⟨⟨by rw [hupd, l3], by rw [hupd, l1]; simp only [f2], by rw [hupd, l2]; simp only [f3],
    hio⟩, ?_⟩
  intro hw hh hf hb ho hpix hm gw gh gf gb gs y hy x hx
  rw [hio hm]
  have hne : fb.base.pixel_format ≠ sdrm.hw.format := by
    rw [hf, gf]; decide
  have hblit : sdrm_blit e sdrm.hw fb 0 0 fb.base.width fb.base.height
      = sdrm_blit_from_xrgb8888 e fb.bo.data fb.base.offsets0 fb.base.pitches0 4 0
          sdrm.hw.stride 2 DRM_FORMAT_RGB565 64 64 := by
    have d1 : DIV_ROUND_UP 32 8 = 4 := by decide
    have d2 : DIV_ROUND_UP 16 8 = 2 := by decide
    have o1 : u32 fb.base.offsets0 = fb.base.offsets0 := Nat.mod_eq_of_lt ho
    simp only [sdrm_blit, hne, hb, gb, d1, d2, if_false, Nat.zero_mul, Nat.add_zero, o1,
      show u32 0 = 0 from rfl, hw, hh]
    rw [hf, gf]
    simp
  rw [hblit]
  exact red_blit_rgb565 e fb.bo.data fb.base.offsets0 fb.base.pitches0 sdrm.hw.stride 64 64
    (by decide) (by omega) hpix sdrm.hw.iomem y x hy hx

set_option maxRecDepth 100000 in
/-- Witness for C8: the red 64x64 framebuffer on the 64x64 RGB565 surface,
little-endian; the last pixel of the last row reads `0xF800`. -/
theorem C8_pipe_update_full_damage_witness :
    (sdrm_display_pipe_update Endian.little (dev_red_example 1) none).damage
      = [Damage.mk 7 0 0 64 64] ∧
    get_unaligned_u16 Endian.little
      (sdrm_display_pipe_update Endian.little (dev_red_example 1) none).hw.iomem
      (63 * 128 + 63 * 2) = 0xF800 :=
  have h := C8_pipe_update_full_damage Endian.little (dev_red_example 1) fb_red_example none
    rfl (by decide)
  ⟨h.1.2.1, h.2 rfl rfl rfl rfl (by decide)
    (by decide)
    (by decide) rfl rfl rfl rfl (by decide) 63 (by decide) 63 (by decide)⟩

/-- C9: `sdrm_fb_dirty` returns 0, and the damage applications it issues on a
framebuffer of size `W x H` are: none when the framebuffer is not the
pipe's current surface; the full surface `(0, 0, W, H)` when the clip array
is absent or `n_clips` is 0; otherwise, in order, `(x1, y1, x2-x1, y2-y1)`
for exactly those of the first `n_clips` clips with `x1 <= x2`, `x2 <= W`,
`y1 <= y2`, `y2 <= H`, an invalid clip being skipped on its own. -/
theorem C9_fb_dirty_damage_list (e : Endian) (sdrm : sdrm_device) (fb : sdrm_fb)
    (clips : Option (List drm_clip_rect)) (n_clips : Nat)
    (hn : ∀ cl, clips = some cl → n_clips ≤ cl.length) :
    (sdrm_fb_dirty e sdrm fb clips n_clips).1 = 0 ∧
    (sdrm_fb_dirty e sdrm fb clips n_clips).2.damage
      = sdrm.damage ++ spec_fb_dirty_damage
          (decide (sdrm.plane_fb.map (fun f => f.ptr) = some fb.ptr)) fb.ptr
          fb.base.width fb.base.height ((clips.getD []).take n_clips) := by
  unfold sdrm_fb_dirty
  by_cases hcur : sdrm.plane_fb.map (fun f => f.ptr) = some fb.ptr
  · simp only [hcur, if_true, decide_True, spec_fb_dirty_damage]
    cases clips with
    | none => simp [sdrm_dirty_damage]
    | some cl =>
      by_cases h0 : n_clips = 0
      · subst h0; simp [sdrm_dirty_damage]
      · have hlen := hn cl rfl
        simp only [h0, if_false, Option.getD_some, sdrm_fb_dirty_loop_damage, true_and]
        cases htk : cl.take n_clips with
        | nil =>
          have := congrArg List.length htk
          simp only [List.length_take, List.length_nil] at this
          omega
        | cons c cs => rfl
  · simp [hcur, spec_fb_dirty_damage]

/-- Witness for C9: the batch of the specification's example on the 100x100
framebuffer. -/
theorem C9_fb_dirty_damage_list_witness :
    (sdrm_fb_dirty Endian.little dev_100_example fb_100_example (some clips_example) 3).1 = 0 ∧
    (sdrm_fb_dirty Endian.little dev_100_example fb_100_example (some clips_example) 3).2.damage
      = dev_100_example.damage ++ spec_fb_dirty_damage
          (decide (dev_100_example.plane_fb.map (fun f => f.ptr) = some fb_100_example.ptr))
          fb_100_example.ptr fb_100_example.base.width fb_100_example.base.height
          (((some clips_example).getD []).take 3) :=
  C9_fb_dirty_damage_list Endian.little dev_100_example fb_100_example (some clips_example) 3
    (by intro cl h; cases h; decide)

/-- C10, as stated, fails: on the 100x100 current framebuffer and the clip list
`[(0,0,50,50), (60,200,10,10), (10,10,5,90)]` of `(x1,y1,x2,y2)` rectangles,
`sdrm_fb_dirty` applies one damage, not two; the third clip is skipped. -/
theorem C10_clip_example_counterexample :
    ¬ (∃ w h, (sdrm_fb_dirty Endian.little dev_100_example fb_100_example
          (some clips_example) 3).2.damage
        = [Damage.mk fb_100_example.ptr 0 0 50 50, Damage.mk fb_100_example.ptr 10 10 w h]) := by
  have h : (sdrm_fb_dirty Endian.little dev_100_example fb_100_example
      (some clips_example) 3).2.damage = [Damage.mk fb_100_example.ptr 0 0 50 50] := by
    have hcur : dev_100_example.plane_fb.map (fun f => f.ptr) = some fb_100_example.ptr := rfl
    simp only [sdrm_fb_dirty, hcur, if_true, if_false, show (3 : Nat) ≠ 0 from by decide,
      sdrm_fb_dirty_loop_damage]
    decide
  rw [h]
  rintro ⟨w, h, hh⟩
  simp at hh

/-- C10 (amended): on a 100x100 framebuffer that is the pipe's current surface
and the clip list `[(0,0,50,50), (60,200,10,10), (10,10,5,90)]` of
`(x1,y1,x2,y2)` rectangles, `sdrm_fb_dirty` applies damage for exactly the
first rectangle and skips the second and the third, which both have
`x1 > x2`.  Read as `(x, y, width, height)`, that is as the clips
`(0,0,50,50)`, `(60,200,70,210)`, `(10,10,15,100)`, exactly the first and the
third are applied and the second (`y2 > height`) is skipped. -/
theorem C10_clip_example (e : Endian) (sdrm : sdrm_device) (fb : sdrm_fb)
    (hw : fb.base.width = 100) (hh : fb.base.height = 100)
    (hcur : sdrm.plane_fb.map (fun f => f.ptr) = some fb.ptr) :
    (sdrm_fb_dirty e sdrm fb (some clips_example) 3).2.damage
      = sdrm.damage ++ [Damage.mk fb.ptr 0 0 50 50] ∧
    (sdrm_fb_dirty e sdrm fb (some clips_example_xywh) 3).2.damage
      = sdrm.damage ++ [Damage.mk fb.ptr 0 0 50 50, Damage.mk fb.ptr 10 10 5 90] := by
  constructor
  · simp only [sdrm_fb_dirty, hcur, if_true, if_false, show (3 : Nat) ≠ 0 from by decide,
      sdrm_fb_dirty_loop_damage, hw, hh]
    simp [clips_example, spec_clip_valid]
  · simp only [sdrm_fb_dirty, hcur, if_true, if_false, show (3 : Nat) ≠ 0 from by decide,
      sdrm_fb_dirty_loop_damage, hw, hh]
    simp [clips_example_xywh, spec_clip_valid]

/-- Witness for C10 (amended): the example device. -/
theorem C10_clip_example_witness :
    (sdrm_fb_dirty Endian.little dev_100_example fb_100_example (some clips_example) 3).2.damage
      = dev_100_example.damage ++ [Damage.mk fb_100_example.ptr 0 0 50 50] :=
  (C10_clip_example Endian.little dev_100_example fb_100_example rfl rfl rfl).1

/-- C11 (evaluation of the code): `sdrm_hw_identify` multiplies in `u32`.  The
descriptor with stride 65536 and height 65536 on a 4096-byte resource is
accepted although `stride * height = 2^32` exceeds the resource, and the
RGB565 descriptor with width `2^31` and stride 4 is accepted although
`2 * width = 2^32` exceeds the stride. -/
theorem C11_identify_accepts_wrapped_products :
    (sdrm_hw_identify formats_example bpp_example pdev_tall_example).1 = 0 ∧
    (sdrm_hw_identify formats_example bpp_example pdev_tall_example).2.isSome = true ∧
    resource_size { start := 0x1000, last := 0x1FFF } < 65536 * 65536 ∧
    (sdrm_hw_identify formats_example bpp_example pdev_wide_example).1 = 0 ∧
    (sdrm_hw_identify formats_example bpp_example pdev_wide_example).2.isSome = true ∧
    4 < (16 + 7) / 8 * 2147483648 := by
  refine ⟨by rfl, by rfl, by decide, by rfl, by rfl, by decide⟩

/-- C12: `sdrm_put` with a target format outside its table stores nothing, and
`sdrm_blit` with a framebuffer format that differs from the hardware format
and is none of ARGB8888, XRGB8888 and RGB565 stores nothing; `sdrm_dirty`
then leaves the hardware memory and the store log as they were and, the
buffer being mapped, raises no warning. -/
theorem C12_unknown_format_stores_nothing (e : Endian) (dst f r g b : Nat)
    (sdrm : sdrm_device) (fb : sdrm_fb) (x y w h : Nat)
    (h1 : f ≠ DRM_FORMAT_RGB565) (h2 : f ≠ DRM_FORMAT_XRGB1555) (h3 : f ≠ DRM_FORMAT_ARGB1555)
    (h4 : f ≠ DRM_FORMAT_RGB888) (h5 : f ≠ DRM_FORMAT_XRGB8888) (h6 : f ≠ DRM_FORMAT_ARGB8888)
    (h7 : f ≠ DRM_FORMAT_ABGR8888) (h8 : f ≠ DRM_FORMAT_XRGB2101010)
    (h9 : f ≠ DRM_FORMAT_ARGB2101010)
    (g0 : fb.base.pixel_format ≠ sdrm.hw.format)
    (g1 : fb.base.pixel_format ≠ DRM_FORMAT_ARGB8888)
    (g2 : fb.base.pixel_format ≠ DRM_FORMAT_XRGB8888)
    (g3 : fb.base.pixel_format ≠ DRM_FORMAT_RGB565) :
    sdrm_put e dst f r g b = [] ∧
    (∀ m : Mem, commit m (sdrm_put e dst f r g b) = m) ∧
    sdrm_blit e sdrm.hw fb x y w h = [] ∧
    (sdrm_dirty e sdrm fb x y w h).hw = sdrm.hw ∧
    (sdrm_dirty e sdrm fb x y w h).io_log = sdrm.io_log ∧
    (fb.bo.vmapping ≠ none → (sdrm_dirty e sdrm fb x y w h).warnings = sdrm.warnings) := by
  have hp := sdrm_put_unknown e dst f r g b h1 h2 h3 h4 h5 h6 h7 h8 h9
  have hb := sdrm_blit_unknown e sdrm.hw fb x y w h g0 g1 g2 g3
  refine ⟨hp, fun m => by rw [hp]; rfl, hb, ?_, ?_, ?_⟩
  · unfold sdrm_dirty
    cases hv : fb.bo.vmapping with
    | none => simp
    | some v =>
      cases hm : sdrm.hw.map with
      | none => simp [hm]
      | some p =>
        simp only [hm, hb, commit]
        rw [← hm]
  · unfold sdrm_dirty
    cases hv : fb.bo.vmapping with
    | none => simp
    | some v => cases hm : sdrm.hw.map <;> simp [hm, hb]
  · intro hv
    exact (sdrm_dirty_live e sdrm fb x y w h hv).2.1

/-- Witness for C12: format code 0 as target, and an ABGR8888 framebuffer on the
RGB565 example surface. -/
theorem C12_unknown_format_stores_nothing_witness :
    sdrm_put Endian.little 0 0 0xFFFF 0xFFFF 0xFFFF = [] ∧
    sdrm_blit Endian.little (dev_red_example 1).hw
      { fb_red_example with base := { fb_red_example.base with
          pixel_format := DRM_FORMAT_ABGR8888 } } 0 0 64 64 = [] :=
  have h := C12_unknown_format_stores_nothing Endian.little 0 0 0xFFFF 0xFFFF 0xFFFF
    (dev_red_example 1)
    { fb_red_example with base := { fb_red_example.base with
        pixel_format := DRM_FORMAT_ABGR8888 } } 0 0 64 64
    (by decide) (by decide) (by decide) (by decide) (by decide) (by decide) (by decide)
    (by decide) (by decide) (by decide) (by decide) (by decide) (by decide)
  ⟨h.1, h.2.2.1⟩

/-- C16, at a failing input: on a fresh device where the clocks, the regulators
and the mapping are set up and `drm_connector_init` then fails with `-ENOMEM`,
`sdrm_device_bind` returns `-ENOMEM` with nothing mapped and no clock or
regulator held, but `drm_mode_config_cleanup` runs twice for the single
`drm_mode_config_init`: once in the error path of `sdrm_kms_bind` and once more
in `sdrm_kms_unbind`, for a step that had not completed. -/
theorem C16_kms_failure_cleans_up_twice :
    (sdrm_device_bind bind_env_example dev_fresh_example).1 = -ENOMEM ∧
    (sdrm_device_bind bind_env_example dev_fresh_example).2.res_log
      = [ResEv.get ResKind.clk 1, ResEv.get ResKind.clk 3, ResEv.enable ResKind.clk 1,
         ResEv.put ResKind.clk 3, ResEv.get ResKind.regulator 7,
         ResEv.enable ResKind.regulator 7, ResEv.mode_config_init,
         ResEv.mode_config_cleanup, ResEv.mode_config_cleanup,
         ResEv.disable ResKind.regulator 7, ResEv.put ResKind.regulator 7,
         ResEv.disable ResKind.clk 1, ResEv.put ResKind.clk 1] ∧
    (sdrm_device_bind bind_env_example dev_fresh_example).2.res_log.count
      ResEv.mode_config_init = 1 ∧
    (sdrm_device_bind bind_env_example dev_fresh_example).2.res_log.count
      ResEv.mode_config_cleanup = 2 ∧
    (sdrm_device_bind bind_env_example dev_fresh_example).2.hw.map = none ∧
    (sdrm_device_bind bind_env_example dev_fresh_example).2.clks = [] ∧
    (sdrm_device_bind bind_env_example dev_fresh_example).2.regulators = [] := by
  decide

/-- C17: `sdrm_hw_bind` and `sdrm_hw_unbind` change only the `map` field; a
surface as `sdrm_hw_new` makes it is unmapped, and from an unmapped surface
the sequence bind, unbind, bind gives the state and return value of a
single bind; `sdrm_hw_bind` on a mapped surface returns 0 without consulting
the mapping primitive and changes nothing; after `sdrm_hw_unbind` the `map`
field is `NULL`. -/
theorem C17_hw_bind_unbind (ioremap_wc : Nat → Nat → Option Nat) (hw : sdrm_hw)
    (mode : simplefb_platform_data) (format : simplefb_format) (mem : resource)
    (bpp : Nat) (iomem : Mem) :
    (sdrm_hw_bind ioremap_wc hw).2 = { hw with map := (sdrm_hw_bind ioremap_wc hw).2.map } ∧
    sdrm_hw_unbind hw = { hw with map := none } ∧
    (sdrm_hw_new mode format mem bpp iomem).map = none ∧
    (hw.map = none →
      sdrm_hw_bind ioremap_wc (sdrm_hw_unbind (sdrm_hw_bind ioremap_wc hw).2)
        = sdrm_hw_bind ioremap_wc hw) ∧
    (hw.map ≠ none → ∀ other : Nat → Nat → Option Nat, sdrm_hw_bind other hw = (0, hw)) ∧
    (sdrm_hw_unbind hw).map = none := by
  refine ⟨?_, ?_, rfl, ?_, ?_, sdrm_hw_unbind_map hw⟩
  · obtain ⟨a1, a2, a3, a4, a5, a6, a7, mp, a9⟩ := hw
    cases mp <;> simp [sdrm_hw_bind]
  · obtain ⟨a1, a2, a3, a4, a5, a6, a7, mp, a9⟩ := hw
    cases mp <;> simp [sdrm_hw_unbind]
  · intro hm
    unfold sdrm_hw_bind sdrm_hw_unbind
    simp only [hm]
    cases hio : ioremap_wc hw.base hw.size <;> simp [hio]
  · intro hm other
    unfold sdrm_hw_bind
    cases hm2 : hw.map with
    | none => exact absurd hm2 hm
    | some p => simp [hm2]

/-- Witness for C17: the surface made for the tall example descriptor, and the
mapped example surface. -/
theorem C17_hw_bind_unbind_witness :
    sdrm_hw_bind ioremap_example (sdrm_hw_unbind (sdrm_hw_bind ioremap_example
        (sdrm_hw_new ⟨4, 2, 8, "r5g6b5"⟩ ⟨"r5g6b5", DRM_FORMAT_RGB565⟩ ⟨4096, 8191⟩ 16
          (fun _ => 0))).2)
      = sdrm_hw_bind ioremap_example
          (sdrm_hw_new ⟨4, 2, 8, "r5g6b5"⟩ ⟨"r5g6b5", DRM_FORMAT_RGB565⟩ ⟨4096, 8191⟩ 16
            (fun _ => 0)) ∧
    sdrm_hw_bind (fun _ _ => none) hw_example = (0, hw_example) :=
  ⟨(C17_hw_bind_unbind ioremap_example
      (sdrm_hw_new ⟨4, 2, 8, "r5g6b5"⟩ ⟨"r5g6b5", DRM_FORMAT_RGB565⟩ ⟨4096, 8191⟩ 16
        (fun _ => 0))
      ⟨4, 2, 8, "r5g6b5"⟩ ⟨"r5g6b5", DRM_FORMAT_RGB565⟩ ⟨4096, 8191⟩ 16 (fun _ => 0)).2.2.2.1 rfl,
   (C17_hw_bind_unbind ioremap_example hw_example
      ⟨4, 2, 8, "r5g6b5"⟩ ⟨"r5g6b5", DRM_FORMAT_RGB565⟩ ⟨4096, 8191⟩ 16
      (fun _ => 0)).2.2.2.2.1 (by decide) (fun _ _ => none)⟩

/-- C18: each of `sdrm_display_pipe_enable`, `sdrm_display_pipe_disable` and
`sdrm_display_pipe_update` sends the completion event registered in the CRTC
state when the call starts, once, and clears it; with no CRTC state or no
event registered it sends nothing; over any sequence of commits and calls
the events sent form a subsequence of the event pending at the start
followed by the events registered, so that none is sent twice when these
are distinct. -/
theorem C18_completion_event_once (e : Endian) (s : sdrm_device) (ps : Option sdrm_fb)
    (ops : List PipeOp) :
    (∀ ev, s.crtc_state = some { event := some ev } →
      ((sdrm_display_pipe_enable s).sent = s.sent ++ [ev] ∧
        (sdrm_display_pipe_enable s).crtc_state = some { event := none }) ∧
      ((sdrm_display_pipe_disable s).sent = s.sent ++ [ev] ∧
        (sdrm_display_pipe_disable s).crtc_state = some { event := none }) ∧
      ((sdrm_display_pipe_update e s ps).sent = s.sent ++ [ev] ∧
        (sdrm_display_pipe_update e s ps).crtc_state = some { event := none })) ∧
    (s.crtc_state = none ∨ s.crtc_state = some { event := none } →
      (sdrm_display_pipe_enable s).sent = s.sent ∧
      (sdrm_display_pipe_disable s).sent = s.sent ∧
      (sdrm_display_pipe_update e s ps).sent = s.sent ∧
      (sdrm_display_pipe_update e s ps).crtc_state = s.crtc_state) ∧
    (∃ l, (run_pipe e s ops).sent = s.sent ++ l ∧
      l.Sublist (pending_event s ++ registered_events ops) ∧
      ((pending_event s ++ registered_events ops).Nodup → l.Nodup)) := by
  obtain ⟨q1, q2, q3, q4⟩ := sdrm_crtc_send_vblank_event_effect s
  obtain ⟨u1, u2⟩ := sdrm_display_pipe_update_events e s ps
  refine ⟨?_, ?_, ?_⟩
  · intro ev hev
    have hp : pending_event s = [ev] := by simp [pending_event, hev]
    rw [hp] at q1
    exact ⟨⟨q1, q3 ev hev⟩, ⟨q1, q3 ev hev⟩, ⟨by rw [u1, q1], by rw [u2, q3 ev hev]⟩⟩
  · intro hnone
    have hp : pending_event s = [] := by
      rcases hnone with h | h <;> simp [pending_event, h]
    have hs := q4 hp
    refine ⟨?_, ?_, ?_, ?_⟩
    · show (sdrm_crtc_send_vblank_event s).sent = s.sent
      rw [hs]
    · show (sdrm_crtc_send_vblank_event s).sent = s.sent
      rw [hs]
    · rw [u1, hs]
    · rw [u2, hs]
  · obtain ⟨l, hl, hsub⟩ := run_pipe_sent e ops s
    exact ⟨l, hl, hsub, fun hnd => List.Nodup.sublist hsub hnd⟩

/-- Witness for C18: the example device has event 5 pending; an update sends it,
a second update sends nothing more. -/
theorem C18_completion_event_once_witness :
    (sdrm_display_pipe_update Endian.little (dev_red_example 1) none).sent
      = (dev_red_example 1).sent ++ [5] ∧
    (sdrm_display_pipe_update Endian.little (dev_red_example 1) none).crtc_state
      = some { event := none } :=
  ((C18_completion_event_once Endian.little (dev_red_example 1) none []).1 5 rfl).2.2

/-- C13, as stated, fails: for size 0, with the allocation and
`drm_gem_object_init` succeeding, `sdrm_bo_new` warns and returns a buffer
object, having initialised the backing object with size 0. -/
theorem C13_bo_new_counterexample :
    ¬ (∀ (PAGE_SHIFT : Nat) (kzalloc_ok : Bool) (init : Nat → Int) (data : Mem) (size : Nat),
        size = 0 ∨ size % 2 ^ PAGE_SHIFT ≠ 0 →
        (sdrm_bo_new PAGE_SHIFT kzalloc_ok init data size).bo.isNone = true ∧
        (sdrm_bo_new PAGE_SHIFT kzalloc_ok init data size).gem_init = []) := by
  intro h
  have h0 := (h 12 true (fun _ => 0) (fun _ => 0) 0 (Or.inl rfl)).1
  revert h0
  decide

/-- C13 (amended): `sdrm_bo_new` fires its `WARN_ON` exactly for a size that is
zero or not a multiple of the page size, and does not fail on that account:
whatever the size, it returns a buffer object exactly when `kzalloc` and
`drm_gem_object_init` succeed, and `drm_gem_object_init` is called with that
size whenever `kzalloc` succeeds; the object returned has nothing pinned and
nothing mapped. -/
theorem C13_bo_new (PAGE_SHIFT : Nat) (kzalloc_ok : Bool) (init : Nat → Int) (data : Mem)
    (size : Nat) :
    ((sdrm_bo_new PAGE_SHIFT kzalloc_ok init data size).warned = true ↔
      (size = 0 ∨ size % 2 ^ PAGE_SHIFT ≠ 0)) ∧
    ((sdrm_bo_new PAGE_SHIFT kzalloc_ok init data size).bo.isSome = true ↔
      (kzalloc_ok = true ∧ init size = 0)) ∧
    (sdrm_bo_new PAGE_SHIFT kzalloc_ok init data size).gem_init
      = (if kzalloc_ok then [size] else []) ∧
    (∀ bo, (sdrm_bo_new PAGE_SHIFT kzalloc_ok init data size).bo = some bo →
      bo.size = size ∧ bo.pages = none ∧ bo.vmapping = none) := by
  have hw : (sdrm_bo_new PAGE_SHIFT kzalloc_ok init data size).warned
      = decide (size = 0 ∨ size &&& (2 ^ PAGE_SHIFT - 1) ≠ 0) := by
    unfold sdrm_bo_new
    cases kzalloc_ok <;> simp
    split <;> rfl
  refine ⟨?_, ?_, ?_, ?_⟩
  · rw [hw, Nat.and_pow_two_sub_one_eq_mod]
    simp
  · unfold sdrm_bo_new
    cases kzalloc_ok
    · simp
    · by_cases hi : init size = 0 <;> simp [hi]
  · unfold sdrm_bo_new
    cases kzalloc_ok
    · simp
    · by_cases hi : init size = 0 <;> simp [hi]
  · intro bo hbo
    unfold sdrm_bo_new at hbo
    cases kzalloc_ok
    · simp at hbo
    · by_cases hi : init size = 0
      · simp [hi] at hbo
        subst hbo
        exact ⟨rfl, rfl, rfl⟩
      · simp [hi] at hbo

/-- C14, as stated, fails: on a fresh buffer object, when pinning succeeds and
`vmap` fails, `sdrm_bo_vmap` returns `-ENOMEM` and leaves the pages pinned:
`bo->pages` was `NULL` before the call and is not afterwards. -/
theorem C14_bo_vmap_counterexample :
    ¬ (∀ (env : vmap_env) (bo : sdrm_bo), (sdrm_bo_vmap env bo).1 < 0 →
        (sdrm_bo_vmap env bo).2.1.pages = bo.pages ∧
        (sdrm_bo_vmap env bo).2.1.vmapping = bo.vmapping) := by
  intro h
  have h0 := (h { get_pages := ErrPtr.ok 7, vmap := none } bo_example (by decide)).1
  revert h0
  decide

/-- C14 (amended): whenever `sdrm_bo_vmap` returns an error, `bo->vmapping` is
unchanged and nothing is released (`drm_gem_put_pages` is not called).  If
the error comes from pinning, `bo->pages` is `NULL` after the call as it was
before.  If it comes from `vmap`, the return value is `-ENOMEM` and
`bo->pages` stays set: to what it was if pages were pinned before, otherwise
to the pages pinned during the call, which remain pinned. -/
theorem C14_bo_vmap_failure (env : vmap_env) (bo : sdrm_bo)
    (hfail : (sdrm_bo_vmap env bo).1 < 0) :
    (sdrm_bo_vmap env bo).2.1.vmapping = bo.vmapping ∧
    (sdrm_bo_vmap env bo).2.1.size = bo.size ∧
    BoCall.put_pages ∉ (sdrm_bo_vmap env bo).2.2 ∧
    ((bo.pages = none ∧ (∃ e, env.get_pages = ErrPtr.err e ∧ (sdrm_bo_vmap env bo).1 = e) ∧
        (sdrm_bo_vmap env bo).2.1.pages = none) ∨
      ((sdrm_bo_vmap env bo).1 = -ENOMEM ∧ env.vmap = none ∧ bo.vmapping = none ∧
        (∀ p, bo.pages = some p → (sdrm_bo_vmap env bo).2.1.pages = some p) ∧
        (bo.pages = none →
          ∃ p, env.get_pages = ErrPtr.ok p ∧ (sdrm_bo_vmap env bo).2.1.pages = some p))) := by
  unfold sdrm_bo_vmap at hfail ⊢
  cases hp : bo.pages with
  | none =>
    cases hg : env.get_pages with
    | err e =>
      simp [hp, hg]
    | ok p =>
      simp only [hp, hg, sdrm_bo_vmap_map] at hfail ⊢
      cases hv : bo.vmapping with
      | some v => simp [hv] at hfail
      | none =>
        cases hm : env.vmap with
        | some m => simp [hv, hm] at hfail
        | none =>
          simp [hv, hm]
  | some q =>
    simp only [hp, sdrm_bo_vmap_map] at hfail ⊢
    cases hv : bo.vmapping with
    | some v => simp [hv] at hfail
    | none =>
      cases hm : env.vmap with
      | some m => simp [hv, hm] at hfail
      | none =>
        simp [hv, hm, hp]

/-- Witness for C14 (amended): pinning fails with `-ENOMEM` on the fresh object. -/
theorem C14_bo_vmap_failure_witness :
    (sdrm_bo_vmap { get_pages := ErrPtr.err (-12), vmap := some 3 } bo_example).2.1.vmapping
      = bo_example.vmapping ∧
    (sdrm_bo_vmap { get_pages := ErrPtr.err (-12), vmap := some 3 } bo_example).2.1.size
      = bo_example.size :=
  have h := C14_bo_vmap_failure { get_pages := ErrPtr.err (-12), vmap := some 3 } bo_example
    (by decide)
  ⟨h.1, h.2.1⟩

/-- C15: once `sdrm_bo_vmap` has returned 0 on a buffer object (the pinning call,
if made, returning pages or a negative error), a further `sdrm_bo_vmap`
returns 0, calls neither `drm_gem_get_pages` nor `vmap`, whatever they would
answer, and leaves the buffer object, `pages` and `vmapping` included,
unchanged. -/
theorem C15_bo_vmap_idempotent (env other : vmap_env) (bo : sdrm_bo)
    (hwf : ∀ e, env.get_pages = ErrPtr.err e → e < 0)
    (hok : (sdrm_bo_vmap env bo).1 = 0) :
    (sdrm_bo_vmap other (sdrm_bo_vmap env bo).2.1).1 = 0 ∧
    (sdrm_bo_vmap other (sdrm_bo_vmap env bo).2.1).2.2 = [] ∧
    (sdrm_bo_vmap other (sdrm_bo_vmap env bo).2.1).2.1.pages = (sdrm_bo_vmap env bo).2.1.pages ∧
    (sdrm_bo_vmap other (sdrm_bo_vmap env bo).2.1).2.1.vmapping
      = (sdrm_bo_vmap env bo).2.1.vmapping ∧
    (sdrm_bo_vmap other (sdrm_bo_vmap env bo).2.1).2.1.size = (sdrm_bo_vmap env bo).2.1.size ∧
    (sdrm_bo_vmap env bo).2.1.pages ≠ none ∧ (sdrm_bo_vmap env bo).2.1.vmapping ≠ none := by
  have key : ∀ b : sdrm_bo, b.pages ≠ none → b.vmapping ≠ none →
      sdrm_bo_vmap other b = (0, b, []) := by
    intro b hp hv
    unfold sdrm_bo_vmap sdrm_bo_vmap_map
    cases hp2 : b.pages with
    | none => exact absurd hp2 hp
    | some p =>
      cases hv2 : b.vmapping with
      | none => exact absurd hv2 hv
      | some v => simp [hv2]
  have hboth : (sdrm_bo_vmap env bo).2.1.pages ≠ none ∧
      (sdrm_bo_vmap env bo).2.1.vmapping ≠ none := by
    unfold sdrm_bo_vmap at hok ⊢
    cases hp : bo.pages with
    | none =>
      cases hg : env.get_pages with
      | err e =>
        simp only [hp, hg] at hok
        have := hwf e hg
        omega
      | ok p =>
        simp only [hp, hg, sdrm_bo_vmap_map] at hok ⊢
        cases hv : bo.vmapping with
        | some v => simp [hv]
        | none =>
          cases hm : env.vmap with
          | some m => simp [hv, hm]
          | none => simp [hv, hm, ENOMEM] at hok
    | some q =>
      simp only [hp, sdrm_bo_vmap_map] at hok ⊢
      cases hv : bo.vmapping with
      | some v => simp [hv, hp]
      | none =>
        cases hm : env.vmap with
        | some m => simp [hv, hm, hp]
        | none => simp [hv, hm, ENOMEM] at hok
  rw [key _ hboth.1 hboth.2]
  exact ⟨rfl, rfl, rfl, rfl, rfl, hboth.1, hboth.2⟩

/-- Witness for C15: the fresh object is pinned and mapped, then asked again while
the memory layer would refuse both calls. -/
theorem C15_bo_vmap_idempotent_witness :
    (sdrm_bo_vmap { get_pages := ErrPtr.err (-12), vmap := none }
      (sdrm_bo_vmap { get_pages := ErrPtr.ok 7, vmap := some 3 } bo_example).2.1).1 = 0 ∧
    (sdrm_bo_vmap { get_pages := ErrPtr.err (-12), vmap := none }
      (sdrm_bo_vmap { get_pages := ErrPtr.ok 7, vmap := some 3 } bo_example).2.1).2.2 = [] :=
  have h := C15_bo_vmap_idempotent { get_pages := ErrPtr.ok 7, vmap := some 3 }
    { get_pages := ErrPtr.err (-12), vmap := none } bo_example
    (by intro e h; cases h) (by decide)
  ⟨h.1, h.2.1⟩

/-- C20 (evaluation of the code): the `simple-framebuffer` resource
`[0x1000, 0x2FFF]` shares the addresses `0x2000 .. 0x2FFF` with the aperture
`[0x2000, 0x3000)`, yet `sysfb_evict_match_resource` returns false for it
(it starts below the aperture), and `sysfb_evict_conflicts` with
`SYSFB_EVICT_PLATFORM` returns 0 and leaves the device on the bus. -/
theorem C20_partial_overlap_not_evicted :
    resource_overlaps { start := 0x1000, last := 0x2FFF } { base := 0x2000, size := 0x1000 } ∧
    sysfb_evict_match_resource 64 ctx_example { start := 0x1000, last := 0x2FFF } = false ∧
    sysfb_evict_platform_device true 64 ctx_example pdev_overlap_example = false ∧
    (sysfb_evict_conflicts true 64 0 0 (some ctx_example) [pdev_overlap_example]).1 = 0 ∧
    (sysfb_evict_conflicts true 64 0 0 (some ctx_example) [pdev_overlap_example]).2.length = 1 := by
  refine ⟨⟨0x2000, by decide, by decide, by decide, by decide⟩, by decide, by decide, by decide,
    by decide⟩

/-- C19 (as stated), refuted: on a node with one clock, when the allocation of
the clock array fails, `sdrm_of_bind` fails (with `-ENOMEM`) although no lookup
returned `-EPROBE_DEFER`; so failure is not equivalent to a deferred lookup. -/
theorem C19_of_bind_counterexample :
    ¬ (∀ (env : of_env) (s : sdrm_device), s.clks = [] → s.regulators = [] →
        env.has_node = true →
        ((sdrm_of_bind env s).1 < 0 ↔
          (ErrPtr.err (-EPROBE_DEFER) ∈ env.clk.lookups ∨
            (true, ErrPtr.err (-EPROBE_DEFER)) ∈ env.reg.props))) := by
  intro h
  have h1 := (h of_env_nomem_example dev_fresh_example rfl rfl rfl).1 (by decide)
  revert h1
  decide

/-- C19 (amended): `sdrm_of_bind`, entered on a device with an `of_node` and no
clock or regulator yet, fails exactly when, for the clocks or for the
regulators, there is at least one candidate and either the array cannot be
allocated (`-ENOMEM`) or a lookup that is made returns `-EPROBE_DEFER`
(`-EPROBE_DEFER`). On failure `n_clks = n_regulators = 0`. Every other lookup
or enable failure is not fatal: the bind returns 0, the arrays hold the
resources found, with `NULL` in place of those that could not be enabled. In
all cases the calls made leave exactly the entries of the arrays held and
enabled: everything else that was acquired has been put. -/
theorem C19_of_bind_outcome (env : of_env) (s : sdrm_device)
    (hc : s.clks = []) (hr : s.regulators = []) (hn : env.has_node = true) :
    ((sdrm_of_bind env s).1 < 0 ↔
      (of_fatal env.clk.alloc_ok (env.clk.lookups.map (fun l => (true, l))) ∨
        of_fatal env.reg.alloc_ok env.reg.props)) ∧
    ((sdrm_of_bind env s).1 = 0 ∨ (sdrm_of_bind env s).1 = -EPROBE_DEFER ∨
      (sdrm_of_bind env s).1 = -ENOMEM) ∧
    ((sdrm_of_bind env s).1 = -EPROBE_DEFER →
      (ErrPtr.err (-EPROBE_DEFER) ∈ env.clk.lookups ∨
        (true, ErrPtr.err (-EPROBE_DEFER)) ∈ env.reg.props)) ∧
    ((sdrm_of_bind env s).1 = -ENOMEM →
      (env.clk.alloc_ok = false ∨ env.reg.alloc_ok = false)) ∧
    ((sdrm_of_bind env s).1 < 0 →
      (sdrm_of_bind env s).2.n_clks = 0 ∧ (sdrm_of_bind env s).2.n_regulators = 0) ∧
    ((sdrm_of_bind env s).1 = 0 →
      (sdrm_of_bind env s).2.clks
        = of_kept env.clk.enable (of_found (env.clk.lookups.map (fun l => (true, l)))) ∧
      (sdrm_of_bind env s).2.regulators = of_kept env.reg.enable (of_found env.reg.props)) ∧
    ∃ d, (sdrm_of_bind env s).2.res_log = s.res_log ++ d ∧
      ∀ h,
        res_held ResKind.clk d h = (((sdrm_of_bind env s).2.clks.count (some h) : Nat) : Int) ∧
        res_enabled ResKind.clk d h
          = (((sdrm_of_bind env s).2.clks.count (some h) : Nat) : Int) ∧
        res_held ResKind.regulator d h
          = (((sdrm_of_bind env s).2.regulators.count (some h) : Nat) : Int) ∧
        res_enabled ResKind.regulator d h
          = (((sdrm_of_bind env s).2.regulators.count (some h) : Nat) : Int) := by
  obtain ⟨c1, c2, c3, c4, dc, c5, c6⟩ := sdrm_of_bind_clocks_spec env.clk s hc
  obtain ⟨r1, r2, r3, r4, dr, r5, r6⟩ :=
    sdrm_of_bind_regulators_spec env.reg (sdrm_of_bind_clocks env.clk s).2 (c2.trans hr)
  have c1b : (sdrm_of_bind_clocks env.clk s).1
      = (if env.clk.lookups.map (fun l => ((true : Bool), l)) = [] then 0
          else if env.clk.alloc_ok = false then -ENOMEM
          else if of_deferred (env.clk.lookups.map (fun l => (true, l))) then -EPROBE_DEFER
          else 0) := by
    rw [c1]; simp
  obtain ⟨fc1, fc2, fc3, fc4, fc5⟩ := of_code_facts _ _ _ c1b
  obtain ⟨fr1, fr2, fr3, fr4, fr5⟩ := of_code_facts _ _ _ r1
  have fc3b : (sdrm_of_bind_clocks env.clk s).1 = -EPROBE_DEFER →
      ErrPtr.err (-EPROBE_DEFER) ∈ env.clk.lookups := by
    intro hx
    have := fc3 hx
    simpa using this
  have hguard : ¬ (s.n_clks > 0 ∨ s.n_regulators > 0) := by
    simp [sdrm_device.n_clks, sdrm_device.n_regulators, hc, hr]
  by_cases hcf : (sdrm_of_bind_clocks env.clk s).1 < 0
  · -- the clocks fail
    have hR : sdrm_of_bind env s
        = ((sdrm_of_bind_clocks env.clk s).1, sdrm_of_unbind (sdrm_of_bind_clocks env.clk s).2) := by
      simp [sdrm_of_bind, hguard, hn, hcf]
    obtain ⟨u1, u2, u3⟩ := sdrm_of_unbind_spec (sdrm_of_bind_clocks env.clk s).2
    rw [hR]
    refine ⟨⟨fun _ => Or.inl (fc1.1 hcf), fun _ => hcf⟩, fc2,
      fun hx => Or.inl (fc3b hx), fun hx => Or.inl (fc4 hx),
      fun _ => by simp [sdrm_device.n_clks, sdrm_device.n_regulators, u1, u2],
      fun hx => absurd hcf (by simp only [] at hx; omega), ?_⟩
    refine ⟨dc, ?_, ?_⟩
    · simp only []
      rw [u3, c5, c3 hcf, c2, hr]
      simp [of_release_all]
    · intro h
      simp only []
      rw [u1, u2]
      have k1 := c6 ResKind.clk h
      have k2 := c6 ResKind.regulator h
      rw [c3 hcf] at k1 k2
      simpa using ⟨k1.1, k1.2, k2.1, k2.2⟩
  · have rc0 := fc5 hcf
    have nfc : ¬ of_fatal env.clk.alloc_ok (env.clk.lookups.map (fun l => (true, l))) :=
      fun x => hcf (fc1.2 x)
    by_cases hrf : (sdrm_of_bind_regulators env.reg (sdrm_of_bind_clocks env.clk s).2).1 < 0
    · -- the regulators fail
      have hR : sdrm_of_bind env s
          = ((sdrm_of_bind_regulators env.reg (sdrm_of_bind_clocks env.clk s).2).1,
              sdrm_of_unbind
                (sdrm_of_bind_regulators env.reg (sdrm_of_bind_clocks env.clk s).2).2) := by
        simp [sdrm_of_bind, hguard, hn, hcf, hrf]
      obtain ⟨u1, u2, u3⟩ := sdrm_of_unbind_spec
        (sdrm_of_bind_regulators env.reg (sdrm_of_bind_clocks env.clk s).2).2
      rw [hR]
      refine ⟨⟨fun _ => Or.inr (fr1.1 hrf), fun _ => hrf⟩, fr2,
        fun hx => Or.inr (fr3 hx), fun hx => Or.inr (fr4 hx),
        fun _ => by simp [sdrm_device.n_clks, sdrm_device.n_regulators, u1, u2],
        fun hx => absurd hrf (by simp only [] at hx; omega), ?_⟩
      refine ⟨dc ++ (dr ++ of_release_all ResKind.clk (sdrm_of_bind_clocks env.clk s).2.clks),
        ?_, ?_⟩
      · simp only []
        rw [u3, r5, c5, r3 hrf, r2]
        simp [of_release_all]
      · intro h
        simp only []
        rw [u1, u2]
        have k1 := c6 ResKind.clk h
        have k2 := c6 ResKind.regulator h
        have k3 := r6 ResKind.clk h
        have k4 := r6 ResKind.regulator h
        have k5 := res_release_all ResKind.clk ResKind.clk
          (sdrm_of_bind_clocks env.clk s).2.clks h
        have k6 := res_release_all ResKind.clk ResKind.regulator
          (sdrm_of_bind_clocks env.clk s).2.clks h
        rw [r3 hrf] at k3 k4
        simp only [res_held_append, res_enabled_append, k1.1, k1.2, k2.1, k2.2, k3.1, k3.2,
          k4.1, k4.2, k5.1, k5.2, k6.1, k6.2]
        simp
    · -- both succeed
      have rr0 := fr5 hrf
      have nfr : ¬ of_fatal env.reg.alloc_ok env.reg.props := fun x => hrf (fr1.2 x)
      have hR : sdrm_of_bind env s
          = (0, (sdrm_of_bind_regulators env.reg (sdrm_of_bind_clocks env.clk s).2).2) := by
        simp [sdrm_of_bind, hguard, hn, hcf, hrf]
      rw [hR]
      refine ⟨⟨fun hx => absurd hx (by simp), fun hx => hx.elim (fun x => absurd x nfc)
          (fun x => absurd x nfr)⟩, Or.inl rfl,
        fun hx => absurd hx (by simp [EPROBE_DEFER]), fun hx => absurd hx (by simp [ENOMEM]),
        fun hx => absurd hx (by simp), fun _ => ⟨?_, r4 rr0⟩, ?_⟩
      · simp only []
        rw [r2]
        exact c4 rc0
      · refine ⟨dc ++ dr, ?_, ?_⟩
        · simp only []
          rw [r5, c5, List.append_assoc]
        · intro h
          simp only []
          have k1 := c6 ResKind.clk h
          have k2 := c6 ResKind.regulator h
          have k3 := r6 ResKind.clk h
          have k4 := r6 ResKind.regulator h
          simp only [res_held_append, res_enabled_append, k1.1, k1.2, k2.1, k2.2, k3.1, k3.2,
            k4.1, k4.2, r2]
          simp

/-- Witness for C19 (amended): on the example node the bind succeeds although one
clock lookup, one clock enable, one name allocation and one regulator lookup
fail. -/
theorem C19_of_bind_outcome_witness :
    dev_fresh_example.clks = [] ∧ dev_fresh_example.regulators = [] ∧
    of_env_example.has_node = true ∧
    ((sdrm_of_bind of_env_example dev_fresh_example).1 < 0 ↔
      (of_fatal of_env_example.clk.alloc_ok
          (of_env_example.clk.lookups.map (fun l => (true, l))) ∨
        of_fatal of_env_example.reg.alloc_ok of_env_example.reg.props)) ∧
    ((sdrm_of_bind of_env_example dev_fresh_example).1 = 0 →
      (sdrm_of_bind of_env_example dev_fresh_example).2.clks
        = of_kept of_env_example.clk.enable
            (of_found (of_env_example.clk.lookups.map (fun l => (true, l)))) ∧
      (sdrm_of_bind of_env_example dev_fresh_example).2.regulators
        = of_kept of_env_example.reg.enable (of_found of_env_example.reg.props)) :=
  have h := C19_of_bind_outcome of_env_example dev_fresh_example rfl rfl rfl
  ⟨rfl, rfl, rfl, h.1, h.2.2.2.2.2.1⟩

/-- C21: let the hardware geometry satisfy `stride * height ≤ size` and
`ceil(bpp / 8) * width ≤ stride` in exact integers, let the framebuffer have the
width and height of the hardware, and let the rectangle satisfy
`x + w ≤ width` and `y + h ≤ height`.  With bits per pixel that belong to the
formats (a pixel of the hardware format takes at most the hardware's bytes
per pixel, and a framebuffer of the hardware's format has the hardware's bits
per pixel), every byte that `sdrm_blit` stores, on either path and for every
framebuffer format, lies at an offset below `hw.size` of the mapping. -/
theorem C21_blit_within_surface (e : Endian) (hw : sdrm_hw) (fb : sdrm_fb) (x y w h : Nat)
    (hsize : hw.stride * hw.height ≤ hw.size)
    (hstride : (hw.bpp + 7) / 8 * hw.width ≤ hw.stride)
    (hW : fb.base.width = hw.width) (hH : fb.base.height = hw.height)
    (hx : x + w ≤ fb.base.width) (hy : y + h ≤ fb.base.height)
    (hfmt : sdrm_put_size hw.format ≤ DIV_ROUND_UP hw.bpp 8)
    (hsame : fb.base.pixel_format = hw.format → fb.base.bits_per_pixel = hw.bpp) :
    ∀ a v, (a, v) ∈ sdrm_blit e hw fb x y w h → a < hw.size := by
  intro a v hm
  rw [hW] at hx
  rw [hH] at hy
  have hc : DIV_ROUND_UP hw.bpp 8 * hw.width ≤ hw.stride :=
    le_trans (Nat.mul_le_mul_right _ (DIV_ROUND_UP_le hw.bpp)) hstride
  have hoff : u32 (y * hw.stride + x * DIV_ROUND_UP hw.bpp 8)
      ≤ y * hw.stride + x * DIV_ROUND_UP hw.bpp 8 := u32_le _
  have pixel : ∀ j, j < h → ∀ i, i < w →
      u32 (y * hw.stride + x * DIV_ROUND_UP hw.bpp 8) + j * hw.stride
        + u32 (i * DIV_ROUND_UP hw.bpp 8) ≤ a →
      a < u32 (y * hw.stride + x * DIV_ROUND_UP hw.bpp 8) + j * hw.stride
        + u32 (i * DIV_ROUND_UP hw.bpp 8) + sdrm_put_size hw.format → a < hw.size := by
    intro j hj i hi hlo ha
    have hi2 : u32 (i * DIV_ROUND_UP hw.bpp 8) ≤ i * DIV_ROUND_UP hw.bpp 8 := u32_le _
    have h0 : 0 < DIV_ROUND_UP hw.bpp 8 := by
      by_contra hz
      have : sdrm_put_size hw.format = 0 := by omega
      omega
    have hmul : (i + 1) * DIV_ROUND_UP hw.bpp 8 ≤ w * DIV_ROUND_UP hw.bpp 8 :=
      Nat.mul_le_mul_right _ (by omega)
    rw [Nat.add_mul, Nat.one_mul] at hmul
    have hb := blit_offset_bound hw.stride hw.height hw.size hw.width (DIV_ROUND_UP hw.bpp 8)
      x y w h j (i * DIV_ROUND_UP hw.bpp 8 + (DIV_ROUND_UP hw.bpp 8 - 1)) hsize hc hx hy hj
      (by omega)
    omega
  simp only [sdrm_blit] at hm
  split_ifs at hm with h1 h2 h3
  · -- identical formats: line copy
    obtain ⟨j, hj, h4, h5⟩ := sdrm_blit_lines_range _ _ _ _ _ _ _ _ _ _ hm
    rw [hsame h1] at h5
    by_cases hz : w * DIV_ROUND_UP hw.bpp 8 = 0
    · rw [hz, show u32 0 = 0 from rfl] at h5
      omega
    · have hlen : u32 (w * DIV_ROUND_UP hw.bpp 8) ≤ w * DIV_ROUND_UP hw.bpp 8 := u32_le _
      have hb := blit_offset_bound hw.stride hw.height hw.size hw.width (DIV_ROUND_UP hw.bpp 8)
        x y w h j (w * DIV_ROUND_UP hw.bpp 8 - 1) hsize hc hx hy hj (by omega)
      omega
  · obtain ⟨j, hj, i, hi, h4, h5⟩ := sdrm_blit_from_xrgb8888_range _ _ _ _ _ _ _ _ _ _ _ _ _ hm
    exact pixel j hj i hi h4 h5
  · obtain ⟨j, hj, i, hi, h4, h5⟩ := sdrm_blit_from_rgb565_range _ _ _ _ _ _ _ _ _ _ _ _ _ hm
    exact pixel j hj i hi h4 h5
  · simp at hm

/-- Witness for C21: the bottom-right 4x2 rectangle of the 64x64 red XRGB8888
framebuffer on the 64x64 RGB565 surface of 8192 bytes; the last store is at
offset 8191. -/
theorem C21_blit_within_surface_witness :
    (8191, 0xF8) ∈ sdrm_blit Endian.little (dev_red_example 1).hw fb_red_example 60 62 4 2 ∧
    ∀ a v, (a, v) ∈ sdrm_blit Endian.little (dev_red_example 1).hw fb_red_example 60 62 4 2 →
      a < (dev_red_example 1).hw.size :=
  ⟨by decide,
    C21_blit_within_surface Endian.little (dev_red_example 1).hw fb_red_example 60 62 4 2
      (by decide) (by decide) rfl rfl (by decide) (by decide) (by decide) (by decide)⟩

/-- C22: for every 16-bit RGB565 pixel `p`, on either byte order, converting `p` to
XRGB8888 with the per-pixel path `sdrm_blit_from_rgb565` stores the three
fields left-aligned in the colour bytes (top byte zero), and converting that
pixel back with `sdrm_blit_from_xrgb8888` to RGB565 stores `p` again. -/
theorem C22_rgb565_round_trip (e : Endian) (p : Nat) (hp : p < 65536) (m0 m1 m2 : Mem)
    (s d1 d2 ss ds1 ds2 : Nat) :
    get_unaligned_u32 e
        (commit m1 (sdrm_blit_from_rgb565 e (commit m0 (put_unaligned_u16 e s p)) s ss 2
          d1 ds1 4 DRM_FORMAT_XRGB8888 1 1)) d1
      = (p / 2048) * 524288 + (p / 32 % 64) * 1024 + (p % 32) * 8 ∧
    get_unaligned_u16 e
        (commit m2 (sdrm_blit_from_xrgb8888 e
          (commit m1 (sdrm_blit_from_rgb565 e (commit m0 (put_unaligned_u16 e s p)) s ss 2
            d1 ds1 4 DRM_FORMAT_XRGB8888 1 1))
          d1 ds1 4 d2 ds2 2 DRM_FORMAT_RGB565 1 1)) d2
      = p := by
  have hr : p &&& 0xf800 ≤ 0xFFFF := by
    rw [show p &&& 0xf800 = (p / 2 ^ 11 % 2 ^ 5) * 2 ^ 11 from and_field p 11 5]; omega
  have hg : (p &&& 0x07e0) <<< 5 ≤ 0xFFFF := by
    rw [show p &&& 0x07e0 = (p / 2 ^ 5 % 2 ^ 6) * 2 ^ 5 from and_field p 5 6]; omega
  have hb : (p &&& 0x001f) <<< 11 ≤ 0xFFFF := by
    rw [show p &&& 0x001f = (p / 2 ^ 0 % 2 ^ 5) * 2 ^ 0 from and_field p 0 5]; omega
  have hv := rgb565_expand_value p hp
  have hup : get_unaligned_u32 e
        (commit m1 (sdrm_blit_from_rgb565 e (commit m0 (put_unaligned_u16 e s p)) s ss 2
          d1 ds1 4 DRM_FORMAT_XRGB8888 1 1)) d1
      = (p / 2048) * 524288 + (p / 32 % 64) * 1024 + (p % 32) * 8 := by
    rw [sdrm_blit_from_rgb565_one, get_put_unaligned_u16 e m0 s p hp,
      sdrm_put_xrgb8888 e d1 _ _ _ _ (Or.inl rfl) hr hg hb, hv]
    exact get_put_unaligned_u32 e m1 d1 _ (by omega)
  refine ⟨hup, ?_⟩
  rw [sdrm_blit_from_xrgb8888_one, hup]
  have hc := rgb565_collapse_value p hp _ rfl
  have hr2 : (((p / 2048) * 524288 + (p / 32 % 64) * 1024 + (p % 32) * 8) &&& 0x00ff0000) >>> 8
      ≤ 0xFFFF := by
    rw [show ((p / 2048) * 524288 + (p / 32 % 64) * 1024 + (p % 32) * 8) &&& 0x00ff0000
      = (((p / 2048) * 524288 + (p / 32 % 64) * 1024 + (p % 32) * 8) / 2 ^ 16 % 2 ^ 8) * 2 ^ 16
      from and_field _ 16 8]
    omega
  have hg2 : ((p / 2048) * 524288 + (p / 32 % 64) * 1024 + (p % 32) * 8) &&& 0x0000ff00
      ≤ 0xFFFF := by
    rw [show ((p / 2048) * 524288 + (p / 32 % 64) * 1024 + (p % 32) * 8) &&& 0x0000ff00
      = (((p / 2048) * 524288 + (p / 32 % 64) * 1024 + (p % 32) * 8) / 2 ^ 8 % 2 ^ 8) * 2 ^ 8
      from and_field _ 8 8]
    omega
  have hb2 : (((p / 2048) * 524288 + (p / 32 % 64) * 1024 + (p % 32) * 8) &&& 0x000000ff) <<< 8
      ≤ 0xFFFF := by
    rw [show ((p / 2048) * 524288 + (p / 32 % 64) * 1024 + (p % 32) * 8) &&& 0x000000ff
      = (((p / 2048) * 524288 + (p / 32 % 64) * 1024 + (p % 32) * 8) / 2 ^ 0 % 2 ^ 8) * 2 ^ 0
      from and_field _ 0 8]
    omega
  rw [sdrm_put_rgb565 e d2 _ _ _ hr2 hg2 hb2, hc]
  exact get_put_unaligned_u16 e m2 d2 p hp

/-- Witness for C22: the pixel `0xF81F` (magenta) on a little-endian platform. -/
theorem C22_rgb565_round_trip_witness :
    (0xF81F : Nat) < 65536 ∧
    get_unaligned_u16 Endian.little
        (commit (fun _ => 0) (sdrm_blit_from_xrgb8888 Endian.little
          (commit (fun _ => 0) (sdrm_blit_from_rgb565 Endian.little
            (commit (fun _ => 0) (put_unaligned_u16 Endian.little 0 0xF81F)) 0 2 2
            0 4 4 DRM_FORMAT_XRGB8888 1 1))
          0 4 4 0 2 2 DRM_FORMAT_RGB565 1 1)) 0
      = 0xF81F :=
  ⟨by decide,
    (C22_rgb565_round_trip Endian.little 0xF81F (by decide) (fun _ => 0) (fun _ => 0)
      (fun _ => 0) 0 0 0 2 4 2).2⟩

/-- C23, at a failing input: in `sdrm_simplefb_probe`, when identification, the
allocations and the bind succeed and `drm_dev_register` fails with `-ENOMEM`,
the counter has just been set to 1, so `atomic_add_return(INT_MIN, &sdrm->n_used)`
gives `INT_MIN + 1`, not `INT_MIN`: the `WARN_ON` on that path fires.  The
release that follows brings the counter to `INT_MIN`, so the `WARN_ON` of
`sdrm_device_free` is silent; the probe ends with one warning raised.  With
`drm_dev_register` succeeding the same probe raises no warning: the `WARN_ON`
before the device is marked enabled is silent. -/
theorem C23_register_failure_fires_warning :
    (sdrm_simplefb_probe (probe_env_example (-ENOMEM)) pdev_example).1 = -ENOMEM ∧
    atomic_add_return INT_MIN 1 = INT_MIN + 1 ∧
    atomic_add_return INT_MIN 1 ≠ INT_MIN ∧
    (sdrm_simplefb_probe (probe_env_example (-ENOMEM)) pdev_example).2.map
      (fun d => (d.warnings, d.n_used, d.freed)) = some (1, INT_MIN, true) ∧
    (sdrm_simplefb_probe (probe_env_example 0) pdev_example).2.map
      (fun d => (d.warnings, d.n_used, d.freed)) = some (0, 1, false) := by
  refine ⟨by rfl, by decide, by decide, by rfl, by rfl⟩

end Simpledrm
